import Mathlib

/-!
# TetrisInMemory: a shallow embedding of the game core

The definitions follow the C++ sources under `Tetris/`:

* `Block.h`      : `Colour`, `Block`
* `Position.h`   : `Position`
* `Screen.h`     : `IsLineFull`, `RemoveFullLines`, `Screen`
* `Figure.h`     : `Direction`, `DrawMode`, the `Figure` interface
* `FigureImpl.h` : `Draw`, `Translate`, `Rotate`, `BarT`, `Square`, `BigSquare`, `Bar`
* `FigureImpl.cpp` : the rotation tables
* `TetrisGame.h` : `Game`

Modelling conventions.

* `std::int32_t` rows, columns and indices are `Int`; signed overflow is undefined
  behaviour in C++ and is not modelled.
* `std::array` values are lists.  The unchecked `operator[]` of the screen is modelled
  by `Option`: an access outside the buffer is `none`, and every function that performs
  such an access returns an `Option`.
* Arguments passed by non-const reference are threaded through: a function returns the
  final value of each of them next to its C++ return value.
* The screen dimensions `LinesCount` and `LineLength` (fixed in `ScreenDef.h`) are
  parameters.
-/

namespace Tetris

/-! ## Block.h, Position.h -/

/-- The enum `Colour` of `Block.h`: `red` marks a filled cell, `background` an empty one. -/
inductive Colour where
  | red
  | background
  deriving DecidableEq, Repr

/-- The class `Position`: a row index and a column index. -/
structure Position where
  _row : Int
  _col : Int
  deriving DecidableEq, Repr

/-- The `Position::operator+`: row + row, column + column. -/
def Position.add (a p : Position) : Position :=
  { _row := a._row + p._row, _col := a._col + p._col }

instance : Add Position := ⟨Position.add⟩

/-- The class `Block`: a position and a colour. -/
structure Block where
  _pos : Position
  _color : Colour
  deriving DecidableEq, Repr

/-- The constructor `Block(Position p)`: the colour keeps its default, `red`. -/
def Block.ofPosition (p : Position) : Block :=
  { _pos := p, _color := Colour.red }

/-- The default constructor `Block()`: position `{}`, colour `red`. -/
instance : Inhabited Block := ⟨{ _pos := { _row := 0, _col := 0 }, _color := Colour.red }⟩

/-- The accessor `Block::Pos`. -/
def Block.Pos (b : Block) : Position := b._pos

/-- The member `Block::IsEmpty`: the block has the background colour. -/
def Block.IsEmpty (b : Block) : Bool := decide (b._color = Colour.background)

/-- The `Block::operator==`: `IsEmpty() == b.IsEmpty()`. -/
def Block.eq (a b : Block) : Bool := a.IsEmpty == b.IsEmpty

/-- The constructor `EmptyBlock(Position p)`: a block with the background colour. -/
def EmptyBlock.ofPosition (p : Position) : Block :=
  { _pos := p, _color := Colour.background }

/-! ## Screen.h -/

/-- The alias `LineType`: one line of the screen. -/
abbrev LineType := List Colour

/-- The alias `LinesCollection`: the lines of the screen, line 0 on top. -/
abbrev LinesCollection := List LineType

/-- The function `IsLineFull`: the loop returns `false` at the first background cell. -/
def IsLineFull : LineType → Bool
  | [] => true
  | b :: rest => if b = Colour.background then false else IsLineFull rest

/-- The first loop of the lambda `move`: `for (i = count; i > 0; i--) lines[i] = lines[i - 1]`.
The first argument is the loop variable `i`. -/
def RemoveFullLines.moveLoop : Nat → LinesCollection → Option LinesCollection
  | 0, lines => some lines
  | i + 1, lines =>
    match lines[i]? with
    | none => none
    | some above =>
      if i + 1 < lines.length then RemoveFullLines.moveLoop i (lines.set (i + 1) above)
      else none

/-- The lambda `move` of `RemoveFullLines`: the copy loop, then
`lines[0].fill(Colour::background)`. -/
def RemoveFullLines.move (lines : LinesCollection) (count : Nat) : Option LinesCollection :=
  match RemoveFullLines.moveLoop count lines with
  | none => none
  | some moved =>
    match moved[0]? with
    | none => none
    | some top => some (moved.set 0 (List.replicate top.length Colour.background))

/-- The loop `for (i = 1; i < size; i++) if (IsLineFull(lines[i])) move(i)` of
`RemoveFullLines`.  The first argument is `size - i`, the number of iterations left;
the second is `i`. -/
def RemoveFullLines.loop : Nat → Nat → LinesCollection → Option LinesCollection
  | 0, _, lines => some lines
  | todo + 1, i, lines =>
    match lines[i]? with
    | none => none
    | some row =>
      if IsLineFull row then
        match RemoveFullLines.move lines i with
        | none => none
        | some moved => RemoveFullLines.loop todo (i + 1) moved
      else RemoveFullLines.loop todo (i + 1) lines

/-- The function template `RemoveFullLines`: `size` is read once, the scan starts at
line 1. -/
def RemoveFullLines (lines : LinesCollection) : Option LinesCollection :=
  RemoveFullLines.loop (lines.length - 1) 1 lines

/-- The class template `Screen`: the member `_lines`. -/
structure Screen (LinesCount LineLength : Nat) where
  _lines : LinesCollection
  deriving DecidableEq, Repr

variable {LinesCount LineLength : Nat}

/-- The value-initialised screen `_lines{}`: every cell is `background` (0). -/
def Screen.empty (LinesCount LineLength : Nat) : Screen LinesCount LineLength :=
  { _lines := List.replicate LinesCount (List.replicate LineLength Colour.background) }

/-- The shape `std::array<std::array<Colour, LineLength>, LinesCount>` of the buffer. -/
def Screen.WF (s : Screen LinesCount LineLength) : Prop :=
  s._lines.length = LinesCount ∧ ∀ l ∈ s._lines, l.length = LineLength

instance (s : Screen LinesCount LineLength) : Decidable s.WF := by
  unfold Screen.WF; infer_instance

/-- The static function `Width`. -/
def Screen.Width (_s : Screen LinesCount LineLength) : Int := LineLength

/-- The static function `Depth`. -/
def Screen.Depth (_s : Screen LinesCount LineLength) : Int := LinesCount

/-- The static function `Dimention`. -/
def Screen.Dimention (LinesCount LineLength : Nat) : Position :=
  { _row := LinesCount, _col := LineLength }

/-- The const `operator[]`, read: `_lines[p._row][p._col]`, unchecked in C++. -/
def Screen.get (s : Screen LinesCount LineLength) (p : Position) : Option Colour :=
  if p._row < 0 ∨ p._col < 0 then none
  else
    match s._lines[p._row.toNat]? with
    | none => none
    | some row => row[p._col.toNat]?

/-- The `operator[]`, assigned to: `_lines[p._row][p._col] = c`, unchecked in C++. -/
def Screen.set (s : Screen LinesCount LineLength) (p : Position) (c : Colour) :
    Option (Screen LinesCount LineLength) :=
  if p._row < 0 ∨ p._col < 0 then none
  else
    match s._lines[p._row.toNat]? with
    | none => none
    | some row =>
      if p._col.toNat < row.length then
        some { _lines := s._lines.set p._row.toNat (row.set p._col.toNat c) }
      else none

/-- The member `Screen::Colision`: the chain of `||` stops at the first true operand, so
the cell is read only after the four range tests have failed. -/
def Screen.Colision (s : Screen LinesCount LineLength) (p : Position) : Option Bool :=
  if p._col ≥ s.Width then some true
  else if p._col < 0 then some true
  else if p._row ≥ s.Depth then some true
  else if p._row < 0 then some true
  else
    match s.get p with
    | none => none
    | some c => some (decide (c ≠ Colour.background))

/-- The member `Screen::RemoveFullLines`. -/
def Screen.RemoveFullLines (s : Screen LinesCount LineLength) :
    Option (Screen LinesCount LineLength) :=
  match Tetris.RemoveFullLines s._lines with
  | none => none
  | some lines => some { _lines := lines }

/-- A position lies on the screen: `0 ≤ row < LinesCount` and `0 ≤ col < LineLength`. -/
def Position.inside (LinesCount LineLength : Nat) (p : Position) : Prop :=
  0 ≤ p._row ∧ p._row < LinesCount ∧ 0 ≤ p._col ∧ p._col < LineLength

instance (p : Position) : Decidable (p.inside LinesCount LineLength) := by
  unfold Position.inside; infer_instance

/-! ## Figure.h -/

/-- The enum `Direction`: `left = -1`, `right = 1`. -/
inductive Direction where
  | left
  | right
  deriving DecidableEq, Repr

/-- The integer value of a `Direction` enumerator. -/
def Direction.toInt : Direction → Int
  | Direction.left => -1
  | Direction.right => 1

/-- The enum class `DrawMode`. -/
inductive DrawMode where
  | clear
  | draw
  deriving DecidableEq, Repr

/-! ## FigureImpl.h: the function templates -/

/-- What the templates `Translate` and `Draw` use of a figure class: the constructor
from a position, `Pos()` and the member `_blocks`. -/
class FigureType (F : Type) where
  ofPosition : Position → F
  Pos : F → Position
  _blocks : F → List Block

/-- What the template `Rotate` uses in addition: the constructor from a direction and
assignment to the members `_blocks` and `_pos`. -/
class RotatingFigureType (F : Type) extends FigureType F where
  ofDirection : Direction → F
  set_blocks : F → List Block → F
  set_pos : F → Position → F

/-- One of the two loops of `Draw`: `for (auto &block : blocks) screen[block.Pos()] = c`. -/
def Draw.loop (c : Colour) :
    List Block → Screen LinesCount LineLength → Option (Screen LinesCount LineLength)
  | [], screen => some screen
  | block :: rest, screen =>
    match screen.set block.Pos c with
    | none => none
    | some screen1 => Draw.loop c rest screen1

/-- The function template `Draw`: mode `clear` writes `background`, mode `draw` writes
`red`.  Returns the blocks and the screen. -/
def Draw (blocks : List Block) (screen : Screen LinesCount LineLength) (mode : DrawMode) :
    Option (List Block × Screen LinesCount LineLength) :=
  match mode with
  | DrawMode.clear =>
    match Draw.loop Colour.background blocks screen with
    | none => none
    | some screen1 => some (blocks, screen1)
  | DrawMode.draw =>
    match Draw.loop Colour.red blocks screen with
    | none => none
    | some screen1 => some (blocks, screen1)

/-- The loop of `Translate`: `for (b : f._blocks) if (screen.Colision(b.Pos())) return false`.
The result is `some false` when the loop left through `return false`, `some true` when
it ran to its end. -/
def Translate.loop (screen : Screen LinesCount LineLength) : List Block → Option Bool
  | [] => some true
  | b :: rest =>
    match screen.Colision b.Pos with
    | none => none
    | some true => some false
    | some false => Translate.loop screen rest

/-- The function template `Translate`.  Returns the C++ result, the figure and the
screen. -/
def Translate {F : Type} [FigureType F] (fig : F) (screen : Screen LinesCount LineLength)
    (vect : Position) : Option (Bool × F × Screen LinesCount LineLength) :=
  let f : F := FigureType.ofPosition (FigureType.Pos fig + vect)
  match Translate.loop screen (FigureType._blocks f) with
  | none => none
  | some false => some (false, fig, screen)
  | some true => some (true, f, screen)

/-- The loop of `Rotate` over `b._blocks`: each block is replaced by
`Block{bl.Pos() + fig.Pos()}` and then tested.  The result is the flag (`false` when the
loop left through `return false`) and the blocks of `b` at that point. -/
def Rotate.loop (screen : Screen LinesCount LineLength) (figPos : Position) :
    List Block → Option (Bool × List Block)
  | [] => some (true, [])
  | bl :: rest =>
    let bl1 := Block.ofPosition (bl.Pos + figPos)
    match screen.Colision bl1.Pos with
    | none => none
    | some true => some (false, bl1 :: rest)
    | some false =>
      match Rotate.loop screen figPos rest with
      | none => none
      | some (result, rest1) => some (result, bl1 :: rest1)

/-- The function template `Rotate`.  Returns the C++ result, the figure and the screen. -/
def Rotate {F : Type} [RotatingFigureType F] (fig : F) (screen : Screen LinesCount LineLength)
    (dir : Direction) : Option (Bool × F × Screen LinesCount LineLength) :=
  let b : F := RotatingFigureType.ofDirection dir
  match Rotate.loop screen (FigureType.Pos fig) (FigureType._blocks b) with
  | none => none
  | some (false, _) => some (false, fig, screen)
  | some (true, blocks) =>
    let b1 := RotatingFigureType.set_blocks b blocks
    let b2 := RotatingFigureType.set_pos b1 (FigureType.Pos fig)
    some (true, b2, screen)

/-! ## FigureImpl.h, FigureImpl.cpp: the figure classes -/

/-- The class `BarT`: members `_pos`, `_idx`, `_blocks`. -/
structure BarT where
  _pos : Position
  _idx : Int
  _blocks : List Block
  deriving DecidableEq, Repr

/-- The table `BarT::_figure` of `FigureImpl.cpp`. -/
def BarT._figure : List (List Block) :=
  [[Block.ofPosition ⟨0, 0⟩, Block.ofPosition ⟨0, 1⟩, Block.ofPosition ⟨0, 2⟩,
      Block.ofPosition ⟨1, 1⟩],
   [Block.ofPosition ⟨0, 1⟩, Block.ofPosition ⟨1, 0⟩, Block.ofPosition ⟨1, 1⟩,
      Block.ofPosition ⟨2, 1⟩],
   [Block.ofPosition ⟨0, 1⟩, Block.ofPosition ⟨1, 0⟩, Block.ofPosition ⟨1, 1⟩,
      Block.ofPosition ⟨1, 2⟩],
   [Block.ofPosition ⟨0, 0⟩, Block.ofPosition ⟨1, 0⟩, Block.ofPosition ⟨1, 1⟩,
      Block.ofPosition ⟨2, 0⟩]]

/-- The constructor `BarT(Position p)`: `_idx` and `_blocks` start from their default
member initialisers `0` and `_figure[0]`, then every block is moved by `p`. -/
def BarT.ofPosition (p : Position) : BarT :=
  { _pos := p
    _idx := 0
    _blocks := (BarT._figure.getD 0 []).map (fun b => Block.ofPosition (b.Pos + p)) }

/-- The constructor `BarT(Direction dir)`: `_idx` starts from its default member
initialiser `0`; `_pos` keeps `{}`.  The index is 1 or `size - 1`, inside the table. -/
def BarT.ofDirection (dir : Direction) : BarT :=
  let size : Int := BarT._figure.length
  let idx : Int := 0 + dir.toInt
  let idx : Int := if idx ≥ size then 0 else if idx < 0 then size - 1 else idx
  { _pos := ⟨0, 0⟩
    _idx := idx
    _blocks := BarT._figure.getD idx.toNat [] }

instance : RotatingFigureType BarT where
  ofPosition := BarT.ofPosition
  Pos := fun f => f._pos
  _blocks := fun f => f._blocks
  ofDirection := BarT.ofDirection
  set_blocks := fun f blocks => { f with _blocks := blocks }
  set_pos := fun f p => { f with _pos := p }

/-- The class `Square`: the member `_blocks`, one block. -/
structure Square where
  _blocks : List Block
  deriving DecidableEq, Repr

/-- The constructor `Square(Position p)`. -/
def Square.ofPosition (p : Position) : Square :=
  { _blocks := [Block.ofPosition p] }

/-- The member `Square::Pos`: `_blocks[0].Pos()`. -/
def Square.Pos (f : Square) : Position := (f._blocks.getD 0 default).Pos

instance : FigureType Square where
  ofPosition := Square.ofPosition
  Pos := Square.Pos
  _blocks := fun f => f._blocks

/-- The class `BigSquare`: the member `_blocks`, four blocks. -/
structure BigSquare where
  _blocks : List Block
  deriving DecidableEq, Repr

/-- The constructor `BigSquare(Position p)`. -/
def BigSquare.ofPosition (p : Position) : BigSquare :=
  { _blocks := [Block.ofPosition ⟨p._row, p._col⟩, Block.ofPosition ⟨p._row, p._col + 1⟩,
                Block.ofPosition ⟨p._row + 1, p._col⟩,
                Block.ofPosition ⟨p._row + 1, p._col + 1⟩] }

/-- The member `BigSquare::Pos`: `_blocks[0].Pos()`. -/
def BigSquare.Pos (f : BigSquare) : Position := (f._blocks.getD 0 default).Pos

instance : FigureType BigSquare where
  ofPosition := BigSquare.ofPosition
  Pos := BigSquare.Pos
  _blocks := fun f => f._blocks

/-- The class `Bar`: members `_pos`, `_idx`, `_blocks`. -/
structure Bar where
  _pos : Position
  _idx : Int
  _blocks : List Block
  deriving DecidableEq, Repr

/-- The table `Bar::_figure` of `FigureImpl.cpp`. -/
def Bar._figure : List (List Block) :=
  [[Block.ofPosition ⟨0, 1⟩, Block.ofPosition ⟨1, 1⟩, Block.ofPosition ⟨2, 1⟩],
   [Block.ofPosition ⟨1, 0⟩, Block.ofPosition ⟨1, 1⟩, Block.ofPosition ⟨1, 2⟩]]

/-- The constructor `Bar(Position p)`: `_idx` and `_blocks` start from their default
member initialisers `0` and `_figure[0]`, then every block is moved by `p`. -/
def Bar.ofPosition (p : Position) : Bar :=
  { _pos := p
    _idx := 0
    _blocks := (Bar._figure.getD 0 []).map (fun b => Block.ofPosition (b.Pos + p)) }

/-- The constructor `Bar(Direction dir)`: `_idx` starts from its default member
initialiser `0`; `_pos` keeps `{}`.  The index is 1 or `size - 1`, inside the table. -/
def Bar.ofDirection (dir : Direction) : Bar :=
  let size : Int := Bar._figure.length
  let idx : Int := 0 + dir.toInt
  let idx : Int := if idx ≥ size then 0 else if idx < 0 then size - 1 else idx
  { _pos := ⟨0, 0⟩
    _idx := idx
    _blocks := Bar._figure.getD idx.toNat [] }

instance : RotatingFigureType Bar where
  ofPosition := Bar.ofPosition
  Pos := fun f => f._pos
  _blocks := fun f => f._blocks
  ofDirection := Bar.ofDirection
  set_blocks := fun f blocks => { f with _blocks := blocks }
  set_pos := fun f p => { f with _pos := p }

/-! ## Figure.h: the interface, with the four classes that implement it -/

/-- A figure held through the base class `Figure`: one of the four final classes. -/
inductive Figure where
  | bigSquare (f : BigSquare)
  | bar (f : Bar)
  | barT (f : BarT)
  | square (f : Square)
  deriving DecidableEq, Repr

/-- The virtual `Figure::Pos`. -/
def Figure.Pos : Figure → Position
  | Figure.bigSquare f => f.Pos
  | Figure.bar f => f._pos
  | Figure.barT f => f._pos
  | Figure.square f => f.Pos

/-- The member `_blocks` of the figure. -/
def Figure.blocks : Figure → List Block
  | Figure.bigSquare f => f._blocks
  | Figure.bar f => f._blocks
  | Figure.barT f => f._blocks
  | Figure.square f => f._blocks

/-- The virtual `Figure::BlocksCount`: `_blocks.size()`. -/
def Figure.BlocksCount (fig : Figure) : Int := fig.blocks.length

/-- The virtual `Figure::Translate`: every class overrides it with the template. -/
def Figure.Translate (fig : Figure) (screen : Screen LinesCount LineLength)
    (direction : Position) : Option (Bool × Figure × Screen LinesCount LineLength) :=
  match fig with
  | Figure.bigSquare f =>
    match Tetris.Translate f screen direction with
    | none => none
    | some (result, f1, screen1) => some (result, Figure.bigSquare f1, screen1)
  | Figure.bar f =>
    match Tetris.Translate f screen direction with
    | none => none
    | some (result, f1, screen1) => some (result, Figure.bar f1, screen1)
  | Figure.barT f =>
    match Tetris.Translate f screen direction with
    | none => none
    | some (result, f1, screen1) => some (result, Figure.barT f1, screen1)
  | Figure.square f =>
    match Tetris.Translate f screen direction with
    | none => none
    | some (result, f1, screen1) => some (result, Figure.square f1, screen1)

/-- The virtual `Figure::Rotate`: `Bar` and `BarT` override it with the template,
`Square` and `BigSquare` inherit the base body `return true`. -/
def Figure.Rotate (fig : Figure) (screen : Screen LinesCount LineLength) (dir : Direction) :
    Option (Bool × Figure × Screen LinesCount LineLength) :=
  match fig with
  | Figure.bigSquare f => some (true, Figure.bigSquare f, screen)
  | Figure.bar f =>
    match Tetris.Rotate f screen dir with
    | none => none
    | some (result, f1, screen1) => some (result, Figure.bar f1, screen1)
  | Figure.barT f =>
    match Tetris.Rotate f screen dir with
    | none => none
    | some (result, f1, screen1) => some (result, Figure.barT f1, screen1)
  | Figure.square f => some (true, Figure.square f, screen)

/-- The virtual `Figure::Draw`: every class calls the template on its `_blocks`. -/
def Figure.Draw (fig : Figure) (screen : Screen LinesCount LineLength) (mode : DrawMode) :
    Option (Figure × Screen LinesCount LineLength) :=
  match fig with
  | Figure.bigSquare f =>
    match Tetris.Draw f._blocks screen mode with
    | none => none
    | some (blocks, screen1) => some (Figure.bigSquare { f with _blocks := blocks }, screen1)
  | Figure.bar f =>
    match Tetris.Draw f._blocks screen mode with
    | none => none
    | some (blocks, screen1) => some (Figure.bar { f with _blocks := blocks }, screen1)
  | Figure.barT f =>
    match Tetris.Draw f._blocks screen mode with
    | none => none
    | some (blocks, screen1) => some (Figure.barT { f with _blocks := blocks }, screen1)
  | Figure.square f =>
    match Tetris.Draw f._blocks screen mode with
    | none => none
    | some (blocks, screen1) => some (Figure.square { f with _blocks := blocks }, screen1)

/-! ## TetrisGame.h -/

/-- Modelled from the spec: the enum `Command` of `Command.h`, a header that is not among
the sources.  The enumerators are the six labels of the `switch` in `Game::Tick`; the
value-initialised command `_cmd{}` is `Idle`. -/
inductive Command where
  | Idle
  | RotateLeft
  | RotateRight
  | TranslateDown
  | TranslateLeft
  | TranslateRigth
  deriving DecidableEq, Repr

/-- The class `Game`: members `_cmd`, `_figure`, `_screen`. -/
structure Game (LinesCount LineLength : Nat) where
  _cmd : Command
  _figure : Figure
  _screen : Screen LinesCount LineLength
  deriving DecidableEq, Repr

/-- The position `initPos` of `RandomFigureGenerator`:
`{0, TetrisScreen::Dimention()._col / 2 - 1}`. -/
def Game.initPos (LinesCount LineLength : Nat) : Position :=
  { _row := 0, _col := (Screen.Dimention LinesCount LineLength)._col / 2 - 1 }

/-- The static member `RandomFigureGenerator`.  The value `figureID` drawn from the
random engine is an argument. -/
def Game.RandomFigureGenerator (LinesCount LineLength : Nat) (figureID : Int) : Figure :=
  let initPos := Game.initPos LinesCount LineLength
  if figureID = 1 then Figure.bar (Bar.ofPosition initPos)
  else if figureID = 2 then Figure.barT (BarT.ofPosition initPos)
  else if figureID = 3 then Figure.square (Square.ofPosition initPos)
  else Figure.bigSquare (BigSquare.ofPosition initPos)

/-- The constructor `Game()`: the default member initialisers, then
`_figure->Draw(_screen, DrawMode::draw)`.  The argument is the value the random engine
gives to `RandomFigureGenerator`. -/
def Game.new (LinesCount LineLength : Nat) (figureID : Int) :
    Option (Game LinesCount LineLength) :=
  let figure := Game.RandomFigureGenerator LinesCount LineLength figureID
  match figure.Draw (Screen.empty LinesCount LineLength) DrawMode.draw with
  | none => none
  | some (figure1, screen1) =>
    some { _cmd := Command.Idle, _figure := figure1, _screen := screen1 }

/-- The member `Game::Input`. -/
def Game.Input (g : Game LinesCount LineLength) (cmd : Command) : Game LinesCount LineLength :=
  { g with _cmd := cmd }

/-- The private member `Game::Translate`.  The argument `figureID` is the value the
random engine gives if `RandomFigureGenerator` is called. -/
def Game.Translate (g : Game LinesCount LineLength) (p : Position) (figureID : Int) :
    Option (Game LinesCount LineLength) :=
  match g._figure.Draw g._screen DrawMode.clear with
  | none => none
  | some (figure1, screen1) =>
    match figure1.Translate screen1 p with
    | none => none
    | some (result, figure2, screen2) =>
      match figure2.Draw screen2 DrawMode.draw with
      | none => none
      | some (figure3, screen3) =>
        if result = false ∧ g._cmd = Command.TranslateDown then
          match screen3.RemoveFullLines with
          | none => none
          | some screen4 =>
            let figure4 := Game.RandomFigureGenerator LinesCount LineLength figureID
            match figure4.Draw screen4 DrawMode.draw with
            | none => none
            | some (figure5, screen5) =>
              some { g with _figure := figure5, _screen := screen5 }
        else some { g with _figure := figure3, _screen := screen3 }

/-- The private member `Game::Rotate`. -/
def Game.Rotate (g : Game LinesCount LineLength) (d : Direction) :
    Option (Game LinesCount LineLength) :=
  match g._figure.Draw g._screen DrawMode.clear with
  | none => none
  | some (figure1, screen1) =>
    match figure1.Rotate screen1 d with
    | none => none
    | some (_, figure2, screen2) =>
      match figure2.Draw screen2 DrawMode.draw with
      | none => none
      | some (figure3, screen3) => some { g with _figure := figure3, _screen := screen3 }

/-- The `switch` of `Game::Tick`. -/
def Game.dispatch (g : Game LinesCount LineLength) (figureID : Int) :
    Option (Game LinesCount LineLength) :=
  match g._cmd with
  | Command.Idle => some g
  | Command.RotateLeft => g.Rotate Direction.left
  | Command.RotateRight => g.Rotate Direction.right
  | Command.TranslateDown => g.Translate ⟨1, 0⟩ figureID
  | Command.TranslateLeft => g.Translate ⟨0, -1⟩ figureID
  | Command.TranslateRigth => g.Translate ⟨0, 1⟩ figureID

/-- The member `Game::Tick`: the `switch`, then `_cmd = Command::Idle`. -/
def Game.Tick (g : Game LinesCount LineLength) (figureID : Int) :
    Option (Game LinesCount LineLength) :=
  match g.dispatch figureID with
  | none => none
  | some g1 => some { g1 with _cmd := Command.Idle }

/-- The game states reachable from construction by calls of `Input` and `Tick`, for any
values of the random engine. -/
inductive Game.Reachable : Game LinesCount LineLength → Prop where
  | new (figureID : Int) (g : Game LinesCount LineLength) :
      Game.new LinesCount LineLength figureID = some g → Game.Reachable g
  | input (g : Game LinesCount LineLength) (cmd : Command) :
      Game.Reachable g → Game.Reachable (g.Input cmd)
  | tick (g g1 : Game LinesCount LineLength) (figureID : Int) :
      Game.Reachable g → g.Tick figureID = some g1 → Game.Reachable g1

/-- The containment invariant of a game state: the screen has its `std::array` shape
and every block of the current figure lies on the screen. -/
def Game.Contained (g : Game LinesCount LineLength) : Prop :=
  g._screen.WF ∧ ∀ b ∈ g._figure.blocks, b.Pos.inside LinesCount LineLength

/-- The value of the local `result` of `Game::Translate`: the figure is cleared from
the screen, then `Translate` is called. -/
def Game.translateResult (g : Game LinesCount LineLength) (p : Position) : Option Bool :=
  match g._figure.Draw g._screen DrawMode.clear with
  | none => none
  | some (figure1, screen1) =>
    match figure1.Translate screen1 p with
    | none => none
    | some (result, _, _) => some result

/-- The value of the local `result` of `Game::Rotate`: the figure is cleared from the
screen, then `Rotate` is called. -/
def Game.rotateResult (g : Game LinesCount LineLength) (d : Direction) : Option Bool :=
  match g._figure.Draw g._screen DrawMode.clear with
  | none => none
  | some (figure1, screen1) =>
    match figure1.Rotate screen1 d with
    | none => none
    | some (result, _, _) => some result

/-- The drawn invariant of a game state: the screen has its `std::array` shape and every
cell covered by a block of the current figure is `red`. -/
def Game.Drawn (g : Game LinesCount LineLength) : Prop :=
  g._screen.WF ∧ ∀ b ∈ g._figure.blocks, g._screen.get b.Pos = some Colour.red

/-- The body of the loop of `main`, repeated: `tetris.Input(cmd); tetris.Tick();` for each
command of the list, paired with the value the random engine gives during that tick. -/
def Game.run (g : Game LinesCount LineLength) :
    List (Command × Int) → Option (Game LinesCount LineLength)
  | [] => some g
  | (cmd, figureID) :: rest =>
    match (g.Input cmd).Tick figureID with
    | none => none
    | some g1 => g1.run rest

/-- The screen of `Game::Translate` right after `_screen.RemoveFullLines()`, before the
next figure is generated and drawn: the cells that the landed figures leave occupied. -/
def Game.landedScreen (g : Game LinesCount LineLength) (p : Position) :
    Option (Screen LinesCount LineLength) :=
  match g._figure.Draw g._screen DrawMode.clear with
  | none => none
  | some (figure1, screen1) =>
    match figure1.Translate screen1 p with
    | none => none
    | some (_, figure2, screen2) =>
      match figure2.Draw screen2 DrawMode.draw with
      | none => none
      | some (_, screen3) => screen3.RemoveFullLines

/-- The locked cells after a tick, given the locked cells before it: a tick that lands
the figure (command `TranslateDown`, `Translate` rejected) replaces them by the screen
`landedScreen`; any other tick leaves them as they are. -/
def Game.lockedAfterTick (g : Game LinesCount LineLength)
    (locked : Screen LinesCount LineLength) : Option (Screen LinesCount LineLength) :=
  if g._cmd = Command.TranslateDown then
    match g.translateResult ⟨1, 0⟩ with
    | none => none
    | some false => g.landedScreen ⟨1, 0⟩
    | some true => some locked
  else some locked

/-- The reachable game states, each with its locked cells: none at construction, then
updated by `lockedAfterTick` at every tick. -/
inductive Game.ReachableLocked :
    Game LinesCount LineLength → Screen LinesCount LineLength → Prop where
  | new (figureID : Int) (g : Game LinesCount LineLength) :
      Game.new LinesCount LineLength figureID = some g →
      Game.ReachableLocked g (Screen.empty LinesCount LineLength)
  | input (g : Game LinesCount LineLength) (locked : Screen LinesCount LineLength)
      (cmd : Command) :
      Game.ReachableLocked g locked → Game.ReachableLocked (g.Input cmd) locked
  | tick (g g1 : Game LinesCount LineLength) (locked locked1 : Screen LinesCount LineLength)
      (figureID : Int) :
      Game.ReachableLocked g locked → g.Tick figureID = some g1 →
      g.lockedAfterTick locked = some locked1 → Game.ReachableLocked g1 locked1

/-- The game states, with their locked cells, reachable by ticks in which every figure
generated at a landing finds the cells of its blocks empty among the locked cells. -/
inductive Game.ReachableFree :
    Game LinesCount LineLength → Screen LinesCount LineLength → Prop where
  | new (figureID : Int) (g : Game LinesCount LineLength) :
      Game.new LinesCount LineLength figureID = some g →
      Game.ReachableFree g (Screen.empty LinesCount LineLength)
  | input (g : Game LinesCount LineLength) (locked : Screen LinesCount LineLength)
      (cmd : Command) :
      Game.ReachableFree g locked → Game.ReachableFree (g.Input cmd) locked
  | tick (g g1 : Game LinesCount LineLength) (locked locked1 : Screen LinesCount LineLength)
      (figureID : Int) :
      Game.ReachableFree g locked → g.Tick figureID = some g1 →
      g.lockedAfterTick locked = some locked1 →
      ((g._cmd = Command.TranslateDown ∧ g.translateResult ⟨1, 0⟩ = some false) →
        ∀ b ∈ (Game.RandomFigureGenerator LinesCount LineLength figureID).blocks,
          locked1.get b.Pos = some Colour.background) →
      Game.ReachableFree g1 locked1

/-- The no-overlap invariant of a game state with its locked cells: the locked cells
form a screen of the `std::array` shape, every block of the current figure is on an empty
locked cell, and the screen is the locked cells with the current figure drawn. -/
def Game.NoOverlap (g : Game LinesCount LineLength)
    (locked : Screen LinesCount LineLength) : Prop :=
  locked.WF ∧ (∀ b ∈ g._figure.blocks, locked.get b.Pos = some Colour.background) ∧
  Draw.loop Colour.red g._figure.blocks locked = some g._screen

/-- A quarter turn of an offset about the origin: `(row, col)` goes to `(col, -row)`
(rows grow downwards, so this is the clockwise turn as seen on the screen). -/
def Position.turn (o : Position) : Position :=
  { _row := o._col, _col := -o._row }

/-- Two lists of blocks cover the same set of cells. -/
def sameCells (a b : List Block) : Prop :=
  (∀ x ∈ a, x.Pos ∈ b.map Block.Pos) ∧ (∀ x ∈ b, x.Pos ∈ a.map Block.Pos)

instance (a b : List Block) : Decidable (sameCells a b) := by
  unfold sameCells; infer_instance

/-- The state `next` is the state `prev` turned by a quarter turn, up to a translation. -/
def quarterTurnOf (prev next : List Block) : Prop :=
  ∃ t : Position, sameCells next (prev.map (fun b => Block.ofPosition (b.Pos.turn + t)))

/-! ## Theorems -/

theorem Position.add_def (a p : Position) :
    a + p = { _row := a._row + p._row, _col := a._col + p._col } := rfl

theorem Screen.get_of_inside (s : Screen LinesCount LineLength) (hs : s.WF) (p : Position)
    (hp : p.inside LinesCount LineLength) : ∃ c, s.get p = some c := by
  obtain ⟨hr0, hr1, hc0, hc1⟩ := hp
  obtain ⟨hlen, hrow⟩ := hs
  have h1 : p._row.toNat < s._lines.length := by omega
  unfold Screen.get
  rw [if_neg (by omega)]
  rw [List.getElem?_eq_getElem h1]
  have h2 : (s._lines[p._row.toNat]).length = LineLength := hrow _ (List.getElem_mem _)
  have h3 : p._col.toNat < (s._lines[p._row.toNat]).length := by omega
  exact ⟨_, List.getElem?_eq_getElem h3⟩

/-- C1: on a well-shaped screen `Colision p` always returns, and it returns `true` if
and only if `p` lies outside `[0,LinesCount) x [0,LineLength)` or the cell at `p` is
not `background`. -/
theorem Screen.Colision_iff (s : Screen LinesCount LineLength) (hs : s.WF) (p : Position) :
    ∃ b, s.Colision p = some b ∧
      (b = true ↔ (¬ p.inside LinesCount LineLength ∨
        ∃ c, s.get p = some c ∧ c ≠ Colour.background)) := by
  by_cases hp : p.inside LinesCount LineLength
  · obtain ⟨c, hc⟩ := Screen.get_of_inside s hs p hp
    obtain ⟨hr0, hr1, hc0, hc1⟩ := hp
    refine ⟨decide (c ≠ Colour.background), ?_, ?_⟩
    · unfold Screen.Colision Screen.Width Screen.Depth
      rw [if_neg (by omega), if_neg (by omega), if_neg (by omega), if_neg (by omega), hc]
    · simp [hc, Position.inside, hr0, hr1, hc0, hc1]
  · refine ⟨true, ?_, by simp [hp]⟩
    unfold Screen.Colision Screen.Width Screen.Depth
    unfold Position.inside at hp
    split_ifs <;> first | rfl | omega

theorem Screen.Colision_iff_witness :
    ∃ b, (⟨[[Colour.background, Colour.red], [Colour.background, Colour.background]]⟩ :
        Screen 2 2).Colision ⟨0, 1⟩ = some b ∧
      (b = true ↔ (¬ (⟨0, 1⟩ : Position).inside 2 2 ∨
        ∃ c, (⟨[[Colour.background, Colour.red], [Colour.background, Colour.background]]⟩ :
          Screen 2 2).get ⟨0, 1⟩ = some c ∧ c ≠ Colour.background)) :=
  Screen.Colision_iff _ (by decide) _

/-- C2: `IsLineFull line` is `true` if and only if no cell of the line is `background`. -/
theorem IsLineFull_iff (line : LineType) :
    IsLineFull line = true ↔ ∀ c ∈ line, c ≠ Colour.background := by
  induction line with
  | nil => simp [IsLineFull]
  | cons b rest ih =>
    unfold IsLineFull
    by_cases hb : b = Colour.background
    · simp [hb]
    · simp [hb, ih]

/-! ### RemoveFullLines -/

theorem getElem?_length_append {α : Type} (front : List α) (x : α) (back : List α) :
    (front ++ x :: back)[front.length]? = some x := by
  rw [List.getElem?_append_right (Nat.le_refl _)]
  simp

theorem RemoveFullLines.moveLoop_append (above : LinesCollection) :
    ∀ (x : LineType) (below : LinesCollection),
      RemoveFullLines.moveLoop above.length (above ++ x :: below)
        = some ((above ++ [x]).take 1 ++ above ++ below) := by
  induction above using List.reverseRecOn with
  | nil => intro x below; simp [RemoveFullLines.moveLoop]
  | append_singleton front y ih =>
    intro x below
    have hget : (front ++ [y] ++ x :: below)[front.length]? = some y := by
      have := getElem?_length_append front y (x :: below)
      simpa using this
    have hset : (front ++ [y] ++ x :: below).set (front.length + 1) y
        = front ++ y :: y :: below := by
      simp [List.set_append_right]
    have hlen : front.length + 1 < (front ++ [y] ++ x :: below).length := by
      simp
    rw [List.length_append, List.length_singleton]
    unfold RemoveFullLines.moveLoop
    simp only [hget, hset, hlen, if_true]
    rw [ih y (y :: below)]
    cases front <;> simp

theorem RemoveFullLines.move_append (top : LineType) (above : LinesCollection) (x : LineType)
    (below : LinesCollection) :
    RemoveFullLines.move (top :: above ++ x :: below) (top :: above).length
      = some (List.replicate top.length Colour.background :: top :: above ++ below) := by
  unfold RemoveFullLines.move
  have h := RemoveFullLines.moveLoop_append (top :: above) x below
  simp only [List.cons_append] at h ⊢
  rw [h]
  simp

theorem RemoveFullLines.loop_append (below : LinesCollection) :
    ∀ (top : LineType) (above : LinesCollection),
      RemoveFullLines.loop below.length (top :: above).length (top :: above ++ below)
        = some (List.replicate (below.countP IsLineFull)
              (List.replicate top.length Colour.background)
            ++ (top :: above) ++ below.filter (fun l => !IsLineFull l)) := by
  induction below with
  | nil => intro top above; simp [RemoveFullLines.loop]
  | cons x rest ih =>
    intro top above
    have hget : (top :: above ++ x :: rest)[(top :: above).length]? = some x :=
      getElem?_length_append (top :: above) x rest
    rw [List.length_cons x rest]
    unfold RemoveFullLines.loop
    simp only [hget]
    by_cases hx : IsLineFull x = true
    · simp only [hx, if_true]
      rw [RemoveFullLines.move_append]
      have h := ih (List.replicate top.length Colour.background) (top :: above)
      simp only [List.length_cons, List.cons_append, List.length_replicate] at h ⊢
      rw [h]
      simp only [List.countP_cons_of_pos _ _ hx, List.replicate_succ', List.append_assoc,
        List.singleton_append, List.cons_append]
      simp [hx]
    · have h := ih top (above ++ [x])
      simp only [List.length_cons, List.cons_append, List.length_append,
        List.length_singleton, List.append_assoc, List.singleton_append, List.length_nil,
        Nat.zero_add, List.nil_append] at h ⊢
      simp only [hx, Bool.false_eq_true, if_false]
      rw [h]
      simp [hx]

theorem RemoveFullLines_cons (row0 : LineType) (rest : LinesCollection) :
    RemoveFullLines (row0 :: rest)
      = some (List.replicate (rest.countP IsLineFull)
              (List.replicate row0.length Colour.background)
            ++ row0 :: rest.filter (fun l => !IsLineFull l)) := by
  unfold RemoveFullLines
  have h := RemoveFullLines.loop_append rest row0 []
  simpa using h

theorem countP_add_length_filter_not (rest : LinesCollection) :
    rest.countP IsLineFull + (rest.filter (fun l => !IsLineFull l)).length = rest.length := by
  have h := List.length_eq_countP_add_countP (p := IsLineFull) rest
  rw [List.countP_eq_length_filter (p := fun a => decide ¬IsLineFull a = true)] at h
  have hf : (fun a => decide ¬IsLineFull a = true) = (fun l => !IsLineFull l) := by
    funext a; cases IsLineFull a <;> simp
  rw [hf] at h
  omega

/-- C3: on a grid with at least one row, `RemoveFullLines` returns `k` empty rows, then
the original row 0, then the original rows of index at least 1 that are not full, in
their order, where `k` is the number of full rows of index at least 1; the row count is
unchanged. -/
theorem RemoveFullLines_eq (row0 : LineType) (rest : LinesCollection) :
    ∃ out, RemoveFullLines (row0 :: rest) = some out ∧
      out = List.replicate (rest.countP IsLineFull)
              (List.replicate row0.length Colour.background)
            ++ row0 :: rest.filter (fun l => !IsLineFull l) ∧
      out.length = (row0 :: rest).length := by
  refine ⟨_, RemoveFullLines_cons row0 rest, rfl, ?_⟩
  have h := countP_add_length_filter_not rest
  simp only [List.length_append, List.length_replicate, List.length_cons]
  omega

/-- C4 (amended): on a grid with at least three rows whose two bottom rows are full and
in which no other row is full, `RemoveFullLines` returns two empty rows followed by the
original rows without the two bottom ones, so every row `i ≥ 2` holds what row `i - 2`
held. -/
theorem RemoveFullLines_two_bottom_rows (row0 : LineType) (mid : LinesCollection)
    (a b : LineType) (htop : ∀ l ∈ row0 :: mid, IsLineFull l = false)
    (ha : IsLineFull a = true) (hb : IsLineFull b = true) :
    ∃ out, RemoveFullLines (row0 :: mid ++ [a, b]) = some out ∧
      out = List.replicate row0.length Colour.background
          :: List.replicate row0.length Colour.background :: row0 :: mid ∧
      ∀ i, 2 ≤ i → i < (row0 :: mid ++ [a, b]).length →
        out[i]? = (row0 :: mid ++ [a, b])[i - 2]? := by
  have hmid : ∀ l ∈ mid, IsLineFull l = false := fun l hl =>
    htop l (List.mem_cons_of_mem _ hl)
  have hcount : (mid ++ [a, b]).countP IsLineFull = 2 := by
    have h0 : mid.countP IsLineFull = 0 := by
      rw [List.countP_eq_zero]
      intro l hl
      simp [hmid l hl]
    simp [List.countP_append, h0, List.countP_cons, ha, hb]
  have hfilter : (mid ++ [a, b]).filter (fun l => !IsLineFull l) = mid := by
    rw [List.filter_append]
    have h1 : mid.filter (fun l => !IsLineFull l) = mid := by
      rw [List.filter_eq_self]
      intro l hl
      simp [hmid l hl]
    simp [h1, ha, hb]
  have hout := RemoveFullLines_cons row0 (mid ++ [a, b])
  rw [hcount, hfilter] at hout
  refine ⟨_, by simpa using hout, by simp [List.replicate], ?_⟩
  intro i hi hlen
  obtain ⟨j, rfl⟩ : ∃ j, i = j + 2 := ⟨i - 2, by omega⟩
  have hj : j < (row0 :: mid).length := by
    simp only [List.length_cons, List.length_append, List.length_nil] at hlen ⊢
    omega
  have hr : (row0 :: mid ++ [a, b])[j]? = (row0 :: mid)[j]? :=
    List.getElem?_append_left hj
  simp only [Nat.add_sub_cancel, hr]
  simp [List.replicate]

theorem RemoveFullLines_two_bottom_rows_witness :
    (∀ l ∈ [[Colour.background, Colour.background, Colour.background, Colour.background],
        [Colour.red, Colour.background, Colour.background, Colour.red]],
      IsLineFull l = false) ∧
    ∃ out, RemoveFullLines
        ([Colour.background, Colour.background, Colour.background, Colour.background]
          :: [[Colour.red, Colour.background, Colour.background, Colour.red]]
          ++ [[Colour.red, Colour.red, Colour.red, Colour.red],
              [Colour.red, Colour.red, Colour.red, Colour.red]]) = some out ∧
      out = [[Colour.background, Colour.background, Colour.background, Colour.background],
             [Colour.background, Colour.background, Colour.background, Colour.background],
             [Colour.background, Colour.background, Colour.background, Colour.background],
             [Colour.red, Colour.background, Colour.background, Colour.red]] ∧
      ∀ i, 2 ≤ i → i < 4 → out[i]? =
        ([Colour.background, Colour.background, Colour.background, Colour.background]
          :: [[Colour.red, Colour.background, Colour.background, Colour.red]]
          ++ [[Colour.red, Colour.red, Colour.red, Colour.red],
              [Colour.red, Colour.red, Colour.red, Colour.red]])[i - 2]? :=
  ⟨by decide,
   RemoveFullLines_two_bottom_rows
     [Colour.background, Colour.background, Colour.background, Colour.background]
     [[Colour.red, Colour.background, Colour.background, Colour.red]]
     [Colour.red, Colour.red, Colour.red, Colour.red]
     [Colour.red, Colour.red, Colour.red, Colour.red] (by decide) (by decide) (by decide)⟩

/-- C4, as stated, fails on a grid of two rows: both rows are full, no other row exists,
and after `RemoveFullLines` row 1 is still full, because row 0 is never tested. -/
theorem RemoveFullLines_two_rows_counterexample :
    IsLineFull [Colour.red, Colour.red, Colour.red, Colour.red] = true ∧
    RemoveFullLines [[Colour.red, Colour.red, Colour.red, Colour.red],
                     [Colour.red, Colour.red, Colour.red, Colour.red]]
      = some [[Colour.background, Colour.background, Colour.background, Colour.background],
              [Colour.red, Colour.red, Colour.red, Colour.red]] ∧
    ¬ (∀ c ∈ [Colour.red, Colour.red, Colour.red, Colour.red], c = Colour.background) := by
  decide

/-! ### Translate and Rotate: rejection leaves everything as it was -/

theorem Translate_false {F : Type} [FigureType F] (fig f1 : F)
    (screen screen1 : Screen LinesCount LineLength) (vect : Position)
    (h : Translate fig screen vect = some (false, f1, screen1)) :
    f1 = fig ∧ screen1 = screen := by
  unfold Translate at h
  simp only at h
  split at h
  · exact absurd h (by simp)
  · simp only [Option.some.injEq, Prod.mk.injEq, true_and] at h
    exact ⟨h.1.symm, h.2.symm⟩
  · simp at h

theorem Rotate_false {F : Type} [RotatingFigureType F] (fig f1 : F)
    (screen screen1 : Screen LinesCount LineLength) (dir : Direction)
    (h : Rotate fig screen dir = some (false, f1, screen1)) :
    f1 = fig ∧ screen1 = screen := by
  unfold Rotate at h
  simp only at h
  split at h
  · exact absurd h (by simp)
  · simp only [Option.some.injEq, Prod.mk.injEq, true_and] at h
    exact ⟨h.1.symm, h.2.symm⟩
  · simp at h

/-- C5: for every figure (BigSquare, Bar, BarT, Square), every screen and every vector,
if `Translate` returns `false` then the figure (position, rotation index, blocks) and
the screen are what they were before the call. -/
theorem Figure.Translate_false_unchanged (fig fig1 : Figure)
    (screen screen1 : Screen LinesCount LineLength) (direction : Position)
    (h : fig.Translate screen direction = some (false, fig1, screen1)) :
    fig1 = fig ∧ screen1 = screen := by
  cases fig with
  | bigSquare f =>
    simp only [Figure.Translate] at h
    split at h
    · exact absurd h (by simp)
    · rename_i result f1 s1 heq
      simp only [Option.some.injEq, Prod.mk.injEq] at h
      obtain ⟨rfl, rfl, rfl⟩ := h
      obtain ⟨rfl, rfl⟩ := Translate_false _ _ _ _ _ heq
      exact ⟨rfl, rfl⟩
  | bar f =>
    simp only [Figure.Translate] at h
    split at h
    · exact absurd h (by simp)
    · rename_i result f1 s1 heq
      simp only [Option.some.injEq, Prod.mk.injEq] at h
      obtain ⟨rfl, rfl, rfl⟩ := h
      obtain ⟨rfl, rfl⟩ := Translate_false _ _ _ _ _ heq
      exact ⟨rfl, rfl⟩
  | barT f =>
    simp only [Figure.Translate] at h
    split at h
    · exact absurd h (by simp)
    · rename_i result f1 s1 heq
      simp only [Option.some.injEq, Prod.mk.injEq] at h
      obtain ⟨rfl, rfl, rfl⟩ := h
      obtain ⟨rfl, rfl⟩ := Translate_false _ _ _ _ _ heq
      exact ⟨rfl, rfl⟩
  | square f =>
    simp only [Figure.Translate] at h
    split at h
    · exact absurd h (by simp)
    · rename_i result f1 s1 heq
      simp only [Option.some.injEq, Prod.mk.injEq] at h
      obtain ⟨rfl, rfl, rfl⟩ := h
      obtain ⟨rfl, rfl⟩ := Translate_false _ _ _ _ _ heq
      exact ⟨rfl, rfl⟩

theorem Figure.Translate_false_unchanged_witness :
    (Figure.bar (Bar.ofPosition ⟨1, 0⟩)).Translate (Screen.empty 4 3) ⟨1, 0⟩
        = some (false, Figure.bar (Bar.ofPosition ⟨1, 0⟩), Screen.empty 4 3) ∧
      (Figure.bar (Bar.ofPosition ⟨1, 0⟩) = Figure.bar (Bar.ofPosition ⟨1, 0⟩) ∧
        Screen.empty 4 3 = Screen.empty 4 3) :=
  ⟨by decide, Figure.Translate_false_unchanged _ _ _ _ _
    (show (Figure.bar (Bar.ofPosition ⟨1, 0⟩)).Translate (Screen.empty 4 3) ⟨1, 0⟩
        = some (false, Figure.bar (Bar.ofPosition ⟨1, 0⟩), Screen.empty 4 3) by decide)⟩

/-- C6, the code at the failing input: a Bar spawned at (0,0) on an empty screen of 4
rows and 3 columns and rotated right is in rotation 1 with blocks (1,0), (1,1), (1,2);
`Translate` by (1,0) then returns `true` with rotation index 0 and blocks (1,1), (2,1),
(3,1), which are not the old blocks moved down by one row.  On the empty screen of 3
rows and 3 columns the same call returns `false` although none of the old blocks moved
by (1,0) collides. -/
theorem Translate_resets_rotation_of_Bar :
    (Figure.bar (Bar.ofPosition ⟨0, 0⟩)).Rotate (Screen.empty 4 3) Direction.right
      = some (true,
          Figure.bar ⟨⟨0, 0⟩, 1,
            [Block.ofPosition ⟨1, 0⟩, Block.ofPosition ⟨1, 1⟩, Block.ofPosition ⟨1, 2⟩]⟩,
          Screen.empty 4 3) ∧
    (Figure.bar ⟨⟨0, 0⟩, 1,
        [Block.ofPosition ⟨1, 0⟩, Block.ofPosition ⟨1, 1⟩, Block.ofPosition ⟨1, 2⟩]⟩).Translate
        (Screen.empty 4 3) ⟨1, 0⟩
      = some (true,
          Figure.bar ⟨⟨1, 0⟩, 0,
            [Block.ofPosition ⟨1, 1⟩, Block.ofPosition ⟨2, 1⟩, Block.ofPosition ⟨3, 1⟩]⟩,
          Screen.empty 4 3) ∧
    [Block.ofPosition ⟨1, 1⟩, Block.ofPosition ⟨2, 1⟩, Block.ofPosition ⟨3, 1⟩]
      ≠ [Block.ofPosition ⟨1, 0⟩, Block.ofPosition ⟨1, 1⟩, Block.ofPosition ⟨1, 2⟩].map
          (fun b => Block.ofPosition (b.Pos + ⟨1, 0⟩)) ∧
    (Figure.bar ⟨⟨0, 0⟩, 1,
        [Block.ofPosition ⟨1, 0⟩, Block.ofPosition ⟨1, 1⟩, Block.ofPosition ⟨1, 2⟩]⟩).Translate
        (Screen.empty 3 3) ⟨1, 0⟩
      = some (false,
          Figure.bar ⟨⟨0, 0⟩, 1,
            [Block.ofPosition ⟨1, 0⟩, Block.ofPosition ⟨1, 1⟩, Block.ofPosition ⟨1, 2⟩]⟩,
          Screen.empty 3 3) ∧
    (∀ b ∈ [Block.ofPosition ⟨1, 0⟩, Block.ofPosition ⟨1, 1⟩, Block.ofPosition ⟨1, 2⟩],
      (Screen.empty 3 3).Colision (b.Pos + ⟨1, 0⟩) = some false) := by
  decide

/-- C7, the code at the failing input: a BarT spawned at (0,0) on an empty screen of 3
rows and 3 columns and rotated left is in rotation 3; `Rotate` to the right then
returns `true` with rotation index 1, not 0. -/
theorem Rotate_right_from_state_3_of_BarT :
    (Figure.barT (BarT.ofPosition ⟨0, 0⟩)).Rotate (Screen.empty 3 3) Direction.left
      = some (true,
          Figure.barT { _pos := ⟨0, 0⟩, _idx := 3,
                        _blocks := [Block.ofPosition ⟨0, 0⟩, Block.ofPosition ⟨1, 0⟩,
                                    Block.ofPosition ⟨1, 1⟩, Block.ofPosition ⟨2, 0⟩] },
          Screen.empty 3 3) ∧
    (Figure.barT { _pos := ⟨0, 0⟩, _idx := 3,
                   _blocks := [Block.ofPosition ⟨0, 0⟩, Block.ofPosition ⟨1, 0⟩,
                               Block.ofPosition ⟨1, 1⟩, Block.ofPosition ⟨2, 0⟩] }).Rotate
        (Screen.empty 3 3) Direction.right
      = some (true,
          Figure.barT { _pos := ⟨0, 0⟩, _idx := 1,
                        _blocks := [Block.ofPosition ⟨0, 1⟩, Block.ofPosition ⟨1, 0⟩,
                                    Block.ofPosition ⟨1, 1⟩, Block.ofPosition ⟨2, 1⟩] },
          Screen.empty 3 3) := by
  decide

/-- C8: for every figure (in particular every Bar and BarT), every screen and every
direction, if `Rotate` returns `false` then the figure (position, rotation index,
blocks) and the screen are what they were before the call. -/
theorem Figure.Rotate_false_unchanged (fig fig1 : Figure)
    (screen screen1 : Screen LinesCount LineLength) (dir : Direction)
    (h : fig.Rotate screen dir = some (false, fig1, screen1)) :
    fig1 = fig ∧ screen1 = screen := by
  cases fig with
  | bigSquare f => simp [Figure.Rotate] at h
  | bar f =>
    simp only [Figure.Rotate] at h
    split at h
    · exact absurd h (by simp)
    · rename_i result f1 s1 heq
      simp only [Option.some.injEq, Prod.mk.injEq] at h
      obtain ⟨rfl, rfl, rfl⟩ := h
      obtain ⟨rfl, rfl⟩ := Rotate_false _ _ _ _ _ heq
      exact ⟨rfl, rfl⟩
  | barT f =>
    simp only [Figure.Rotate] at h
    split at h
    · exact absurd h (by simp)
    · rename_i result f1 s1 heq
      simp only [Option.some.injEq, Prod.mk.injEq] at h
      obtain ⟨rfl, rfl, rfl⟩ := h
      obtain ⟨rfl, rfl⟩ := Rotate_false _ _ _ _ _ heq
      exact ⟨rfl, rfl⟩
  | square f => simp [Figure.Rotate] at h

theorem Figure.Rotate_false_unchanged_witness :
    (Figure.bar (Bar.ofPosition ⟨0, 0⟩)).Rotate
        (⟨[[Colour.background, Colour.background, Colour.background],
           [Colour.red, Colour.background, Colour.background],
           [Colour.background, Colour.background, Colour.background]]⟩ : Screen 3 3)
        Direction.right
      = some (false, Figure.bar (Bar.ofPosition ⟨0, 0⟩),
          ⟨[[Colour.background, Colour.background, Colour.background],
            [Colour.red, Colour.background, Colour.background],
            [Colour.background, Colour.background, Colour.background]]⟩) ∧
      (Figure.bar (Bar.ofPosition ⟨0, 0⟩) = Figure.bar (Bar.ofPosition ⟨0, 0⟩) ∧
        (⟨[[Colour.background, Colour.background, Colour.background],
           [Colour.red, Colour.background, Colour.background],
           [Colour.background, Colour.background, Colour.background]]⟩ : Screen 3 3)
        = ⟨[[Colour.background, Colour.background, Colour.background],
            [Colour.red, Colour.background, Colour.background],
            [Colour.background, Colour.background, Colour.background]]⟩) :=
  ⟨by decide, Figure.Rotate_false_unchanged _ _ _ _ _
    (show (Figure.bar (Bar.ofPosition ⟨0, 0⟩)).Rotate
        (⟨[[Colour.background, Colour.background, Colour.background],
           [Colour.red, Colour.background, Colour.background],
           [Colour.background, Colour.background, Colour.background]]⟩ : Screen 3 3)
        Direction.right
      = some (false, Figure.bar (Bar.ofPosition ⟨0, 0⟩),
          ⟨[[Colour.background, Colour.background, Colour.background],
            [Colour.red, Colour.background, Colour.background],
            [Colour.background, Colour.background, Colour.background]]⟩) by decide)⟩

/-- C9: for a Square and for a BigSquare, `Rotate` returns `true` on every screen and
for every direction, and returns the figure and the screen it was given. -/
theorem Figure.Rotate_single_state (screen : Screen LinesCount LineLength) (dir : Direction) :
    (∀ f : Square, (Figure.square f).Rotate screen dir
        = some (true, Figure.square f, screen)) ∧
    (∀ f : BigSquare, (Figure.bigSquare f).Rotate screen dir
        = some (true, Figure.bigSquare f, screen)) :=
  ⟨fun _ => rfl, fun _ => rfl⟩

/-! ### Containment -/

theorem Screen.empty_WF (LinesCount LineLength : Nat) :
    (Screen.empty LinesCount LineLength).WF := by
  refine ⟨by simp [Screen.empty], ?_⟩
  intro l hl
  have := List.eq_of_mem_replicate hl
  simp [this]

theorem Screen.set_of_inside (s : Screen LinesCount LineLength) (hs : s.WF) (p : Position)
    (c : Colour) (hp : p.inside LinesCount LineLength) :
    ∃ s1, s.set p c = some s1 ∧ s1.WF := by
  obtain ⟨hr0, hr1, hc0, hc1⟩ := hp
  obtain ⟨hlen, hrow⟩ := hs
  have h1 : p._row.toNat < s._lines.length := by omega
  have h2 : (s._lines[p._row.toNat]).length = LineLength := hrow _ (List.getElem_mem _)
  have h3 : p._col.toNat < (s._lines[p._row.toNat]).length := by omega
  refine ⟨{ _lines := s._lines.set p._row.toNat ((s._lines[p._row.toNat]).set p._col.toNat c) },
    ?_, ?_, ?_⟩
  · unfold Screen.set
    rw [if_neg (by omega), List.getElem?_eq_getElem h1]
    simp only [h3, if_true]
  · simpa using hlen
  · intro l hl
    rcases List.mem_or_eq_of_mem_set hl with hmem | rfl
    · exact hrow l hmem
    · simpa using h2

theorem Screen.Colision_total (s : Screen LinesCount LineLength) (hs : s.WF) (p : Position) :
    ∃ b, s.Colision p = some b ∧ (b = false → p.inside LinesCount LineLength) := by
  by_cases hp : p.inside LinesCount LineLength
  · obtain ⟨c, hc⟩ := Screen.get_of_inside s hs p hp
    obtain ⟨hr0, hr1, hc0, hc1⟩ := hp
    refine ⟨decide (c ≠ Colour.background), ?_, fun _ => ⟨hr0, hr1, hc0, hc1⟩⟩
    unfold Screen.Colision Screen.Width Screen.Depth
    rw [if_neg (by omega), if_neg (by omega), if_neg (by omega), if_neg (by omega), hc]
  · refine ⟨true, ?_, by simp⟩
    unfold Screen.Colision Screen.Width Screen.Depth
    unfold Position.inside at hp
    split_ifs <;> first | rfl | omega

theorem Draw.loop_of_inside (c : Colour) (blocks : List Block) :
    ∀ (s : Screen LinesCount LineLength), s.WF →
      (∀ b ∈ blocks, b.Pos.inside LinesCount LineLength) →
      ∃ s1, Draw.loop c blocks s = some s1 ∧ s1.WF := by
  induction blocks with
  | nil => intro s hs _; exact ⟨s, rfl, hs⟩
  | cons b rest ih =>
    intro s hs hb
    obtain ⟨s1, hset, hs1⟩ := Screen.set_of_inside s hs b.Pos c (hb b (List.mem_cons_self _ _))
    obtain ⟨s2, hloop, hs2⟩ := ih s1 hs1 (fun x hx => hb x (List.mem_cons_of_mem _ hx))
    refine ⟨s2, ?_, hs2⟩
    unfold Draw.loop
    simp only [hset, hloop]

theorem Draw_blocks_of_inside (blocks : List Block) (s : Screen LinesCount LineLength) (hs : s.WF)
    (hb : ∀ b ∈ blocks, b.Pos.inside LinesCount LineLength) (mode : DrawMode) :
    ∃ s1, Draw blocks s mode = some (blocks, s1) ∧ s1.WF := by
  cases mode with
  | clear =>
    obtain ⟨s1, h, hs1⟩ := Draw.loop_of_inside Colour.background blocks s hs hb
    exact ⟨s1, by simp only [Draw, h], hs1⟩
  | draw =>
    obtain ⟨s1, h, hs1⟩ := Draw.loop_of_inside Colour.red blocks s hs hb
    exact ⟨s1, by simp only [Draw, h], hs1⟩

theorem Figure.Draw_of_inside (fig : Figure) (s : Screen LinesCount LineLength) (hs : s.WF)
    (hb : ∀ b ∈ fig.blocks, b.Pos.inside LinesCount LineLength) (mode : DrawMode) :
    ∃ s1, fig.Draw s mode = some (fig, s1) ∧ s1.WF := by
  cases fig with
  | bigSquare f =>
    obtain ⟨s1, h, hs1⟩ := Tetris.Draw_blocks_of_inside f._blocks s hs hb mode
    exact ⟨s1, by simp only [Figure.Draw, h], hs1⟩
  | bar f =>
    obtain ⟨s1, h, hs1⟩ := Tetris.Draw_blocks_of_inside f._blocks s hs hb mode
    exact ⟨s1, by simp only [Figure.Draw, h], hs1⟩
  | barT f =>
    obtain ⟨s1, h, hs1⟩ := Tetris.Draw_blocks_of_inside f._blocks s hs hb mode
    exact ⟨s1, by simp only [Figure.Draw, h], hs1⟩
  | square f =>
    obtain ⟨s1, h, hs1⟩ := Tetris.Draw_blocks_of_inside f._blocks s hs hb mode
    exact ⟨s1, by simp only [Figure.Draw, h], hs1⟩

theorem Translate.loop_returns (s : Screen LinesCount LineLength) (hs : s.WF)
    (blocks : List Block) :
    ∃ r, Translate.loop s blocks = some r ∧
      (r = true → ∀ b ∈ blocks, b.Pos.inside LinesCount LineLength) := by
  induction blocks with
  | nil => exact ⟨true, rfl, by simp⟩
  | cons b rest ih =>
    obtain ⟨c, hc, hin⟩ := Screen.Colision_total s hs b.Pos
    obtain ⟨r, hr, hrest⟩ := ih
    cases c with
    | true => exact ⟨false, by simp only [Translate.loop, hc], by simp⟩
    | false =>
      refine ⟨r, by simp only [Translate.loop, hc, hr], ?_⟩
      intro hrt x hx
      rcases List.mem_cons.1 hx with rfl | hx
      · exact hin rfl
      · exact hrest hrt x hx

theorem Translate_template_total {F : Type} [FigureType F] (fig : F)
    (s : Screen LinesCount LineLength) (hs : s.WF) (vect : Position) :
    ∃ r f1, Translate fig s vect = some (r, f1, s) ∧
      (f1 = fig ∨ ∀ b ∈ FigureType._blocks f1, b.Pos.inside LinesCount LineLength) := by
  obtain ⟨r, hr, hin⟩ :=
    Translate.loop_returns s hs
      (FigureType._blocks (FigureType.ofPosition (FigureType.Pos fig + vect) : F))
  cases r with
  | false => exact ⟨false, fig, by simp only [Translate, hr], Or.inl rfl⟩
  | true => exact ⟨true, _, by simp only [Translate, hr], Or.inr (hin rfl)⟩

theorem Rotate.loop_returns_inside (s : Screen LinesCount LineLength) (hs : s.WF) (figPos : Position)
    (blocks : List Block) :
    ∃ r blocks1, Rotate.loop s figPos blocks = some (r, blocks1) ∧
      (r = true → ∀ b ∈ blocks1, b.Pos.inside LinesCount LineLength) := by
  induction blocks with
  | nil => exact ⟨true, [], rfl, by simp⟩
  | cons bl rest ih =>
    obtain ⟨c, hc, hin⟩ := Screen.Colision_total s hs (Block.ofPosition (bl.Pos + figPos)).Pos
    obtain ⟨r, rest1, hr, hrest⟩ := ih
    cases c with
    | true =>
      exact ⟨false, Block.ofPosition (bl.Pos + figPos) :: rest,
        by simp only [Rotate.loop, hc], by simp⟩
    | false =>
      refine ⟨r, Block.ofPosition (bl.Pos + figPos) :: rest1,
        by simp only [Rotate.loop, hc, hr], ?_⟩
      intro hrt x hx
      rcases List.mem_cons.1 hx with rfl | hx
      · exact hin rfl
      · exact hrest hrt x hx

theorem Rotate_template_total {F : Type} [RotatingFigureType F] (fig : F)
    (s : Screen LinesCount LineLength) (hs : s.WF) (dir : Direction) :
    ∃ r f1, Rotate fig s dir = some (r, f1, s) ∧
      (f1 = fig ∨ ∃ blocks, (∀ b ∈ blocks, b.Pos.inside LinesCount LineLength) ∧
        f1 = RotatingFigureType.set_pos
          (RotatingFigureType.set_blocks (RotatingFigureType.ofDirection dir : F) blocks)
          (FigureType.Pos fig)) := by
  obtain ⟨r, blocks, hr, hin⟩ :=
    Rotate.loop_returns_inside s hs (FigureType.Pos fig)
      (FigureType._blocks (RotatingFigureType.ofDirection dir : F))
  cases r with
  | false => exact ⟨false, fig, by simp only [Rotate, hr], Or.inl rfl⟩
  | true => exact ⟨true, _, by simp only [Rotate, hr], Or.inr ⟨blocks, hin rfl, rfl⟩⟩

theorem Figure.Translate_virtual_total (fig : Figure) (s : Screen LinesCount LineLength) (hs : s.WF)
    (direction : Position) :
    ∃ r fig1, fig.Translate s direction = some (r, fig1, s) ∧
      (fig1 = fig ∨ ∀ b ∈ fig1.blocks, b.Pos.inside LinesCount LineLength) := by
  cases fig with
  | bigSquare f =>
    obtain ⟨r, f1, h, hin⟩ := Tetris.Translate_template_total f s hs direction
    refine ⟨r, Figure.bigSquare f1, by simp only [Figure.Translate, h], ?_⟩
    rcases hin with rfl | hin
    · exact Or.inl rfl
    · exact Or.inr hin
  | bar f =>
    obtain ⟨r, f1, h, hin⟩ := Tetris.Translate_template_total f s hs direction
    refine ⟨r, Figure.bar f1, by simp only [Figure.Translate, h], ?_⟩
    rcases hin with rfl | hin
    · exact Or.inl rfl
    · exact Or.inr hin
  | barT f =>
    obtain ⟨r, f1, h, hin⟩ := Tetris.Translate_template_total f s hs direction
    refine ⟨r, Figure.barT f1, by simp only [Figure.Translate, h], ?_⟩
    rcases hin with rfl | hin
    · exact Or.inl rfl
    · exact Or.inr hin
  | square f =>
    obtain ⟨r, f1, h, hin⟩ := Tetris.Translate_template_total f s hs direction
    refine ⟨r, Figure.square f1, by simp only [Figure.Translate, h], ?_⟩
    rcases hin with rfl | hin
    · exact Or.inl rfl
    · exact Or.inr hin

theorem Figure.Rotate_virtual_total (fig : Figure) (s : Screen LinesCount LineLength) (hs : s.WF)
    (dir : Direction) :
    ∃ r fig1, fig.Rotate s dir = some (r, fig1, s) ∧
      (fig1 = fig ∨ ∀ b ∈ fig1.blocks, b.Pos.inside LinesCount LineLength) := by
  cases fig with
  | bigSquare f => exact ⟨true, _, rfl, Or.inl rfl⟩
  | bar f =>
    obtain ⟨r, f1, h, hin⟩ := Tetris.Rotate_template_total f s hs dir
    refine ⟨r, Figure.bar f1, by simp only [Figure.Rotate, h], ?_⟩
    rcases hin with rfl | ⟨blocks, hin, rfl⟩
    · exact Or.inl rfl
    · exact Or.inr hin
  | barT f =>
    obtain ⟨r, f1, h, hin⟩ := Tetris.Rotate_template_total f s hs dir
    refine ⟨r, Figure.barT f1, by simp only [Figure.Rotate, h], ?_⟩
    rcases hin with rfl | ⟨blocks, hin, rfl⟩
    · exact Or.inl rfl
    · exact Or.inr hin
  | square f => exact ⟨true, _, rfl, Or.inl rfl⟩

theorem Screen.RemoveFullLines_total (s : Screen LinesCount LineLength) (hs : s.WF) :
    ∃ s1, s.RemoveFullLines = some s1 ∧ s1.WF := by
  obtain ⟨hlen, hrow⟩ := hs
  rcases s with ⟨lines⟩
  cases lines with
  | nil =>
    refine ⟨⟨[]⟩, rfl, ?_⟩
    exact ⟨hlen, by simp⟩
  | cons row0 rest =>
    refine ⟨⟨List.replicate (rest.countP IsLineFull)
        (List.replicate row0.length Colour.background)
        ++ row0 :: rest.filter (fun l => !IsLineFull l)⟩,
      by simp only [Screen.RemoveFullLines, RemoveFullLines_cons], ?_, ?_⟩
    · have h := countP_add_length_filter_not rest
      simp only [List.length_append, List.length_replicate, List.length_cons] at hlen ⊢
      omega
    · intro l hl
      simp only [List.mem_append, List.mem_cons, List.mem_filter] at hl
      rcases hl with hl | rfl | ⟨hl, -⟩
      · rw [List.eq_of_mem_replicate hl, List.length_replicate]
        exact hrow row0 (List.mem_cons_self _ _)
      · exact hrow l (List.mem_cons_self _ _)
      · exact hrow l (List.mem_cons_of_mem _ hl)

theorem Game.RandomFigureGenerator_inside (hH : 3 ≤ LinesCount) (hW : 3 ≤ LineLength)
    (figureID : Int) :
    ∀ b ∈ (Game.RandomFigureGenerator LinesCount LineLength figureID).blocks,
      b.Pos.inside LinesCount LineLength := by
  have hcol : (0 : Int) ≤ (LineLength : Int) / 2 - 1 ∧
      (LineLength : Int) / 2 - 1 + 2 < LineLength := by omega
  obtain ⟨hc0, hc1⟩ := hcol
  have hrow : (3 : Int) ≤ LinesCount := by omega
  intro b hb
  unfold Game.RandomFigureGenerator at hb
  simp only at hb
  split_ifs at hb
  all_goals
    simp only [Figure.blocks, Bar.ofPosition, BarT.ofPosition, Square.ofPosition,
      BigSquare.ofPosition, Bar._figure, BarT._figure, Game.initPos, Screen.Dimention,
      List.getD_cons_zero, List.map_cons, List.map_nil, List.mem_cons, List.mem_singleton,
      List.not_mem_nil, or_false] at hb
    rcases hb with rfl | rfl | rfl | rfl
      <;> simp only [Block.ofPosition, Block.Pos, Position.inside, Position.add_def]
      <;> omega

theorem Game.new_total (hH : 3 ≤ LinesCount) (hW : 3 ≤ LineLength) (figureID : Int) :
    ∃ g, Game.new LinesCount LineLength figureID = some g ∧ g.Contained := by
  have hin := Game.RandomFigureGenerator_inside hH hW figureID
  obtain ⟨s1, hd, hs1⟩ :=
    Figure.Draw_of_inside (Game.RandomFigureGenerator LinesCount LineLength figureID)
      (Screen.empty LinesCount LineLength) (Screen.empty_WF _ _) hin DrawMode.draw
  refine ⟨{ _cmd := Command.Idle,
             _figure := Game.RandomFigureGenerator LinesCount LineLength figureID,
             _screen := s1 }, ?_, hs1, hin⟩
  simp only [Game.new, hd]

theorem Game.Translate_total (hH : 3 ≤ LinesCount) (hW : 3 ≤ LineLength)
    (g : Game LinesCount LineLength) (hg : g.Contained) (p : Position) (figureID : Int) :
    ∃ g1, g.Translate p figureID = some g1 ∧ g1.Contained := by
  obtain ⟨hWF, hin⟩ := hg
  obtain ⟨s1, hd1, hs1⟩ := Figure.Draw_of_inside g._figure g._screen hWF hin DrawMode.clear
  obtain ⟨r, fig2, ht, hfig2⟩ := Figure.Translate_virtual_total g._figure s1 hs1 p
  have hin2 : ∀ b ∈ fig2.blocks, b.Pos.inside LinesCount LineLength := by
    rcases hfig2 with rfl | h
    · exact hin
    · exact h
  obtain ⟨s3, hd3, hs3⟩ := Figure.Draw_of_inside fig2 s1 hs1 hin2 DrawMode.draw
  by_cases hland : r = false ∧ g._cmd = Command.TranslateDown
  · obtain ⟨s4, hr4, hs4⟩ := Screen.RemoveFullLines_total s3 hs3
    have hin4 := Game.RandomFigureGenerator_inside hH hW figureID
    obtain ⟨s5, hd5, hs5⟩ :=
      Figure.Draw_of_inside (Game.RandomFigureGenerator LinesCount LineLength figureID)
        s4 hs4 hin4 DrawMode.draw
    refine ⟨{ g with
        _figure := Game.RandomFigureGenerator LinesCount LineLength figureID,
        _screen := s5 }, ?_, hs5, hin4⟩
    simp only [Game.Translate, hd1, ht, hd3, if_pos hland, hr4, hd5]
  · refine ⟨{ g with _figure := fig2, _screen := s3 }, ?_, hs3, hin2⟩
    simp only [Game.Translate, hd1, ht, hd3, if_neg hland]

theorem Game.Rotate_total (g : Game LinesCount LineLength) (hg : g.Contained)
    (d : Direction) :
    ∃ g1, g.Rotate d = some g1 ∧ g1.Contained := by
  obtain ⟨hWF, hin⟩ := hg
  obtain ⟨s1, hd1, hs1⟩ := Figure.Draw_of_inside g._figure g._screen hWF hin DrawMode.clear
  obtain ⟨r, fig2, ht, hfig2⟩ := Figure.Rotate_virtual_total g._figure s1 hs1 d
  have hin2 : ∀ b ∈ fig2.blocks, b.Pos.inside LinesCount LineLength := by
    rcases hfig2 with rfl | h
    · exact hin
    · exact h
  obtain ⟨s3, hd3, hs3⟩ := Figure.Draw_of_inside fig2 s1 hs1 hin2 DrawMode.draw
  refine ⟨{ g with _figure := fig2, _screen := s3 }, ?_, hs3, hin2⟩
  simp only [Game.Rotate, hd1, ht, hd3]

theorem Game.Tick_total (hH : 3 ≤ LinesCount) (hW : 3 ≤ LineLength)
    (g : Game LinesCount LineLength) (hg : g.Contained) (figureID : Int) :
    ∃ g1, g.Tick figureID = some g1 ∧ g1.Contained := by
  have hd : ∃ g1, g.dispatch figureID = some g1 ∧ g1.Contained := by
    unfold Game.dispatch
    cases g._cmd with
    | Idle => exact ⟨g, rfl, hg⟩
    | RotateLeft => exact Game.Rotate_total g hg _
    | RotateRight => exact Game.Rotate_total g hg _
    | TranslateDown => exact Game.Translate_total hH hW g hg _ _
    | TranslateLeft => exact Game.Translate_total hH hW g hg _ _
    | TranslateRigth => exact Game.Translate_total hH hW g hg _ _
  obtain ⟨g1, h1, hc1⟩ := hd
  exact ⟨{ g1 with _cmd := Command.Idle }, by simp only [Game.Tick, h1], hc1⟩

theorem Game.Reachable_contained (hH : 3 ≤ LinesCount) (hW : 3 ≤ LineLength)
    (g : Game LinesCount LineLength) (hg : g.Reachable) : g.Contained := by
  induction hg with
  | new figureID g hnew =>
    obtain ⟨g0, h0, hc⟩ := Game.new_total hH hW figureID
    rw [h0] at hnew
    cases hnew
    exact hc
  | input g cmd _ ih => exact ih
  | tick g g1 figureID _ htick ih =>
    obtain ⟨g2, h2, hc⟩ := Game.Tick_total hH hW g ih figureID
    rw [h2] at htick
    cases htick
    exact hc

/-- C10: on a screen with at least 3 rows and 3 columns, the constructor succeeds for
every value of the random engine, and in every game state reachable from it by `Input`
and `Tick` every block of the current figure has `0 ≤ row < LinesCount` and
`0 ≤ col < LineLength`; hence `Draw` of the current figure makes no access out of range
in either mode and `Tick` runs to its end. -/
theorem Game.containment (hH : 3 ≤ LinesCount) (hW : 3 ≤ LineLength)
    (g : Game LinesCount LineLength) (hg : g.Reachable) :
    (∀ figureID, ∃ g0, Game.new LinesCount LineLength figureID = some g0) ∧
    (∀ b ∈ g._figure.blocks, b.Pos.inside LinesCount LineLength) ∧
    (∀ mode, ∃ screen1, g._figure.Draw g._screen mode = some (g._figure, screen1)) ∧
    (∀ figureID, ∃ g1, g.Tick figureID = some g1) := by
  have hc := Game.Reachable_contained hH hW g hg
  refine ⟨?_, hc.2, ?_, ?_⟩
  · intro figureID
    obtain ⟨g0, h0, -⟩ := Game.new_total hH hW figureID
    exact ⟨g0, h0⟩
  · intro mode
    obtain ⟨s1, h1, -⟩ := Figure.Draw_of_inside g._figure g._screen hc.1 hc.2 mode
    exact ⟨s1, h1⟩
  · intro figureID
    obtain ⟨g1, h1, -⟩ := Game.Tick_total hH hW g hc figureID
    exact ⟨g1, h1⟩

theorem Game.containment_witness :
    3 ≤ 3 ∧ 3 ≤ 3 ∧
    Game.Reachable
      (⟨Command.Idle,
        Figure.bar ⟨⟨0, 0⟩, 1,
          [Block.ofPosition ⟨1, 0⟩, Block.ofPosition ⟨1, 1⟩, Block.ofPosition ⟨1, 2⟩]⟩,
        ⟨[[Colour.background, Colour.background, Colour.background],
          [Colour.red, Colour.red, Colour.red],
          [Colour.background, Colour.background, Colour.background]]⟩⟩ : Game 3 3) ∧
    ((∀ figureID, ∃ g0, Game.new 3 3 figureID = some g0) ∧
     (∀ b ∈ [Block.ofPosition ⟨1, 0⟩, Block.ofPosition ⟨1, 1⟩, Block.ofPosition ⟨1, 2⟩],
        b.Pos.inside 3 3) ∧
     (∀ mode, ∃ screen1,
        Figure.Draw
          (⟨Command.Idle,
        Figure.bar ⟨⟨0, 0⟩, 1,
          [Block.ofPosition ⟨1, 0⟩, Block.ofPosition ⟨1, 1⟩, Block.ofPosition ⟨1, 2⟩]⟩,
        ⟨[[Colour.background, Colour.background, Colour.background],
          [Colour.red, Colour.red, Colour.red],
          [Colour.background, Colour.background, Colour.background]]⟩⟩ : Game 3 3)._figure
          (⟨Command.Idle,
        Figure.bar ⟨⟨0, 0⟩, 1,
          [Block.ofPosition ⟨1, 0⟩, Block.ofPosition ⟨1, 1⟩, Block.ofPosition ⟨1, 2⟩]⟩,
        ⟨[[Colour.background, Colour.background, Colour.background],
          [Colour.red, Colour.red, Colour.red],
          [Colour.background, Colour.background, Colour.background]]⟩⟩ : Game 3 3)._screen mode
        = some ((⟨Command.Idle,
        Figure.bar ⟨⟨0, 0⟩, 1,
          [Block.ofPosition ⟨1, 0⟩, Block.ofPosition ⟨1, 1⟩, Block.ofPosition ⟨1, 2⟩]⟩,
        ⟨[[Colour.background, Colour.background, Colour.background],
          [Colour.red, Colour.red, Colour.red],
          [Colour.background, Colour.background, Colour.background]]⟩⟩ : Game 3 3)._figure, screen1)) ∧
     (∀ figureID, ∃ g1,
        Game.Tick
          (⟨Command.Idle,
        Figure.bar ⟨⟨0, 0⟩, 1,
          [Block.ofPosition ⟨1, 0⟩, Block.ofPosition ⟨1, 1⟩, Block.ofPosition ⟨1, 2⟩]⟩,
        ⟨[[Colour.background, Colour.background, Colour.background],
          [Colour.red, Colour.red, Colour.red],
          [Colour.background, Colour.background, Colour.background]]⟩⟩ : Game 3 3) figureID = some g1)) :=
  have hreach : Game.Reachable
      (⟨Command.Idle,
        Figure.bar ⟨⟨0, 0⟩, 1,
          [Block.ofPosition ⟨1, 0⟩, Block.ofPosition ⟨1, 1⟩, Block.ofPosition ⟨1, 2⟩]⟩,
        ⟨[[Colour.background, Colour.background, Colour.background],
          [Colour.red, Colour.red, Colour.red],
          [Colour.background, Colour.background, Colour.background]]⟩⟩ : Game 3 3) :=
    Game.Reachable.tick
      (Game.Input
        (⟨Command.Idle, Figure.bar (Bar.ofPosition ⟨0, 0⟩),
        ⟨[[Colour.background, Colour.red, Colour.background],
          [Colour.background, Colour.red, Colour.background],
          [Colour.background, Colour.red, Colour.background]]⟩⟩ : Game 3 3) Command.RotateRight)
      _ 0
      (Game.Reachable.input _ Command.RotateRight
        (Game.Reachable.new 1 _ (by decide)))
      (by decide)
  ⟨by decide, by decide, hreach, Game.containment (by decide) (by decide) _ hreach⟩

/-! ### The command slot -/

/-- C14: for every game state, every two commands and every value of the random engine,
`Input c1`, `Input c2`, `Tick` gives the same result as `Input c2`, `Tick`: the second
`Input` overwrites the first. -/
theorem Game.Input_overwrite (g : Game LinesCount LineLength) (c1 c2 : Command)
    (figureID : Int) :
    (g.Input c1).Input c2 = g.Input c2 ∧
    ((g.Input c1).Input c2).Tick figureID = (g.Input c2).Tick figureID ∧
    ((g.Input Command.RotateLeft).Input Command.TranslateLeft).Tick figureID
      = (g.Input Command.TranslateLeft).Tick figureID :=
  ⟨rfl, rfl, rfl⟩

/-- C15: for every game state whose pending command is `Idle`, `Tick` returns the state
unchanged: same screen, same figure, command still `Idle`. -/
theorem Game.Tick_Idle (g : Game LinesCount LineLength) (figureID : Int)
    (h : g._cmd = Command.Idle) : g.Tick figureID = some g := by
  rcases g with ⟨cmd, figure, screen⟩
  simp only at h
  subst h
  rfl

theorem Game.Tick_Idle_witness :
    (⟨Command.Idle, Figure.square (Square.ofPosition ⟨0, 0⟩),
        ⟨[[Colour.red, Colour.background], [Colour.background, Colour.background]]⟩⟩ :
        Game 2 2)._cmd = Command.Idle ∧
    (⟨Command.Idle, Figure.square (Square.ofPosition ⟨0, 0⟩),
        ⟨[[Colour.red, Colour.background], [Colour.background, Colour.background]]⟩⟩ :
        Game 2 2).Tick 0
      = some ⟨Command.Idle, Figure.square (Square.ofPosition ⟨0, 0⟩),
          ⟨[[Colour.red, Colour.background], [Colour.background, Colour.background]]⟩⟩ :=
  ⟨rfl, Game.Tick_Idle _ 0 rfl⟩

/-- C16: whenever `Tick` returns, the command slot of the returned state is `Idle` and a
second `Tick` on it, for any value of the random engine, returns it unchanged; on a
screen of at least 3 rows and 3 columns `Tick` does return on every state whose figure
lies on the screen. -/
theorem Game.Tick_consumes_command (g : Game LinesCount LineLength) (figureID : Int) :
    (∀ g1, g.Tick figureID = some g1 →
      g1._cmd = Command.Idle ∧ ∀ figureID2, g1.Tick figureID2 = some g1) ∧
    (3 ≤ LinesCount → 3 ≤ LineLength → g.Contained → ∃ g1, g.Tick figureID = some g1) := by
  refine ⟨?_, ?_⟩
  · intro g1 h
    unfold Game.Tick at h
    split at h
    · exact absurd h (by simp)
    · rename_i g2 _
      simp only [Option.some.injEq] at h
      subst h
      exact ⟨rfl, fun _ => rfl⟩
  · intro hH hW hc
    obtain ⟨g1, h1, -⟩ := Game.Tick_total hH hW g hc figureID
    exact ⟨g1, h1⟩

theorem Game.Tick_consumes_command_witness :
    (⟨Command.TranslateDown, Figure.square (Square.ofPosition ⟨0, 0⟩),
        ⟨[[Colour.red, Colour.background], [Colour.background, Colour.background]]⟩⟩ :
        Game 2 2).Tick 0
      = some ⟨Command.Idle, Figure.square (Square.ofPosition ⟨1, 0⟩),
          ⟨[[Colour.background, Colour.background], [Colour.red, Colour.background]]⟩⟩ ∧
    ((⟨Command.Idle, Figure.square (Square.ofPosition ⟨1, 0⟩),
        ⟨[[Colour.background, Colour.background], [Colour.red, Colour.background]]⟩⟩ :
        Game 2 2)._cmd = Command.Idle ∧
     ∀ figureID2,
      (⟨Command.Idle, Figure.square (Square.ofPosition ⟨1, 0⟩),
          ⟨[[Colour.background, Colour.background], [Colour.red, Colour.background]]⟩⟩ :
          Game 2 2).Tick figureID2
        = some ⟨Command.Idle, Figure.square (Square.ofPosition ⟨1, 0⟩),
            ⟨[[Colour.background, Colour.background], [Colour.red, Colour.background]]⟩⟩) :=
  ⟨by decide,
   (Game.Tick_consumes_command
      (⟨Command.TranslateDown, Figure.square (Square.ofPosition ⟨0, 0⟩),
        ⟨[[Colour.red, Colour.background], [Colour.background, Colour.background]]⟩⟩ :
        Game 2 2) 0).1 _ (by decide)⟩

/-! ### The figure generator and block comparison -/

/-- C18: the values 0, 1, 2, 3 of the random selector give a BigSquare, a Bar, a BarT
and a Square; each is at position `(0, LineLength / 2 - 1)`; the Bar and the BarT have
rotation index 0 and the blocks of `_figure[0]` moved by that position, the BigSquare has
the offsets (0,0), (0,1), (1,0), (1,1) and the Square the offset (0,0) moved by it. -/
theorem Game.RandomFigureGenerator_spec (LinesCount LineLength : Nat) :
    Game.RandomFigureGenerator LinesCount LineLength 0
      = Figure.bigSquare ⟨[(0, 0), (0, 1), (1, 0), (1, 1)].map (fun (o : Int × Int) =>
          Block.ofPosition (⟨o.1, o.2⟩ + ⟨0, (LineLength : Int) / 2 - 1⟩))⟩ ∧
    Game.RandomFigureGenerator LinesCount LineLength 1
      = Figure.bar ⟨⟨0, (LineLength : Int) / 2 - 1⟩, 0,
          (Bar._figure.getD 0 []).map (fun b =>
            Block.ofPosition (b.Pos + ⟨0, (LineLength : Int) / 2 - 1⟩))⟩ ∧
    Game.RandomFigureGenerator LinesCount LineLength 2
      = Figure.barT ⟨⟨0, (LineLength : Int) / 2 - 1⟩, 0,
          (BarT._figure.getD 0 []).map (fun b =>
            Block.ofPosition (b.Pos + ⟨0, (LineLength : Int) / 2 - 1⟩))⟩ ∧
    Game.RandomFigureGenerator LinesCount LineLength 3
      = Figure.square ⟨[Block.ofPosition (⟨0, 0⟩ + ⟨0, (LineLength : Int) / 2 - 1⟩)]⟩ ∧
    (∀ figureID : Int, 0 ≤ figureID → figureID ≤ 3 →
      (Game.RandomFigureGenerator LinesCount LineLength figureID).Pos
        = ⟨0, (LineLength : Int) / 2 - 1⟩) ∧
    [Game.RandomFigureGenerator LinesCount LineLength 0,
      Game.RandomFigureGenerator LinesCount LineLength 1,
      Game.RandomFigureGenerator LinesCount LineLength 2,
      Game.RandomFigureGenerator LinesCount LineLength 3].Nodup := by
  refine ⟨?_, ?_, ?_, ?_, ?_, ?_⟩
  · simp [Game.RandomFigureGenerator, BigSquare.ofPosition, Game.initPos, Screen.Dimention,
      Position.add_def]
  · simp [Game.RandomFigureGenerator, Bar.ofPosition, Game.initPos, Screen.Dimention]
  · simp [Game.RandomFigureGenerator, BarT.ofPosition, Game.initPos, Screen.Dimention]
  · simp [Game.RandomFigureGenerator, Square.ofPosition, Game.initPos, Screen.Dimention,
      Position.add_def]
  · intro figureID h0 h3
    have hcases : figureID = 0 ∨ figureID = 1 ∨ figureID = 2 ∨ figureID = 3 := by omega
    rcases hcases with rfl | rfl | rfl | rfl <;>
      simp [Game.RandomFigureGenerator, Figure.Pos, BigSquare.Pos, BigSquare.ofPosition,
        Square.Pos, Square.ofPosition, Bar.ofPosition, BarT.ofPosition, Game.initPos,
        Screen.Dimention, Block.Pos, Block.ofPosition]
  · simp [Game.RandomFigureGenerator]

/-- C19 (amended): `a == b` holds if and only if `a` and `b` are both empty or both not
empty; the positions play no part. -/
theorem Block.eq_iff (a b : Block) :
    (a.eq b = true ↔ (a.IsEmpty = true ↔ b.IsEmpty = true)) ∧
    (∀ p q : Position, Block.eq ⟨p, a._color⟩ ⟨q, b._color⟩ = a.eq b) := by
  refine ⟨?_, fun _ _ => rfl⟩
  unfold Block.eq
  cases a.IsEmpty <;> cases b.IsEmpty <;> simp

/-- C19, as stated, fails on two blocks that are not empty: `Block{(0,0)} == Block{(1,2)}`
holds although neither block is empty. -/
theorem Block.eq_of_two_red_blocks_counterexample :
    (Block.ofPosition ⟨0, 0⟩).eq (Block.ofPosition ⟨1, 2⟩) = true ∧
    ¬ ((Block.ofPosition ⟨0, 0⟩).IsEmpty = true ∧ (Block.ofPosition ⟨1, 2⟩).IsEmpty = true) := by
  decide

/-! ### Reading the screen after writes -/

theorem Screen.get_of_nonneg (s : Screen LinesCount LineLength) (i j : Nat) :
    s.get ⟨(i : Int), (j : Int)⟩ = (s._lines[i]?).bind (fun row => row[j]?) := by
  unfold Screen.get
  rw [if_neg (by simp)]
  simp only [Int.toNat_ofNat]
  cases s._lines[i]? <;> rfl

theorem Screen.get_set (s s1 : Screen LinesCount LineLength) (p : Position) (c : Colour)
    (h : s.set p c = some s1) (q : Position) :
    s1.get q = if q = p then some c else s.get q := by
  unfold Screen.set at h
  split_ifs at h with hneg
  split at h
  · exact absurd h (by simp)
  · rename_i row hrow
    split_ifs at h with hcol
    simp only [Option.some.injEq] at h
    subst h
    have hrlt : p._row.toNat < s._lines.length := by
      rcases List.getElem?_eq_some.1 hrow with ⟨hlt, -⟩
      exact hlt
    by_cases hq : q._row < 0 ∨ q._col < 0
    · have hne : q ≠ p := by
        rintro rfl
        exact hneg hq
      simp only [Screen.get, if_pos hq, if_neg hne]
    · simp only [Screen.get, if_neg hq]
      by_cases hrow_eq : q._row = p._row
      · have h1 : q._row.toNat = p._row.toNat := by rw [hrow_eq]
        rw [h1, List.getElem?_set_self hrlt, hrow]
        by_cases hcol_eq : q._col = p._col
        · have hqp : q = p := by
            cases q; cases p; simp_all
          have h2 : q._col.toNat = p._col.toNat := by rw [hcol_eq]
          simp only [hqp, if_true]
          exact List.getElem?_set_self hcol
        · have hne : q ≠ p := fun hqp => hcol_eq (by rw [hqp])
          have h2 : p._col.toNat ≠ q._col.toNat := by omega
          simp only [if_neg hne]
          exact List.getElem?_set_ne h2
      · have hne : q ≠ p := fun hqp => hrow_eq (by rw [hqp])
        have h1 : p._row.toNat ≠ q._row.toNat := by omega
        simp only [if_neg hne]
        rw [List.getElem?_set_ne h1]

theorem Screen.set_some_inside (s s1 : Screen LinesCount LineLength) (hs : s.WF)
    (p : Position) (c : Colour) (h : s.set p c = some s1) :
    p.inside LinesCount LineLength ∧ s1.WF := by
  have hin : p.inside LinesCount LineLength := by
    obtain ⟨hlen, hrows⟩ := hs
    unfold Screen.set at h
    split_ifs at h with hneg
    split at h
    · exact absurd h (by simp)
    · rename_i row hrow
      split_ifs at h with hcol
      rcases List.getElem?_eq_some.1 hrow with ⟨hlt, -⟩
      have hw := hrows row (List.getElem?_mem hrow)
      unfold Position.inside
      omega
  obtain ⟨s2, h2, hs2⟩ := Screen.set_of_inside s hs p c hin
  rw [h] at h2
  cases h2
  exact ⟨hin, hs2⟩

theorem Screen.ext_get (s s1 : Screen LinesCount LineLength) (hs : s.WF) (hs1 : s1.WF)
    (h : ∀ q, s.get q = s1.get q) : s = s1 := by
  rcases s with ⟨lines⟩
  rcases s1 with ⟨lines1⟩
  obtain ⟨hlen, hrows⟩ := hs
  obtain ⟨hlen1, hrows1⟩ := hs1
  simp only at hlen hrows hlen1 hrows1
  congr 1
  apply List.ext_getElem?
  intro i
  by_cases hi : i < LinesCount
  · have hi0 : i < lines.length := by omega
    have hi1 : i < lines1.length := by omega
    rw [List.getElem?_eq_getElem hi0, List.getElem?_eq_getElem hi1]
    congr 1
    apply List.ext_getElem?
    intro j
    have hq := h ⟨(i : Int), (j : Int)⟩
    rw [Screen.get_of_nonneg, Screen.get_of_nonneg] at hq
    simpa [List.getElem?_eq_getElem hi0, List.getElem?_eq_getElem hi1] using hq
  · rw [List.getElem?_eq_none (by omega), List.getElem?_eq_none (by omega)]

theorem Draw.loop_some (c : Colour) (blocks : List Block) :
    ∀ (s s1 : Screen LinesCount LineLength), s.WF → Draw.loop c blocks s = some s1 →
      s1.WF ∧ (∀ b ∈ blocks, b.Pos.inside LinesCount LineLength) ∧
      ∀ q, s1.get q = if q ∈ blocks.map Block.Pos then some c else s.get q := by
  induction blocks with
  | nil =>
    intro s s1 hs h
    simp only [Draw.loop, Option.some.injEq] at h
    subst h
    exact ⟨hs, by simp, by simp⟩
  | cons b rest ih =>
    intro s s1 hs h
    unfold Draw.loop at h
    split at h
    · exact absurd h (by simp)
    · rename_i s2 hset
      obtain ⟨hin, hs2⟩ := Screen.set_some_inside s s2 hs b.Pos c hset
      obtain ⟨hs1, hrest, hget⟩ := ih s2 s1 hs2 h
      refine ⟨hs1, ?_, ?_⟩
      · intro x hx
        rcases List.mem_cons.1 hx with rfl | hx
        · exact hin
        · exact hrest x hx
      · intro q
        rw [hget q, Screen.get_set s s2 b.Pos c hset q]
        by_cases hq : q = b.Pos
        · simp [hq]
        · by_cases hr : q ∈ rest.map Block.Pos
          · simp [hr]
          · simp only [List.map_cons, List.mem_cons, hq, hr, if_false, or_self]

theorem Draw.loop_restore (c c1 : Colour) (blocks : List Block)
    (s s1 s2 : Screen LinesCount LineLength) (hs : s.WF)
    (h1 : Draw.loop c blocks s = some s1) (h2 : Draw.loop c1 blocks s1 = some s2)
    (hcol : ∀ b ∈ blocks, s.get b.Pos = some c1) : s2 = s := by
  obtain ⟨hs1, -, hget1⟩ := Draw.loop_some c blocks s s1 hs h1
  obtain ⟨hs2, -, hget2⟩ := Draw.loop_some c1 blocks s1 s2 hs1 h2
  apply Screen.ext_get s2 s hs2 hs
  intro q
  rw [hget2 q, hget1 q]
  by_cases hq : q ∈ blocks.map Block.Pos
  · obtain ⟨b, hb, rfl⟩ := List.mem_map.1 hq
    simp only [hq, if_true]
    exact (hcol b hb).symm
  · simp only [hq, if_false]

theorem Figure.Draw_eq_loop (fig : Figure) (s : Screen LinesCount LineLength) (mode : DrawMode) :
    fig.Draw s mode
      = (Draw.loop (match mode with
            | DrawMode.clear => Colour.background
            | DrawMode.draw => Colour.red) fig.blocks s).map (fun s1 => (fig, s1)) := by
  cases fig with
  | bigSquare f =>
    cases mode
    · simp only [Figure.Draw, Tetris.Draw, Figure.blocks]
      cases Draw.loop Colour.background f._blocks s <;> rfl
    · simp only [Figure.Draw, Tetris.Draw, Figure.blocks]
      cases Draw.loop Colour.red f._blocks s <;> rfl
  | bar f =>
    cases mode
    · simp only [Figure.Draw, Tetris.Draw, Figure.blocks]
      cases Draw.loop Colour.background f._blocks s <;> rfl
    · simp only [Figure.Draw, Tetris.Draw, Figure.blocks]
      cases Draw.loop Colour.red f._blocks s <;> rfl
  | barT f =>
    cases mode
    · simp only [Figure.Draw, Tetris.Draw, Figure.blocks]
      cases Draw.loop Colour.background f._blocks s <;> rfl
    · simp only [Figure.Draw, Tetris.Draw, Figure.blocks]
      cases Draw.loop Colour.red f._blocks s <;> rfl
  | square f =>
    cases mode
    · simp only [Figure.Draw, Tetris.Draw, Figure.blocks]
      cases Draw.loop Colour.background f._blocks s <;> rfl
    · simp only [Figure.Draw, Tetris.Draw, Figure.blocks]
      cases Draw.loop Colour.red f._blocks s <;> rfl

/-- C20: for every figure whose blocks are all on the screen, `Draw` returns the figure
unchanged; with mode `clear` every cell covered by a block becomes `background`, with
mode `draw` every such cell becomes `red`, and in both modes every other cell (and the
shape of the buffer) is unchanged. -/
theorem Figure.Draw_frame (fig : Figure) (s : Screen LinesCount LineLength) (hs : s.WF)
    (hb : ∀ b ∈ fig.blocks, b.Pos.inside LinesCount LineLength) :
    (∃ s1, fig.Draw s DrawMode.clear = some (fig, s1) ∧ s1.WF ∧
      (∀ b ∈ fig.blocks, s1.get b.Pos = some Colour.background) ∧
      (∀ q, q ∉ fig.blocks.map Block.Pos → s1.get q = s.get q)) ∧
    (∃ s1, fig.Draw s DrawMode.draw = some (fig, s1) ∧ s1.WF ∧
      (∀ b ∈ fig.blocks, s1.get b.Pos = some Colour.red) ∧
      (∀ q, q ∉ fig.blocks.map Block.Pos → s1.get q = s.get q)) := by
  constructor
  · obtain ⟨s1, h1, hs1⟩ := Draw.loop_of_inside Colour.background fig.blocks s hs hb
    obtain ⟨-, -, hget⟩ := Draw.loop_some Colour.background fig.blocks s s1 hs h1
    refine ⟨s1, by rw [Figure.Draw_eq_loop, h1]; rfl, hs1, ?_, ?_⟩
    · intro b hb1
      rw [hget, if_pos (List.mem_map_of_mem _ hb1)]
    · intro q hq
      rw [hget, if_neg hq]
  · obtain ⟨s1, h1, hs1⟩ := Draw.loop_of_inside Colour.red fig.blocks s hs hb
    obtain ⟨-, -, hget⟩ := Draw.loop_some Colour.red fig.blocks s s1 hs h1
    refine ⟨s1, by rw [Figure.Draw_eq_loop, h1]; rfl, hs1, ?_, ?_⟩
    · intro b hb1
      rw [hget, if_pos (List.mem_map_of_mem _ hb1)]
    · intro q hq
      rw [hget, if_neg hq]

theorem Figure.Draw_frame_witness :
    (Screen.empty 3 3).WF ∧
    (∀ b ∈ (Figure.bar (Bar.ofPosition ⟨0, 0⟩)).blocks, b.Pos.inside 3 3) ∧
    ((∃ s1, (Figure.bar (Bar.ofPosition ⟨0, 0⟩)).Draw (Screen.empty 3 3) DrawMode.clear
        = some (Figure.bar (Bar.ofPosition ⟨0, 0⟩), s1) ∧ s1.WF ∧
      (∀ b ∈ (Figure.bar (Bar.ofPosition ⟨0, 0⟩)).blocks,
        s1.get b.Pos = some Colour.background) ∧
      (∀ q, q ∉ (Figure.bar (Bar.ofPosition ⟨0, 0⟩)).blocks.map Block.Pos →
        s1.get q = (Screen.empty 3 3).get q)) ∧
     (∃ s1, (Figure.bar (Bar.ofPosition ⟨0, 0⟩)).Draw (Screen.empty 3 3) DrawMode.draw
        = some (Figure.bar (Bar.ofPosition ⟨0, 0⟩), s1) ∧ s1.WF ∧
      (∀ b ∈ (Figure.bar (Bar.ofPosition ⟨0, 0⟩)).blocks, s1.get b.Pos = some Colour.red) ∧
      (∀ q, q ∉ (Figure.bar (Bar.ofPosition ⟨0, 0⟩)).blocks.map Block.Pos →
        s1.get q = (Screen.empty 3 3).get q))) :=
  ⟨by decide, by decide,
    Figure.Draw_frame (Figure.bar (Bar.ofPosition ⟨0, 0⟩)) (Screen.empty 3 3)
      (by decide) (by decide)⟩

/-! ### What Translate and Rotate accept -/

theorem Screen.Colision_false (s : Screen LinesCount LineLength) (p : Position)
    (h : s.Colision p = some false) :
    p.inside LinesCount LineLength ∧ s.get p = some Colour.background := by
  unfold Screen.Colision Screen.Width Screen.Depth at h
  split_ifs at h with h1 h2 h3 h4
  · simp at h
  · simp at h
  · simp at h
  · simp at h
  · split at h
    · exact absurd h (by simp)
    · rename_i c hc
      simp only [Option.some.injEq, decide_eq_false_iff_not, not_not] at h
      subst h
      exact ⟨⟨by omega, by omega, by omega, by omega⟩, hc⟩

theorem Screen.inside_of_get (s : Screen LinesCount LineLength) (hs : s.WF) (p : Position)
    (c : Colour) (h : s.get p = some c) : p.inside LinesCount LineLength := by
  obtain ⟨hlen, hrows⟩ := hs
  unfold Screen.get at h
  split_ifs at h with hneg
  split at h
  · exact absurd h (by simp)
  · rename_i row hrow
    rcases List.getElem?_eq_some.1 hrow with ⟨hlt, -⟩
    rcases List.getElem?_eq_some.1 h with ⟨hlt2, -⟩
    have hw := hrows row (List.getElem?_mem hrow)
    unfold Position.inside
    omega

theorem Translate.loop_accepts (s : Screen LinesCount LineLength) (blocks : List Block)
    (h : Translate.loop s blocks = some true) :
    ∀ b ∈ blocks, s.Colision b.Pos = some false := by
  induction blocks with
  | nil => simp
  | cons b rest ih =>
    unfold Translate.loop at h
    split at h
    · exact absurd h (by simp)
    · exact absurd h (by simp)
    · rename_i hc
      intro x hx
      rcases List.mem_cons.1 hx with rfl | hx
      · exact hc
      · exact ih h x hx

theorem Rotate.loop_accepts_moved (s : Screen LinesCount LineLength) (figPos : Position)
    (blocks blocks1 : List Block) (h : Rotate.loop s figPos blocks = some (true, blocks1)) :
    blocks1 = blocks.map (fun bl => Block.ofPosition (bl.Pos + figPos)) ∧
    ∀ b ∈ blocks1, s.Colision b.Pos = some false := by
  induction blocks generalizing blocks1 with
  | nil =>
    simp only [Rotate.loop, Option.some.injEq, Prod.mk.injEq, true_and] at h
    subst h
    simp
  | cons bl rest ih =>
    unfold Rotate.loop at h
    simp only at h
    split at h
    · exact absurd h (by simp)
    · exact absurd h (by simp)
    · rename_i hc
      split at h
      · exact absurd h (by simp)
      · rename_i result rest1 hrest
        simp only [Option.some.injEq, Prod.mk.injEq] at h
        obtain ⟨rfl, rfl⟩ := h
        obtain ⟨hmap, hall⟩ := ih rest1 hrest
        refine ⟨by rw [hmap]; rfl, ?_⟩
        intro x hx
        rcases List.mem_cons.1 hx with rfl | hx
        · exact hc
        · exact hall x hx

theorem Translate_template_spec {F : Type} [FigureType F] (fig : F)
    (s : Screen LinesCount LineLength) (hs : s.WF) (vect : Position) :
    ∃ r, Translate fig s vect
        = some (r, if r = true then FigureType.ofPosition (FigureType.Pos fig + vect) else fig, s) ∧
      (r = true → ∀ b ∈ FigureType._blocks
          (FigureType.ofPosition (FigureType.Pos fig + vect) : F),
        s.Colision b.Pos = some false) := by
  obtain ⟨r, hr, -⟩ :=
    Translate.loop_returns s hs
      (FigureType._blocks (FigureType.ofPosition (FigureType.Pos fig + vect) : F))
  cases r with
  | false => exact ⟨false, by simp [Translate, hr], by simp⟩
  | true => exact ⟨true, by simp [Translate, hr], fun _ => Translate.loop_accepts s _ hr⟩

theorem Rotate_template_spec {F : Type} [RotatingFigureType F] (fig : F)
    (s : Screen LinesCount LineLength) (hs : s.WF) (dir : Direction) :
    ∃ r, Rotate fig s dir
        = some (r,
            if r = true then
              RotatingFigureType.set_pos
                (RotatingFigureType.set_blocks (RotatingFigureType.ofDirection dir : F)
                  ((FigureType._blocks (RotatingFigureType.ofDirection dir : F)).map
                    (fun bl => Block.ofPosition (bl.Pos + FigureType.Pos fig))))
                (FigureType.Pos fig)
            else fig, s) ∧
      (r = true → ∀ b ∈ (FigureType._blocks (RotatingFigureType.ofDirection dir : F)).map
            (fun bl => Block.ofPosition (bl.Pos + FigureType.Pos fig)),
        s.Colision b.Pos = some false) := by
  obtain ⟨r, blocks, hr, -⟩ :=
    Rotate.loop_returns_inside s hs (FigureType.Pos fig)
      (FigureType._blocks (RotatingFigureType.ofDirection dir : F))
  cases r with
  | false => exact ⟨false, by simp [Rotate, hr], by simp⟩
  | true =>
    obtain ⟨hmap, hall⟩ := Rotate.loop_accepts_moved s _ _ blocks hr
    subst hmap
    exact ⟨true, by simp [Rotate, hr], fun _ => hall⟩

theorem Figure.Translate_accepts (fig : Figure) (s : Screen LinesCount LineLength)
    (hs : s.WF) (direction : Position) :
    ∃ r f2, fig.Translate s direction = some (r, f2, s) ∧ (r = false → f2 = fig) ∧
      (r = true → ∀ b ∈ f2.blocks, s.Colision b.Pos = some false) := by
  cases fig with
  | bigSquare f =>
    obtain ⟨r, h, hall⟩ := Translate_template_spec f s hs direction
    refine ⟨r, Figure.bigSquare _, by simp only [Figure.Translate, h]; rfl, ?_, ?_⟩
    · intro hr; simp [hr]
    · intro hr; simpa [hr, Figure.blocks] using hall hr
  | bar f =>
    obtain ⟨r, h, hall⟩ := Translate_template_spec f s hs direction
    refine ⟨r, Figure.bar _, by simp only [Figure.Translate, h]; rfl, ?_, ?_⟩
    · intro hr; simp [hr]
    · intro hr; simpa [hr, Figure.blocks] using hall hr
  | barT f =>
    obtain ⟨r, h, hall⟩ := Translate_template_spec f s hs direction
    refine ⟨r, Figure.barT _, by simp only [Figure.Translate, h]; rfl, ?_, ?_⟩
    · intro hr; simp [hr]
    · intro hr; simpa [hr, Figure.blocks] using hall hr
  | square f =>
    obtain ⟨r, h, hall⟩ := Translate_template_spec f s hs direction
    refine ⟨r, Figure.square _, by simp only [Figure.Translate, h]; rfl, ?_, ?_⟩
    · intro hr; simp [hr]
    · intro hr; simpa [hr, Figure.blocks] using hall hr

theorem Figure.Rotate_accepts (fig : Figure) (s : Screen LinesCount LineLength)
    (hs : s.WF) (dir : Direction) :
    ∃ r f2, fig.Rotate s dir = some (r, f2, s) ∧ (r = false → f2 = fig) ∧
      (f2 = fig ∨ ∀ b ∈ f2.blocks, s.Colision b.Pos = some false) := by
  cases fig with
  | bigSquare f => exact ⟨true, _, rfl, by simp, Or.inl rfl⟩
  | bar f =>
    obtain ⟨r, h, hall⟩ := Rotate_template_spec f s hs dir
    refine ⟨r, Figure.bar _, by simp only [Figure.Rotate, h]; rfl, ?_, ?_⟩
    · intro hr; simp [hr]
    · cases r with
      | false => exact Or.inl (by simp)
      | true =>
        refine Or.inr ?_
        have := hall rfl
        simpa [Figure.blocks, RotatingFigureType.set_pos, RotatingFigureType.set_blocks]
          using this
  | barT f =>
    obtain ⟨r, h, hall⟩ := Rotate_template_spec f s hs dir
    refine ⟨r, Figure.barT _, by simp only [Figure.Rotate, h]; rfl, ?_, ?_⟩
    · intro hr; simp [hr]
    · cases r with
      | false => exact Or.inl (by simp)
      | true =>
        refine Or.inr ?_
        have := hall rfl
        simpa [Figure.blocks, RotatingFigureType.set_pos, RotatingFigureType.set_blocks]
          using this
  | square f => exact ⟨true, _, rfl, by simp, Or.inl rfl⟩

/-! ### The steps of a tick on a drawn state -/

theorem Game.Drawn_inside (g : Game LinesCount LineLength) (hg : g.Drawn) :
    ∀ b ∈ g._figure.blocks, b.Pos.inside LinesCount LineLength :=
  fun b hb => Screen.inside_of_get g._screen hg.1 b.Pos Colour.red (hg.2 b hb)

theorem Game.clear_step (g : Game LinesCount LineLength) (hg : g.Drawn) :
    ∃ s1, g._figure.Draw g._screen DrawMode.clear = some (g._figure, s1) ∧
      Draw.loop Colour.background g._figure.blocks g._screen = some s1 ∧ s1.WF ∧
      ∀ q, s1.get q
        = if q ∈ g._figure.blocks.map Block.Pos then some Colour.background
          else g._screen.get q := by
  obtain ⟨s1, h1, hs1⟩ :=
    Draw.loop_of_inside Colour.background g._figure.blocks g._screen hg.1 (g.Drawn_inside hg)
  obtain ⟨-, -, hget⟩ := Draw.loop_some Colour.background g._figure.blocks g._screen s1 hg.1 h1
  exact ⟨s1, by rw [Figure.Draw_eq_loop, h1]; rfl, h1, hs1, hget⟩

theorem Game.draw_step (g : Game LinesCount LineLength) (hg : g.Drawn)
    (s1 : Screen LinesCount LineLength)
    (h1 : Draw.loop Colour.background g._figure.blocks g._screen = some s1)
    (f2 : Figure)
    (hf2 : f2 = g._figure ∨ ∀ b ∈ f2.blocks, s1.Colision b.Pos = some false) :
    ∃ s3, f2.Draw s1 DrawMode.draw = some (f2, s3) ∧
      Draw.loop Colour.red f2.blocks s1 = some s3 ∧ s3.WF ∧
      (∀ b ∈ f2.blocks, s3.get b.Pos = some Colour.red) ∧
      (f2 = g._figure → s3 = g._screen) := by
  obtain ⟨hs1, -, -⟩ := Draw.loop_some Colour.background g._figure.blocks g._screen s1 hg.1 h1
  have hin : ∀ b ∈ f2.blocks, b.Pos.inside LinesCount LineLength := by
    rcases hf2 with rfl | hfree
    · exact g.Drawn_inside hg
    · exact fun b hb => (Screen.Colision_false s1 b.Pos (hfree b hb)).1
  obtain ⟨s3, h3, hs3⟩ := Draw.loop_of_inside Colour.red f2.blocks s1 hs1 hin
  obtain ⟨-, -, hget⟩ := Draw.loop_some Colour.red f2.blocks s1 s3 hs1 h3
  refine ⟨s3, by rw [Figure.Draw_eq_loop, h3]; rfl, h3, hs3, ?_, ?_⟩
  · intro b hb
    rw [hget, if_pos (List.mem_map_of_mem _ hb)]
  · intro heq
    subst heq
    exact Draw.loop_restore Colour.background Colour.red _ g._screen s1 s3 hg.1 h1 h3 hg.2

theorem Game.Translate_steps (g : Game LinesCount LineLength) (hg : g.Drawn)
    (p : Position) :
    ∃ s1 r f2 s3,
      g._figure.Draw g._screen DrawMode.clear = some (g._figure, s1) ∧
      Draw.loop Colour.background g._figure.blocks g._screen = some s1 ∧
      g._figure.Translate s1 p = some (r, f2, s1) ∧
      (r = false → f2 = g._figure) ∧
      (r = true → ∀ b ∈ f2.blocks, s1.Colision b.Pos = some false) ∧
      f2.Draw s1 DrawMode.draw = some (f2, s3) ∧
      Draw.loop Colour.red f2.blocks s1 = some s3 ∧ s3.WF ∧
      (∀ b ∈ f2.blocks, s3.get b.Pos = some Colour.red) ∧
      (f2 = g._figure → s3 = g._screen) := by
  obtain ⟨s1, hd1, hl1, hs1, -⟩ := g.clear_step hg
  obtain ⟨r, f2, ht, hfalse, htrue⟩ := Figure.Translate_accepts g._figure s1 hs1 p
  have hf2 : f2 = g._figure ∨ ∀ b ∈ f2.blocks, s1.Colision b.Pos = some false := by
    cases r with
    | false => exact Or.inl (hfalse rfl)
    | true => exact Or.inr (htrue rfl)
  obtain ⟨s3, hd3, hl3, hs3, hred, hsame⟩ := g.draw_step hg s1 hl1 f2 hf2
  exact ⟨s1, r, f2, s3, hd1, hl1, ht, hfalse, htrue, hd3, hl3, hs3, hred, hsame⟩

theorem Game.Rotate_steps (g : Game LinesCount LineLength) (hg : g.Drawn)
    (d : Direction) :
    ∃ s1 r f2 s3,
      g._figure.Draw g._screen DrawMode.clear = some (g._figure, s1) ∧
      Draw.loop Colour.background g._figure.blocks g._screen = some s1 ∧
      g._figure.Rotate s1 d = some (r, f2, s1) ∧
      (r = false → f2 = g._figure) ∧
      (f2 = g._figure ∨ ∀ b ∈ f2.blocks, s1.Colision b.Pos = some false) ∧
      f2.Draw s1 DrawMode.draw = some (f2, s3) ∧
      Draw.loop Colour.red f2.blocks s1 = some s3 ∧ s3.WF ∧
      (∀ b ∈ f2.blocks, s3.get b.Pos = some Colour.red) ∧
      (f2 = g._figure → s3 = g._screen) := by
  obtain ⟨s1, hd1, hl1, hs1, -⟩ := g.clear_step hg
  obtain ⟨r, f2, ht, hfalse, hf2⟩ := Figure.Rotate_accepts g._figure s1 hs1 d
  obtain ⟨s3, hd3, hl3, hs3, hred, hsame⟩ := g.draw_step hg s1 hl1 f2 hf2
  exact ⟨s1, r, f2, s3, hd1, hl1, ht, hfalse, hf2, hd3, hl3, hs3, hred, hsame⟩

theorem Game.spawn_step (s4 : Screen LinesCount LineLength) (hs4 : s4.WF) (figureID : Int)
    (f5 : Figure) (s5 : Screen LinesCount LineLength)
    (h : (Game.RandomFigureGenerator LinesCount LineLength figureID).Draw s4 DrawMode.draw
      = some (f5, s5)) :
    f5 = Game.RandomFigureGenerator LinesCount LineLength figureID ∧
    Draw.loop Colour.red f5.blocks s4 = some s5 ∧ s5.WF ∧
    (∀ b ∈ f5.blocks, s5.get b.Pos = some Colour.red) := by
  rw [Figure.Draw_eq_loop] at h
  cases hl : Draw.loop Colour.red
      (Game.RandomFigureGenerator LinesCount LineLength figureID).blocks s4 with
  | none => rw [hl] at h; exact absurd h (by simp)
  | some s6 =>
    rw [hl] at h
    simp only [Option.map_some', Option.some.injEq, Prod.mk.injEq] at h
    obtain ⟨rfl, rfl⟩ := h
    obtain ⟨hs5, -, hget⟩ := Draw.loop_some Colour.red _ s4 s6 hs4 hl
    refine ⟨rfl, hl, hs5, ?_⟩
    intro b hb
    rw [hget, if_pos (List.mem_map_of_mem _ hb)]

theorem Game.Translate_drawn (g g1 : Game LinesCount LineLength) (hg : g.Drawn)
    (p : Position) (figureID : Int) (h : g.Translate p figureID = some g1) : g1.Drawn := by
  obtain ⟨s1, r, f2, s3, hd1, -, ht, -, -, hd3, -, hs3, hred, -⟩ := g.Translate_steps hg p
  simp only [Game.Translate, hd1, ht, hd3] at h
  split_ifs at h with hland
  · obtain ⟨s4, hr4, hs4⟩ := Screen.RemoveFullLines_total s3 hs3
    simp only [hr4] at h
    split at h
    · exact absurd h (by simp)
    · rename_i f5 s5 hd5
      simp only [Option.some.injEq] at h
      subst h
      obtain ⟨-, -, hs5, hred5⟩ := Game.spawn_step s4 hs4 figureID f5 s5 hd5
      exact ⟨hs5, hred5⟩
  · simp only [Option.some.injEq] at h
    subst h
    exact ⟨hs3, hred⟩

theorem Game.Rotate_drawn (g g1 : Game LinesCount LineLength) (hg : g.Drawn)
    (d : Direction) (h : g.Rotate d = some g1) : g1.Drawn := by
  obtain ⟨s1, r, f2, s3, hd1, -, ht, -, -, hd3, -, hs3, hred, -⟩ := g.Rotate_steps hg d
  simp only [Game.Rotate, hd1, ht, hd3, Option.some.injEq] at h
  subst h
  exact ⟨hs3, hred⟩

theorem Game.Tick_drawn (g g1 : Game LinesCount LineLength) (hg : g.Drawn)
    (figureID : Int) (h : g.Tick figureID = some g1) : g1.Drawn := by
  unfold Game.Tick at h
  split at h
  · exact absurd h (by simp)
  · rename_i g2 hdisp
    simp only [Option.some.injEq] at h
    subst h
    have h2 : g2.Drawn := by
      unfold Game.dispatch at hdisp
      split at hdisp
      · simp only [Option.some.injEq] at hdisp
        subst hdisp
        exact hg
      · exact Game.Rotate_drawn g g2 hg _ hdisp
      · exact Game.Rotate_drawn g g2 hg _ hdisp
      · exact Game.Translate_drawn g g2 hg _ _ hdisp
      · exact Game.Translate_drawn g g2 hg _ _ hdisp
      · exact Game.Translate_drawn g g2 hg _ _ hdisp
    exact h2

theorem Game.Reachable_drawn (g : Game LinesCount LineLength) (hg : g.Reachable) :
    g.Drawn := by
  induction hg with
  | new figureID g hnew =>
    unfold Game.new at hnew
    simp only at hnew
    split at hnew
    · exact absurd hnew (by simp)
    · rename_i f1 s1 hd
      simp only [Option.some.injEq] at hnew
      subst hnew
      obtain ⟨-, -, hs1, hred⟩ :=
        Game.spawn_step (Screen.empty LinesCount LineLength) (Screen.empty_WF _ _)
          figureID f1 s1 hd
      exact ⟨hs1, hred⟩
  | input g cmd _ ih => exact ih
  | tick g g1 figureID _ htick ih => exact Game.Tick_drawn g g1 ih figureID htick

theorem Game.translateResult_eq (g : Game LinesCount LineLength) (p : Position)
    (s1 s2 : Screen LinesCount LineLength) (r : Bool) (f2 : Figure)
    (hd1 : g._figure.Draw g._screen DrawMode.clear = some (g._figure, s1))
    (ht : g._figure.Translate s1 p = some (r, f2, s2)) :
    g.translateResult p = some r := by
  simp only [Game.translateResult, hd1, ht]

theorem Game.rotateResult_eq (g : Game LinesCount LineLength) (d : Direction)
    (s1 s2 : Screen LinesCount LineLength) (r : Bool) (f2 : Figure)
    (hd1 : g._figure.Draw g._screen DrawMode.clear = some (g._figure, s1))
    (ht : g._figure.Rotate s1 d = some (r, f2, s2)) :
    g.rotateResult d = some r := by
  simp only [Game.rotateResult, hd1, ht]

theorem Game.Translate_rejected_sideways (g : Game LinesCount LineLength) (hg : g.Drawn)
    (p : Position) (figureID : Int) (hcmd : g._cmd ≠ Command.TranslateDown)
    (hrej : g.translateResult p = some false) :
    g.Translate p figureID = some g := by
  obtain ⟨s1, r, f2, s3, hd1, -, ht, hfalse, -, hd3, -, -, -, hsame⟩ := g.Translate_steps hg p
  rw [Game.translateResult_eq g p s1 s1 r f2 hd1 ht] at hrej
  simp only [Option.some.injEq] at hrej
  subst hrej
  have hf := hfalse rfl
  subst hf
  have hs := hsame rfl
  subst hs
  simp only [Game.Translate, hd1, ht, hd3, hcmd, and_false, if_false]

theorem Game.Rotate_rejected (g : Game LinesCount LineLength) (hg : g.Drawn)
    (d : Direction) (hrej : g.rotateResult d = some false) :
    g.Rotate d = some g := by
  obtain ⟨s1, r, f2, s3, hd1, -, ht, hfalse, -, hd3, -, -, -, hsame⟩ := g.Rotate_steps hg d
  rw [Game.rotateResult_eq g d s1 s1 r f2 hd1 ht] at hrej
  simp only [Option.some.injEq] at hrej
  subst hrej
  have hf := hfalse rfl
  subst hf
  have hs := hsame rfl
  subst hs
  simp only [Game.Rotate, hd1, ht, hd3]

/-- C17: in every reachable game state, a `Tick` whose command is `TranslateLeft` or
`TranslateRigth` and whose `Translate` is rejected, or whose command is `RotateLeft` or
`RotateRight` and whose `Rotate` is rejected, returns the state with the same screen and
the same figure (only the command slot goes back to `Idle`): no row is removed and no
figure is generated. -/
theorem Game.Tick_rejected_unchanged (g : Game LinesCount LineLength) (hg : g.Reachable)
    (figureID : Int)
    (h : (g._cmd = Command.TranslateLeft ∧ g.translateResult ⟨0, -1⟩ = some false) ∨
         (g._cmd = Command.TranslateRigth ∧ g.translateResult ⟨0, 1⟩ = some false) ∨
         (g._cmd = Command.RotateLeft ∧ g.rotateResult Direction.left = some false) ∨
         (g._cmd = Command.RotateRight ∧ g.rotateResult Direction.right = some false)) :
    g.Tick figureID = some { g with _cmd := Command.Idle } := by
  have hd := Game.Reachable_drawn g hg
  rcases h with ⟨hcmd, hrej⟩ | ⟨hcmd, hrej⟩ | ⟨hcmd, hrej⟩ | ⟨hcmd, hrej⟩
  · have := Game.Translate_rejected_sideways g hd ⟨0, -1⟩ figureID (by simp [hcmd]) hrej
    simp only [Game.Tick, Game.dispatch, hcmd, this]
  · have := Game.Translate_rejected_sideways g hd ⟨0, 1⟩ figureID (by simp [hcmd]) hrej
    simp only [Game.Tick, Game.dispatch, hcmd, this]
  · have := Game.Rotate_rejected g hd Direction.left hrej
    simp only [Game.Tick, Game.dispatch, hcmd, this]
  · have := Game.Rotate_rejected g hd Direction.right hrej
    simp only [Game.Tick, Game.dispatch, hcmd, this]

theorem Game.Tick_rejected_unchanged_witness :
    Game.Reachable
      (⟨Command.TranslateLeft, Figure.square (Square.ofPosition ⟨0, 0⟩),
        ⟨[[Colour.red, Colour.background, Colour.background],
          [Colour.background, Colour.background, Colour.background],
          [Colour.background, Colour.background, Colour.background]]⟩⟩ : Game 3 3) ∧
    (⟨Command.TranslateLeft, Figure.square (Square.ofPosition ⟨0, 0⟩),
        ⟨[[Colour.red, Colour.background, Colour.background],
          [Colour.background, Colour.background, Colour.background],
          [Colour.background, Colour.background, Colour.background]]⟩⟩ :
        Game 3 3).translateResult ⟨0, -1⟩ = some false ∧
    (⟨Command.TranslateLeft, Figure.square (Square.ofPosition ⟨0, 0⟩),
        ⟨[[Colour.red, Colour.background, Colour.background],
          [Colour.background, Colour.background, Colour.background],
          [Colour.background, Colour.background, Colour.background]]⟩⟩ : Game 3 3).Tick 0
      = some ⟨Command.Idle, Figure.square (Square.ofPosition ⟨0, 0⟩),
          ⟨[[Colour.red, Colour.background, Colour.background],
            [Colour.background, Colour.background, Colour.background],
            [Colour.background, Colour.background, Colour.background]]⟩⟩ :=
  have hreach : Game.Reachable
      (⟨Command.TranslateLeft, Figure.square (Square.ofPosition ⟨0, 0⟩),
        ⟨[[Colour.red, Colour.background, Colour.background],
          [Colour.background, Colour.background, Colour.background],
          [Colour.background, Colour.background, Colour.background]]⟩⟩ : Game 3 3) :=
    Game.Reachable.input
      (⟨Command.Idle, Figure.square (Square.ofPosition ⟨0, 0⟩),
        ⟨[[Colour.red, Colour.background, Colour.background],
          [Colour.background, Colour.background, Colour.background],
          [Colour.background, Colour.background, Colour.background]]⟩⟩ : Game 3 3)
      Command.TranslateLeft (Game.Reachable.new 3 _ (by decide))
  ⟨hreach, by decide,
    Game.Tick_rejected_unchanged _ hreach 0 (Or.inl ⟨rfl, by decide⟩)⟩

theorem Game.Reachable_run (events : List (Command × Int)) :
    ∀ (g g1 : Game LinesCount LineLength), g.Reachable → g.run events = some g1 →
      g1.Reachable := by
  induction events with
  | nil =>
    intro g g1 hg h
    simp only [Game.run, Option.some.injEq] at h
    subst h
    exact hg
  | cons e rest ih =>
    intro g g1 hg h
    obtain ⟨cmd, figureID⟩ := e
    unfold Game.run at h
    split at h
    · exact absurd h (by simp)
    · rename_i g2 htick
      exact ih g2 g1 (Game.Reachable.tick _ g2 figureID (Game.Reachable.input g cmd hg) htick) h

theorem Game.RandomFigureGenerator_Pos (LinesCount LineLength : Nat) (figureID : Int) :
    (Game.RandomFigureGenerator LinesCount LineLength figureID).Pos
      = Game.initPos LinesCount LineLength := by
  unfold Game.RandomFigureGenerator
  simp only
  split_ifs <;> rfl

/-- C12: in every reachable game state whose command is `TranslateDown`, the downward
`Translate` (on the screen with the figure cleared) returns a result.  If it is `false`,
`Tick` removes the full lines of the screen as it was before the tick and draws the
figure given by `RandomFigureGenerator`, which is at the initial position, on the result;
that draw succeeds when the screen has at least 3 rows and 3 columns.  If it is `true`,
`Tick` returns the translated figure drawn on the screen cleared of the old one: no line
is removed and no figure is generated. -/
theorem Game.Tick_TranslateDown (g : Game LinesCount LineLength) (hg : g.Reachable)
    (hcmd : g._cmd = Command.TranslateDown) (figureID : Int) :
    ∃ r, g.translateResult ⟨1, 0⟩ = some r ∧
      (r = false →
        ∃ s4, g._screen.RemoveFullLines = some s4 ∧
          g.Tick figureID
            = ((Game.RandomFigureGenerator LinesCount LineLength figureID).Draw s4
                DrawMode.draw).map
              (fun fs => ⟨Command.Idle,
                Game.RandomFigureGenerator LinesCount LineLength figureID, fs.2⟩) ∧
          (Game.RandomFigureGenerator LinesCount LineLength figureID).Pos
            = Game.initPos LinesCount LineLength ∧
          (3 ≤ LinesCount → 3 ≤ LineLength →
            ∃ s5, (Game.RandomFigureGenerator LinesCount LineLength figureID).Draw s4
                DrawMode.draw
              = some (Game.RandomFigureGenerator LinesCount LineLength figureID, s5))) ∧
      (r = true →
        ∃ s1 f2 s3, g._figure.Draw g._screen DrawMode.clear = some (g._figure, s1) ∧
          g._figure.Translate s1 ⟨1, 0⟩ = some (true, f2, s1) ∧
          f2.Draw s1 DrawMode.draw = some (f2, s3) ∧
          g.Tick figureID = some ⟨Command.Idle, f2, s3⟩) := by
  have hd := Game.Reachable_drawn g hg
  obtain ⟨s1, r, f2, s3, hd1, -, ht, hfalse, -, hd3, -, hs3, -, hsame⟩ :=
    g.Translate_steps hd ⟨1, 0⟩
  refine ⟨r, Game.translateResult_eq g _ s1 s1 r f2 hd1 ht, ?_, ?_⟩
  · intro hr
    subst hr
    have hf := hfalse rfl
    subst hf
    have hs := hsame rfl
    subst hs
    obtain ⟨s4, hr4, hs4⟩ := Screen.RemoveFullLines_total g._screen hd.1
    refine ⟨s4, hr4, ?_, Game.RandomFigureGenerator_Pos _ _ _, ?_⟩
    · simp only [Game.Tick, Game.dispatch, hcmd, Game.Translate, hd1, ht, hd3, hr4,
        and_self, if_true]
      rw [Figure.Draw_eq_loop]
      cases Draw.loop Colour.red
        (Game.RandomFigureGenerator LinesCount LineLength figureID).blocks s4 <;> rfl
    · intro hH hW
      obtain ⟨s5, h5, -⟩ :=
        Figure.Draw_of_inside (Game.RandomFigureGenerator LinesCount LineLength figureID)
          s4 hs4 (Game.RandomFigureGenerator_inside hH hW figureID) DrawMode.draw
      exact ⟨s5, h5⟩
  · intro hr
    subst hr
    refine ⟨s1, f2, s3, hd1, ht, hd3, ?_⟩
    simp only [Game.Tick, Game.dispatch, hcmd, Game.Translate, hd1, ht, hd3]
    simp

theorem Game.Tick_TranslateDown_witness :
    Game.Reachable
      (⟨Command.TranslateDown, Figure.bar (Bar.ofPosition ⟨0, 0⟩),
        ⟨[[Colour.background, Colour.red, Colour.background],
          [Colour.background, Colour.red, Colour.background],
          [Colour.background, Colour.red, Colour.background]]⟩⟩ : Game 3 3) ∧
    (⟨Command.TranslateDown, Figure.bar (Bar.ofPosition ⟨0, 0⟩),
        ⟨[[Colour.background, Colour.red, Colour.background],
          [Colour.background, Colour.red, Colour.background],
          [Colour.background, Colour.red, Colour.background]]⟩⟩ : Game 3 3)._cmd = Command.TranslateDown ∧
    ∃ r, Game.translateResult
        (⟨Command.TranslateDown, Figure.bar (Bar.ofPosition ⟨0, 0⟩),
        ⟨[[Colour.background, Colour.red, Colour.background],
          [Colour.background, Colour.red, Colour.background],
          [Colour.background, Colour.red, Colour.background]]⟩⟩ : Game 3 3) ⟨1, 0⟩ = some r ∧
      (r = false →
        ∃ s4, (⟨Command.TranslateDown, Figure.bar (Bar.ofPosition ⟨0, 0⟩),
        ⟨[[Colour.background, Colour.red, Colour.background],
          [Colour.background, Colour.red, Colour.background],
          [Colour.background, Colour.red, Colour.background]]⟩⟩ : Game 3 3)._screen.RemoveFullLines = some s4 ∧
          Game.Tick
            (⟨Command.TranslateDown, Figure.bar (Bar.ofPosition ⟨0, 0⟩),
        ⟨[[Colour.background, Colour.red, Colour.background],
          [Colour.background, Colour.red, Colour.background],
          [Colour.background, Colour.red, Colour.background]]⟩⟩ : Game 3 3) 3
            = ((Game.RandomFigureGenerator 3 3 3).Draw s4 DrawMode.draw).map
              (fun fs => ⟨Command.Idle, Game.RandomFigureGenerator 3 3 3, fs.2⟩) ∧
          (Game.RandomFigureGenerator 3 3 3).Pos = Game.initPos 3 3 ∧
          (3 ≤ 3 → 3 ≤ 3 →
            ∃ s5, (Game.RandomFigureGenerator 3 3 3).Draw s4 DrawMode.draw
              = some (Game.RandomFigureGenerator 3 3 3, s5))) ∧
      (r = true →
        ∃ s1 f2 s3,
          Figure.Draw (⟨Command.TranslateDown, Figure.bar (Bar.ofPosition ⟨0, 0⟩),
        ⟨[[Colour.background, Colour.red, Colour.background],
          [Colour.background, Colour.red, Colour.background],
          [Colour.background, Colour.red, Colour.background]]⟩⟩ : Game 3 3)._figure
            (⟨Command.TranslateDown, Figure.bar (Bar.ofPosition ⟨0, 0⟩),
        ⟨[[Colour.background, Colour.red, Colour.background],
          [Colour.background, Colour.red, Colour.background],
          [Colour.background, Colour.red, Colour.background]]⟩⟩ : Game 3 3)._screen DrawMode.clear
            = some ((⟨Command.TranslateDown, Figure.bar (Bar.ofPosition ⟨0, 0⟩),
        ⟨[[Colour.background, Colour.red, Colour.background],
          [Colour.background, Colour.red, Colour.background],
          [Colour.background, Colour.red, Colour.background]]⟩⟩ : Game 3 3)._figure, s1) ∧
          Figure.Translate (⟨Command.TranslateDown, Figure.bar (Bar.ofPosition ⟨0, 0⟩),
        ⟨[[Colour.background, Colour.red, Colour.background],
          [Colour.background, Colour.red, Colour.background],
          [Colour.background, Colour.red, Colour.background]]⟩⟩ : Game 3 3)._figure s1 ⟨1, 0⟩ = some (true, f2, s1) ∧
          f2.Draw s1 DrawMode.draw = some (f2, s3) ∧
          Game.Tick
            (⟨Command.TranslateDown, Figure.bar (Bar.ofPosition ⟨0, 0⟩),
        ⟨[[Colour.background, Colour.red, Colour.background],
          [Colour.background, Colour.red, Colour.background],
          [Colour.background, Colour.red, Colour.background]]⟩⟩ : Game 3 3) 3 = some ⟨Command.Idle, f2, s3⟩) :=
  have hreach : Game.Reachable
      (⟨Command.TranslateDown, Figure.bar (Bar.ofPosition ⟨0, 0⟩),
        ⟨[[Colour.background, Colour.red, Colour.background],
          [Colour.background, Colour.red, Colour.background],
          [Colour.background, Colour.red, Colour.background]]⟩⟩ : Game 3 3) :=
    Game.Reachable.input
      (⟨Command.Idle, Figure.bar (Bar.ofPosition ⟨0, 0⟩),
        ⟨[[Colour.background, Colour.red, Colour.background],
          [Colour.background, Colour.red, Colour.background],
          [Colour.background, Colour.red, Colour.background]]⟩⟩ : Game 3 3)
      Command.TranslateDown (Game.Reachable.new 1 _ (by decide))
  ⟨hreach, rfl, Game.Tick_TranslateDown _ hreach rfl 3⟩

/-- C13, the code at the failing input: on a screen of 4 rows and 3 columns, after two
Squares have landed on (3,0) and (2,0) and a Bar has been generated and rotated right,
the Bar has the block (1,0), the cell (2,0) directly below it is `red` and is not a cell
of the Bar; the tick with `TranslateDown` nevertheless accepts the move: the new state
holds the Bar at position (1,0) in rotation 0, not a newly generated Square. -/
theorem Game.Tick_TranslateDown_over_locked_cell :
    (Game.new 4 3 3).bind (fun g => g.run
        [(Command.TranslateDown, 3), (Command.TranslateDown, 3), (Command.TranslateDown, 3),
         (Command.TranslateDown, 3), (Command.TranslateDown, 3), (Command.TranslateDown, 3),
         (Command.TranslateDown, 1), (Command.RotateRight, 0)])
      = some ⟨Command.Idle,
          Figure.bar ⟨⟨0, 0⟩, 1,
            [Block.ofPosition ⟨1, 0⟩, Block.ofPosition ⟨1, 1⟩, Block.ofPosition ⟨1, 2⟩]⟩,
          ⟨[[Colour.background, Colour.background, Colour.background],
            [Colour.red, Colour.red, Colour.red],
            [Colour.red, Colour.background, Colour.background],
            [Colour.red, Colour.background, Colour.background]]⟩⟩ ∧
    (⟨[[Colour.background, Colour.background, Colour.background],
       [Colour.red, Colour.red, Colour.red],
       [Colour.red, Colour.background, Colour.background],
       [Colour.red, Colour.background, Colour.background]]⟩ : Screen 4 3).get
        ((Block.ofPosition ⟨1, 0⟩).Pos + ⟨1, 0⟩) = some Colour.red ∧
    (Block.ofPosition ⟨1, 0⟩).Pos + ⟨1, 0⟩
      ∉ [Block.ofPosition ⟨1, 0⟩, Block.ofPosition ⟨1, 1⟩, Block.ofPosition ⟨1, 2⟩].map
          Block.Pos ∧
    Game.Tick
        (⟨Command.TranslateDown,
          Figure.bar ⟨⟨0, 0⟩, 1,
            [Block.ofPosition ⟨1, 0⟩, Block.ofPosition ⟨1, 1⟩, Block.ofPosition ⟨1, 2⟩]⟩,
          ⟨[[Colour.background, Colour.background, Colour.background],
            [Colour.red, Colour.red, Colour.red],
            [Colour.red, Colour.background, Colour.background],
            [Colour.red, Colour.background, Colour.background]]⟩⟩ : Game 4 3) 3
      = some ⟨Command.Idle,
          Figure.bar ⟨⟨1, 0⟩, 0,
            [Block.ofPosition ⟨1, 1⟩, Block.ofPosition ⟨2, 1⟩, Block.ofPosition ⟨3, 1⟩]⟩,
          ⟨[[Colour.background, Colour.background, Colour.background],
            [Colour.background, Colour.red, Colour.background],
            [Colour.red, Colour.red, Colour.background],
            [Colour.red, Colour.red, Colour.background]]⟩⟩ := by
  decide

/-! ### No overlap with the locked cells -/

theorem Screen.empty_get (LinesCount LineLength : Nat) (p : Position) (c : Colour)
    (h : (Screen.empty LinesCount LineLength).get p = some c) : c = Colour.background := by
  unfold Screen.get Screen.empty at h
  split_ifs at h with hneg
  split at h
  · exact absurd h (by simp)
  · rename_i row hrow
    have hr := List.eq_of_mem_replicate (List.getElem?_mem hrow)
    subst hr
    exact List.eq_of_mem_replicate (List.getElem?_mem h)

theorem Game.NoOverlap_drawn (g : Game LinesCount LineLength)
    (locked : Screen LinesCount LineLength) (h : g.NoOverlap locked) : g.Drawn := by
  obtain ⟨hw, -, hdraw⟩ := h
  obtain ⟨hs, -, hget⟩ := Draw.loop_some Colour.red g._figure.blocks locked g._screen hw hdraw
  refine ⟨hs, ?_⟩
  intro b hb
  rw [hget, if_pos (List.mem_map_of_mem _ hb)]

theorem Game.NoOverlap_clear (g : Game LinesCount LineLength)
    (locked s1 : Screen LinesCount LineLength) (h : g.NoOverlap locked)
    (h1 : Draw.loop Colour.background g._figure.blocks g._screen = some s1) :
    s1 = locked :=
  Draw.loop_restore Colour.red Colour.background g._figure.blocks locked g._screen s1
    h.1 h.2.2 h1 h.2.1

theorem Game.Rotate_noOverlap (g g1 : Game LinesCount LineLength)
    (locked : Screen LinesCount LineLength) (hf : g.NoOverlap locked) (d : Direction)
    (h : g.Rotate d = some g1) : g1.NoOverlap locked := by
  have hg := g.NoOverlap_drawn locked hf
  obtain ⟨s1, r, f2, s3, hd1, hl1, ht, -, hf2, hd3, hl3, -, -, -⟩ := g.Rotate_steps hg d
  have hs1 := g.NoOverlap_clear locked s1 hf hl1
  subst hs1
  simp only [Game.Rotate, hd1, ht, hd3, Option.some.injEq] at h
  subst h
  refine ⟨hf.1, ?_, hl3⟩
  rcases hf2 with rfl | hfree
  · exact hf.2.1
  · exact fun b hb => (Screen.Colision_false s1 b.Pos (hfree b hb)).2

theorem Game.Translate_noOverlap (g g1 : Game LinesCount LineLength)
    (locked locked1 : Screen LinesCount LineLength) (hf : g.NoOverlap locked)
    (p : Position) (figureID : Int) (h : g.Translate p figureID = some g1)
    (hl : (if g._cmd = Command.TranslateDown then
            match g.translateResult p with
            | none => none
            | some false => g.landedScreen p
            | some true => some locked
          else some locked) = some locked1)
    (hspawn : (g._cmd = Command.TranslateDown ∧ g.translateResult p = some false) →
      ∀ b ∈ (Game.RandomFigureGenerator LinesCount LineLength figureID).blocks,
        locked1.get b.Pos = some Colour.background) :
    g1.NoOverlap locked1 := by
  have hg := g.NoOverlap_drawn locked hf
  obtain ⟨s1, r, f2, s3, hd1, hl1, ht, hfalse, htrue, hd3, hl3, hs3, -, -⟩ :=
    g.Translate_steps hg p
  have hs1 := g.NoOverlap_clear locked s1 hf hl1
  subst hs1
  have hres := Game.translateResult_eq g p s1 s1 r f2 hd1 ht
  simp only [Game.Translate, hd1, ht, hd3] at h
  by_cases hland : r = false ∧ g._cmd = Command.TranslateDown
  · obtain ⟨hr, hcmd⟩ := hland
    subst hr
    obtain ⟨s4, hr4, hs4⟩ := Screen.RemoveFullLines_total s3 hs3
    have hlanded : g.landedScreen p = some s4 := by
      simp only [Game.landedScreen, hd1, ht, hd3, hr4]
    simp only [hcmd, hres, hlanded, if_true, Option.some.injEq] at hl
    subst hl
    simp only [hcmd, and_self, if_true, hr4] at h
    split at h
    · exact absurd h (by simp)
    · rename_i f5 s5 hd5
      simp only [Option.some.injEq] at h
      subst h
      obtain ⟨hf5, hl5, -, -⟩ := Game.spawn_step s4 hs4 figureID f5 s5 hd5
      refine ⟨hs4, ?_, hl5⟩
      rw [hf5]
      exact hspawn ⟨hcmd, hres⟩
  · rw [if_neg hland] at h
    simp only [Option.some.injEq] at h
    subst h
    have hl1 : locked1 = s1 := by
      by_cases hcmd : g._cmd = Command.TranslateDown
      · have hr : r = true := by
          cases r with
          | false => exact absurd ⟨rfl, hcmd⟩ hland
          | true => rfl
        subst hr
        simp only [hcmd, hres, if_true, Option.some.injEq] at hl
        exact hl.symm
      · simp only [hcmd, if_false, Option.some.injEq] at hl
        exact hl.symm
    subst hl1
    refine ⟨hf.1, ?_, hl3⟩
    cases r with
    | false =>
      have := hfalse rfl
      subst this
      exact hf.2.1
    | true => exact fun b hb => (Screen.Colision_false locked1 b.Pos (htrue rfl b hb)).2

theorem Game.Tick_noOverlap (g g1 : Game LinesCount LineLength)
    (locked locked1 : Screen LinesCount LineLength) (hf : g.NoOverlap locked)
    (figureID : Int) (h : g.Tick figureID = some g1)
    (hl : g.lockedAfterTick locked = some locked1)
    (hspawn : (g._cmd = Command.TranslateDown ∧ g.translateResult ⟨1, 0⟩ = some false) →
      ∀ b ∈ (Game.RandomFigureGenerator LinesCount LineLength figureID).blocks,
        locked1.get b.Pos = some Colour.background) :
    g1.NoOverlap locked1 := by
  unfold Game.Tick at h
  split at h
  · exact absurd h (by simp)
  · rename_i g2 hdisp
    simp only [Option.some.injEq] at h
    subst h
    show g2.NoOverlap locked1
    unfold Game.lockedAfterTick at hl
    unfold Game.dispatch at hdisp
    split at hdisp
    · rename_i hcmd
      simp only [Option.some.injEq] at hdisp
      subst hdisp
      have hne : g._cmd ≠ Command.TranslateDown := by rw [hcmd]; decide
      rw [if_neg hne] at hl
      simp only [Option.some.injEq] at hl
      subst hl
      exact hf
    · rename_i hcmd
      have hne : g._cmd ≠ Command.TranslateDown := by rw [hcmd]; decide
      rw [if_neg hne] at hl
      simp only [Option.some.injEq] at hl
      subst hl
      exact Game.Rotate_noOverlap g g2 locked hf _ hdisp
    · rename_i hcmd
      have hne : g._cmd ≠ Command.TranslateDown := by rw [hcmd]; decide
      rw [if_neg hne] at hl
      simp only [Option.some.injEq] at hl
      subst hl
      exact Game.Rotate_noOverlap g g2 locked hf _ hdisp
    · rename_i hcmd
      exact Game.Translate_noOverlap g g2 locked locked1 hf _ figureID hdisp hl hspawn
    · rename_i hcmd
      refine Game.Translate_noOverlap g g2 locked locked1 hf _ figureID hdisp ?_ ?_
      · have hne : g._cmd ≠ Command.TranslateDown := by rw [hcmd]; decide
        rw [if_neg hne] at hl
        rw [if_neg hne]
        exact hl
      · intro hc
        rw [hcmd] at hc
        exact absurd hc.1 (by simp)
    · rename_i hcmd
      refine Game.Translate_noOverlap g g2 locked locked1 hf _ figureID hdisp ?_ ?_
      · have hne : g._cmd ≠ Command.TranslateDown := by rw [hcmd]; decide
        rw [if_neg hne] at hl
        rw [if_neg hne]
        exact hl
      · intro hc
        rw [hcmd] at hc
        exact absurd hc.1 (by simp)

theorem Game.new_noOverlap (figureID : Int) (g : Game LinesCount LineLength)
    (h : Game.new LinesCount LineLength figureID = some g) :
    g.NoOverlap (Screen.empty LinesCount LineLength) := by
  unfold Game.new at h
  simp only at h
  split at h
  · exact absurd h (by simp)
  · rename_i f1 s1 hd
    simp only [Option.some.injEq] at h
    subst h
    obtain ⟨-, hl, -, -⟩ :=
      Game.spawn_step (Screen.empty LinesCount LineLength) (Screen.empty_WF _ _)
        figureID f1 s1 hd
    obtain ⟨-, hin, -⟩ := Draw.loop_some Colour.red f1.blocks _ s1 (Screen.empty_WF _ _) hl
    refine ⟨Screen.empty_WF _ _, ?_, hl⟩
    intro b hb
    obtain ⟨c, hc⟩ := Screen.get_of_inside (Screen.empty LinesCount LineLength)
      (Screen.empty_WF _ _) b.Pos (hin b hb)
    rw [hc, Screen.empty_get _ _ _ _ hc]

theorem Game.ReachableFree_noOverlap (g : Game LinesCount LineLength)
    (locked : Screen LinesCount LineLength) (h : g.ReachableFree locked) :
    g.NoOverlap locked := by
  induction h with
  | new figureID g hnew => exact Game.new_noOverlap figureID g hnew
  | input g locked cmd _ ih => exact ih
  | tick g g1 locked locked1 figureID _ htick hl hspawn ih =>
    exact Game.Tick_noOverlap g g1 locked locked1 ih figureID htick hl hspawn

theorem Game.ReachableLocked_reachable (g : Game LinesCount LineLength)
    (locked : Screen LinesCount LineLength) (h : g.ReachableLocked locked) : g.Reachable := by
  induction h with
  | new figureID g hnew => exact Game.Reachable.new figureID g hnew
  | input g locked cmd _ ih => exact Game.Reachable.input g cmd ih
  | tick g g1 locked locked1 figureID _ htick _ ih =>
    exact Game.Reachable.tick g g1 figureID ih htick

theorem Game.lockedAfterTick_total (g : Game LinesCount LineLength) (hg : g.Drawn)
    (locked : Screen LinesCount LineLength) :
    ∃ locked1, g.lockedAfterTick locked = some locked1 := by
  obtain ⟨s1, r, f2, s3, hd1, -, ht, -, -, hd3, -, hs3, -, -⟩ := g.Translate_steps hg ⟨1, 0⟩
  have hres := Game.translateResult_eq g ⟨1, 0⟩ s1 s1 r f2 hd1 ht
  unfold Game.lockedAfterTick
  by_cases hcmd : g._cmd = Command.TranslateDown
  · rw [if_pos hcmd, hres]
    cases r with
    | true => exact ⟨locked, rfl⟩
    | false =>
      obtain ⟨s4, hr4, -⟩ := Screen.RemoveFullLines_total s3 hs3
      exact ⟨s4, by simp only [Game.landedScreen, hd1, ht, hd3, hr4]⟩
  · rw [if_neg hcmd]
    exact ⟨locked, rfl⟩

theorem Game.Reachable_locked (g : Game LinesCount LineLength) (h : g.Reachable) :
    ∃ locked, g.ReachableLocked locked := by
  induction h with
  | new figureID g hnew => exact ⟨_, Game.ReachableLocked.new figureID g hnew⟩
  | input g cmd _ ih =>
    obtain ⟨locked, hl⟩ := ih
    exact ⟨locked, Game.ReachableLocked.input g locked cmd hl⟩
  | tick g g1 figureID hg htick ih =>
    obtain ⟨locked, hl⟩ := ih
    obtain ⟨locked1, h1⟩ := Game.lockedAfterTick_total g (Game.Reachable_drawn g hg) locked
    exact ⟨locked1, Game.ReachableLocked.tick g g1 locked locked1 figureID hl htick h1⟩

/-- C11 (amended): in every game state reached from construction by commands and ticks
in which each figure generated at a landing found the cells of its blocks empty, every
block of the current figure lies on a cell that the landed figures left empty, and the
screen is exactly those locked cells with the current figure drawn on them. -/
theorem Game.no_overlap_with_locked_cells (g : Game LinesCount LineLength)
    (locked : Screen LinesCount LineLength) (h : g.ReachableFree locked) :
    (∀ b ∈ g._figure.blocks, locked.get b.Pos = some Colour.background) ∧
    Draw.loop Colour.red g._figure.blocks locked = some g._screen := by
  obtain ⟨-, hfree, hdraw⟩ := Game.ReachableFree_noOverlap g locked h
  exact ⟨hfree, hdraw⟩

theorem Game.no_overlap_with_locked_cells_witness :
    Game.ReachableFree
      (⟨Command.Idle, Figure.square (Square.ofPosition ⟨0, 0⟩),
        ⟨[[Colour.red, Colour.red, Colour.background],
          [Colour.background, Colour.red, Colour.background],
          [Colour.background, Colour.red, Colour.background]]⟩⟩ : Game 3 3)
      (⟨[[Colour.background, Colour.red, Colour.background],
          [Colour.background, Colour.red, Colour.background],
          [Colour.background, Colour.red, Colour.background]]⟩ : Screen 3 3) ∧
    ((∀ b ∈ (⟨Command.Idle, Figure.square (Square.ofPosition ⟨0, 0⟩),
        ⟨[[Colour.red, Colour.red, Colour.background],
          [Colour.background, Colour.red, Colour.background],
          [Colour.background, Colour.red, Colour.background]]⟩⟩ : Game 3 3)._figure.blocks,
        Screen.get (⟨[[Colour.background, Colour.red, Colour.background],
          [Colour.background, Colour.red, Colour.background],
          [Colour.background, Colour.red, Colour.background]]⟩ : Screen 3 3) b.Pos = some Colour.background) ∧
     Draw.loop Colour.red
        (⟨Command.Idle, Figure.square (Square.ofPosition ⟨0, 0⟩),
        ⟨[[Colour.red, Colour.red, Colour.background],
          [Colour.background, Colour.red, Colour.background],
          [Colour.background, Colour.red, Colour.background]]⟩⟩ : Game 3 3)._figure.blocks
        (⟨[[Colour.background, Colour.red, Colour.background],
          [Colour.background, Colour.red, Colour.background],
          [Colour.background, Colour.red, Colour.background]]⟩ : Screen 3 3)
      = some (⟨Command.Idle, Figure.square (Square.ofPosition ⟨0, 0⟩),
        ⟨[[Colour.red, Colour.red, Colour.background],
          [Colour.background, Colour.red, Colour.background],
          [Colour.background, Colour.red, Colour.background]]⟩⟩ : Game 3 3)._screen) :=
  have hreach : Game.ReachableFree
      (⟨Command.Idle, Figure.square (Square.ofPosition ⟨0, 0⟩),
        ⟨[[Colour.red, Colour.red, Colour.background],
          [Colour.background, Colour.red, Colour.background],
          [Colour.background, Colour.red, Colour.background]]⟩⟩ : Game 3 3)
      (⟨[[Colour.background, Colour.red, Colour.background],
          [Colour.background, Colour.red, Colour.background],
          [Colour.background, Colour.red, Colour.background]]⟩ : Screen 3 3) :=
    Game.ReachableFree.tick
      (Game.Input
        (⟨Command.Idle, Figure.bar (Bar.ofPosition ⟨0, 0⟩),
        ⟨[[Colour.background, Colour.red, Colour.background],
          [Colour.background, Colour.red, Colour.background],
          [Colour.background, Colour.red, Colour.background]]⟩⟩ : Game 3 3) Command.TranslateDown)
      _ (Screen.empty 3 3) _ 3
      (Game.ReachableFree.input _ _ Command.TranslateDown
        (Game.ReachableFree.new 1 _ (by decide)))
      (by decide) (by decide) (fun _ => by decide)
  ⟨hreach, Game.no_overlap_with_locked_cells _ _ hreach⟩

/-- C11, as stated, fails right after a figure is generated: on a screen of 3 rows and 3
columns a Bar generated at (0,0) lands at once on `TranslateDown`, its cells (0,1),
(1,1), (2,1) become locked cells, and the next Bar is generated and drawn on the same
three cells, so the block (0,1) of the current figure lies on a locked cell. -/
theorem Game.spawn_on_locked_cells_counterexample :
    Game.ReachableLocked
      (⟨Command.Idle, Figure.bar (Bar.ofPosition ⟨0, 0⟩),
        ⟨[[Colour.background, Colour.red, Colour.background],
          [Colour.background, Colour.red, Colour.background],
          [Colour.background, Colour.red, Colour.background]]⟩⟩ : Game 3 3)
      (⟨[[Colour.background, Colour.red, Colour.background],
          [Colour.background, Colour.red, Colour.background],
          [Colour.background, Colour.red, Colour.background]]⟩ : Screen 3 3) ∧
    Block.ofPosition ⟨0, 1⟩ ∈ (⟨Command.Idle, Figure.bar (Bar.ofPosition ⟨0, 0⟩),
        ⟨[[Colour.background, Colour.red, Colour.background],
          [Colour.background, Colour.red, Colour.background],
          [Colour.background, Colour.red, Colour.background]]⟩⟩ : Game 3 3)._figure.blocks ∧
    Screen.get (⟨[[Colour.background, Colour.red, Colour.background],
          [Colour.background, Colour.red, Colour.background],
          [Colour.background, Colour.red, Colour.background]]⟩ : Screen 3 3) (Block.ofPosition ⟨0, 1⟩).Pos = some Colour.red :=
  ⟨Game.ReachableLocked.tick
      (Game.Input
        (⟨Command.Idle, Figure.bar (Bar.ofPosition ⟨0, 0⟩),
        ⟨[[Colour.background, Colour.red, Colour.background],
          [Colour.background, Colour.red, Colour.background],
          [Colour.background, Colour.red, Colour.background]]⟩⟩ : Game 3 3) Command.TranslateDown)
      _ (Screen.empty 3 3) _ 1
      (Game.ReachableLocked.input _ _ Command.TranslateDown
        (Game.ReachableLocked.new 1 _ (by decide)))
      (by decide) (by decide),
    by decide, by decide⟩

/-! ### RemoveFullLines: row 0 and repeated application -/

theorem RemoveFullLines_of_no_full_below (lines : LinesCollection)
    (h : ∀ l ∈ lines.tail, IsLineFull l = false) : RemoveFullLines lines = some lines := by
  cases lines with
  | nil => rfl
  | cons row0 rest =>
    simp only [List.tail_cons] at h
    have hcount : rest.countP IsLineFull = 0 := by
      rw [List.countP_eq_zero]
      intro l hl
      simp [h l hl]
    have hfilter : rest.filter (fun l => !IsLineFull l) = rest := by
      rw [List.filter_eq_self]
      intro l hl
      simp [h l hl]
    rw [RemoveFullLines_cons, hcount, hfilter]
    rfl

theorem IsLineFull_replicate_background (n : Nat) (hn : 0 < n) :
    IsLineFull (List.replicate n Colour.background) = false := by
  cases n with
  | zero => omega
  | succ m => simp [List.replicate, IsLineFull]

theorem IsLineFull_false_length (row : LineType) (h : IsLineFull row = false) :
    0 < row.length := by
  cases row with
  | nil => simp [IsLineFull] at h
  | cons b rest => simp

/-- C22: for every grid in which no row of index at least 1 is full, `RemoveFullLines`
returns the grid unchanged, whatever row 0 holds, also when row 0 is full. -/
theorem RemoveFullLines_row0_never_tested (lines : LinesCollection)
    (h : ∀ l ∈ lines.tail, IsLineFull l = false) :
    RemoveFullLines lines = some lines ∧
    (∀ s : Screen LinesCount LineLength, s._lines = lines → s.RemoveFullLines = some s) := by
  have hl := RemoveFullLines_of_no_full_below lines h
  refine ⟨hl, ?_⟩
  intro s hs
  subst hs
  simp only [Screen.RemoveFullLines, hl]

theorem RemoveFullLines_row0_never_tested_witness :
    (∀ l ∈ ([[Colour.red, Colour.red], [Colour.red, Colour.background],
        [Colour.background, Colour.background]] : LinesCollection).tail,
      IsLineFull l = false) ∧
    IsLineFull [Colour.red, Colour.red] = true ∧
    (RemoveFullLines [[Colour.red, Colour.red], [Colour.red, Colour.background],
        [Colour.background, Colour.background]]
      = some [[Colour.red, Colour.red], [Colour.red, Colour.background],
        [Colour.background, Colour.background]] ∧
     (∀ s : Screen 3 2, s._lines = [[Colour.red, Colour.red], [Colour.red, Colour.background],
        [Colour.background, Colour.background]] → s.RemoveFullLines = some s)) :=
  ⟨by decide, by decide,
    RemoveFullLines_row0_never_tested
      [[Colour.red, Colour.red], [Colour.red, Colour.background],
        [Colour.background, Colour.background]] (by decide)⟩

/-- C26: for every grid whose row 0 is not full (so the grid has at least one column),
`RemoveFullLines` returns a grid in which no row is full, and `RemoveFullLines` applied
to that grid returns it unchanged. -/
theorem RemoveFullLines_idempotent (row0 : LineType) (rest : LinesCollection)
    (h0 : IsLineFull row0 = false) :
    0 < row0.length ∧
    ∃ out, RemoveFullLines (row0 :: rest) = some out ∧
      (∀ l ∈ out, IsLineFull l = false) ∧ RemoveFullLines out = some out := by
  have hlen := IsLineFull_false_length row0 h0
  have hall : ∀ l ∈ List.replicate (rest.countP IsLineFull)
        (List.replicate row0.length Colour.background)
      ++ row0 :: rest.filter (fun l => !IsLineFull l), IsLineFull l = false := by
    intro l hl
    simp only [List.mem_append, List.mem_cons, List.mem_filter] at hl
    rcases hl with hl | rfl | ⟨-, hl⟩
    · rw [List.eq_of_mem_replicate hl]
      exact IsLineFull_replicate_background _ hlen
    · exact h0
    · simpa using hl
  refine ⟨hlen, _, RemoveFullLines_cons row0 rest, hall, ?_⟩
  apply RemoveFullLines_of_no_full_below
  intro l hl
  exact hall l (List.mem_of_mem_tail hl)

theorem RemoveFullLines_idempotent_witness :
    IsLineFull [Colour.red, Colour.background] = false ∧
    (0 < [Colour.red, Colour.background].length ∧
     ∃ out, RemoveFullLines ([Colour.red, Colour.background]
          :: [[Colour.red, Colour.red], [Colour.background, Colour.red],
              [Colour.red, Colour.red]]) = some out ∧
      (∀ l ∈ out, IsLineFull l = false) ∧ RemoveFullLines out = some out) :=
  ⟨by decide,
    RemoveFullLines_idempotent [Colour.red, Colour.background]
      [[Colour.red, Colour.red], [Colour.background, Colour.red], [Colour.red, Colour.red]]
      (by decide)⟩

/-! ### The rotation tables -/

/-- C25: the table of the Bar has 2 states of 3 offsets, the table of the BarT has 4
states of 4 offsets; in every state the offsets are pairwise distinct with row and column
in 0..2; the states of one table are pairwise distinct as sets of cells; and each state
is the previous one turned by a quarter turn (always the same way) up to a translation,
the last state turning into state 0. -/
theorem rotation_tables_well_formed :
    (Bar._figure.length = 2 ∧ ∀ st ∈ Bar._figure, st.length = 3) ∧
    (BarT._figure.length = 4 ∧ ∀ st ∈ BarT._figure, st.length = 4) ∧
    (∀ st ∈ Bar._figure ++ BarT._figure,
      (st.map Block.Pos).Nodup ∧
      ∀ b ∈ st, 0 ≤ b.Pos._row ∧ b.Pos._row ≤ 2 ∧ 0 ≤ b.Pos._col ∧ b.Pos._col ≤ 2) ∧
    Bar._figure.Pairwise (fun a b => ¬ sameCells a b) ∧
    BarT._figure.Pairwise (fun a b => ¬ sameCells a b) ∧
    (∀ i, i < 2 →
      quarterTurnOf (Bar._figure.getD i []) (Bar._figure.getD ((i + 1) % 2) [])) ∧
    (∀ i, i < 4 →
      quarterTurnOf (BarT._figure.getD i []) (BarT._figure.getD ((i + 1) % 4) [])) := by
  refine ⟨by decide, by decide, by decide, by decide, by decide, ?_, ?_⟩
  · intro i hi
    interval_cases i
    · exact ⟨⟨0, 2⟩, by decide⟩
    · exact ⟨⟨0, 2⟩, by decide⟩
  · intro i hi
    interval_cases i
    · exact ⟨⟨0, 1⟩, by decide⟩
    · exact ⟨⟨0, 2⟩, by decide⟩
    · exact ⟨⟨0, 1⟩, by decide⟩
    · exact ⟨⟨0, 2⟩, by decide⟩

/-- C24, the code at the failing input: a BarT generated at (0,0) on an empty screen of
3 rows and 3 columns has rotation index 0; `Rotate` right succeeds and gives index 1,
`Rotate` left then succeeds and gives index 3, with the blocks of state 3, not the
original index 0 and blocks.  In the other order, left gives index 3 and right then
gives index 1.  The Bar ends in index 1 in both orders. -/
theorem Rotate_round_trip_of_BarT :
    ((Figure.barT (BarT.ofPosition ⟨0, 0⟩)).Rotate (Screen.empty 3 3) Direction.right).bind
        (fun r => r.2.1.Rotate (Screen.empty 3 3) Direction.left)
      = some (true,
          Figure.barT ⟨⟨0, 0⟩, 3,
            [Block.ofPosition ⟨0, 0⟩, Block.ofPosition ⟨1, 0⟩, Block.ofPosition ⟨1, 1⟩,
              Block.ofPosition ⟨2, 0⟩]⟩,
          Screen.empty 3 3) ∧
    ((Figure.barT (BarT.ofPosition ⟨0, 0⟩)).Rotate (Screen.empty 3 3) Direction.left).bind
        (fun r => r.2.1.Rotate (Screen.empty 3 3) Direction.right)
      = some (true,
          Figure.barT ⟨⟨0, 0⟩, 1,
            [Block.ofPosition ⟨0, 1⟩, Block.ofPosition ⟨1, 0⟩, Block.ofPosition ⟨1, 1⟩,
              Block.ofPosition ⟨2, 1⟩]⟩,
          Screen.empty 3 3) ∧
    BarT.ofPosition ⟨0, 0⟩
      = ⟨⟨0, 0⟩, 0,
          [Block.ofPosition ⟨0, 0⟩, Block.ofPosition ⟨0, 1⟩, Block.ofPosition ⟨0, 2⟩,
            Block.ofPosition ⟨1, 1⟩]⟩ ∧
    (∀ d : Direction,
      (Figure.barT (BarT.ofPosition ⟨0, 0⟩)).Rotate (Screen.empty 3 3) d
        ≠ some (false, Figure.barT (BarT.ofPosition ⟨0, 0⟩), Screen.empty 3 3)) ∧
    ((Figure.bar (Bar.ofPosition ⟨0, 0⟩)).Rotate (Screen.empty 3 3) Direction.right).bind
        (fun r => r.2.1.Rotate (Screen.empty 3 3) Direction.left)
      = some (true,
          Figure.bar ⟨⟨0, 0⟩, 1,
            [Block.ofPosition ⟨1, 0⟩, Block.ofPosition ⟨1, 1⟩, Block.ofPosition ⟨1, 2⟩]⟩,
          Screen.empty 3 3) := by
  refine ⟨by decide, by decide, by decide, ?_, by decide⟩
  intro d
  cases d <;> decide

/-! ### What Rotate tests and commits -/

theorem Rotate.loop_true_iff (s : Screen LinesCount LineLength) (hs : s.WF)
    (figPos : Position) (blocks : List Block) :
    ∃ r blocks1, Rotate.loop s figPos blocks = some (r, blocks1) ∧
      (r = true ↔ ∀ bl ∈ blocks, s.Colision (bl.Pos + figPos) = some false) := by
  induction blocks with
  | nil => exact ⟨true, [], rfl, by simp⟩
  | cons bl rest ih =>
    obtain ⟨c, hc, -⟩ := Screen.Colision_total s hs (bl.Pos + figPos)
    obtain ⟨r, rest1, hr, hiff⟩ := ih
    have hc1 : s.Colision (Block.ofPosition (bl.Pos + figPos)).Pos = some c := hc
    cases c with
    | true =>
      refine ⟨false, Block.ofPosition (bl.Pos + figPos) :: rest,
        by simp only [Rotate.loop, hc1], ?_⟩
      constructor
      · intro h; exact absurd h (by simp)
      · intro h
        have := h bl (List.mem_cons_self _ _)
        rw [hc] at this
        exact absurd this (by simp)
    | false =>
      refine ⟨r, Block.ofPosition (bl.Pos + figPos) :: rest1,
        by simp only [Rotate.loop, hc1, hr], ?_⟩
      rw [hiff]
      constructor
      · intro h x hx
        rcases List.mem_cons.1 hx with rfl | hx
        · exact hc
        · exact h x hx
      · intro h x hx
        exact h x (List.mem_cons_of_mem _ hx)

theorem Rotate_template_iff {F : Type} [RotatingFigureType F] (fig : F)
    (s : Screen LinesCount LineLength) (hs : s.WF) (dir : Direction) :
    ∃ r, Rotate fig s dir
        = some (r,
            if r = true then
              RotatingFigureType.set_pos
                (RotatingFigureType.set_blocks (RotatingFigureType.ofDirection dir : F)
                  ((FigureType._blocks (RotatingFigureType.ofDirection dir : F)).map
                    (fun bl => Block.ofPosition (bl.Pos + FigureType.Pos fig))))
                (FigureType.Pos fig)
            else fig, s) ∧
      (r = true ↔ ∀ bl ∈ FigureType._blocks (RotatingFigureType.ofDirection dir : F),
        s.Colision (bl.Pos + FigureType.Pos fig) = some false) := by
  obtain ⟨r, h, -⟩ := Rotate_template_spec fig s hs dir
  obtain ⟨r1, blocks1, hl, hiff⟩ :=
    Rotate.loop_true_iff s hs (FigureType.Pos fig)
      (FigureType._blocks (RotatingFigureType.ofDirection dir : F))
  have hr : r = r1 := by
    have h2 := h
    unfold Rotate at h2
    simp only [hl] at h2
    cases r1 <;> cases r <;> simp_all
  subst hr
  exact ⟨r, h, hiff⟩

/-- What `Rotate` tests and commits: for every Bar and every BarT at position `p`, every
screen and every direction, `Rotate` returns a result; it is `true` exactly when no offset
of the state whose index the constructor from the direction computes, added to `p`,
collides; on `true` the figure has position `p`, that index and exactly those offsets each
added to `p`, in table order; on `false` it is unchanged.  That index is 1 for right and
the last index for left, whatever the rotation index of the figure. -/
theorem Rotate_of_constructor_state (s : Screen LinesCount LineLength) (hs : s.WF)
    (dir : Direction) :
    (∀ f : Bar, ∃ r f1, (Figure.bar f).Rotate s dir = some (r, Figure.bar f1, s) ∧
      (r = true ↔ ∀ o ∈ Bar._figure.getD (Bar.ofDirection dir)._idx.toNat [],
        s.Colision (o.Pos + f._pos) = some false) ∧
      (r = true → f1 = ⟨f._pos, (Bar.ofDirection dir)._idx,
        (Bar._figure.getD (Bar.ofDirection dir)._idx.toNat []).map
          (fun o => Block.ofPosition (o.Pos + f._pos))⟩) ∧
      (r = false → f1 = f)) ∧
    (∀ f : BarT, ∃ r f1, (Figure.barT f).Rotate s dir = some (r, Figure.barT f1, s) ∧
      (r = true ↔ ∀ o ∈ BarT._figure.getD (BarT.ofDirection dir)._idx.toNat [],
        s.Colision (o.Pos + f._pos) = some false) ∧
      (r = true → f1 = ⟨f._pos, (BarT.ofDirection dir)._idx,
        (BarT._figure.getD (BarT.ofDirection dir)._idx.toNat []).map
          (fun o => Block.ofPosition (o.Pos + f._pos))⟩) ∧
      (r = false → f1 = f)) ∧
    ((Bar.ofDirection Direction.right)._idx = 1 ∧ (Bar.ofDirection Direction.left)._idx = 1 ∧
     (BarT.ofDirection Direction.right)._idx = 1 ∧
     (BarT.ofDirection Direction.left)._idx = 3) := by
  refine ⟨?_, ?_, by decide⟩
  · intro f
    obtain ⟨r, h, hiff⟩ := Rotate_template_iff f s hs dir
    refine ⟨r, _, by simp only [Figure.Rotate, h]; rfl, hiff, ?_, ?_⟩
    · intro hr
      subst hr
      rfl
    · intro hr
      subst hr
      rfl
  · intro f
    obtain ⟨r, h, hiff⟩ := Rotate_template_iff f s hs dir
    refine ⟨r, _, by simp only [Figure.Rotate, h]; rfl, hiff, ?_, ?_⟩
    · intro hr
      subst hr
      rfl
    · intro hr
      subst hr
      rfl

/-! ### Safety of the reads in Colision -/

theorem Screen.Colision_outside (s : Screen LinesCount LineLength) (p : Position)
    (hp : ¬ p.inside LinesCount LineLength) : s.Colision p = some true := by
  unfold Screen.Colision Screen.Width Screen.Depth
  unfold Position.inside at hp
  split_ifs <;> first | rfl | omega

/-- C29: on every screen of the `std::array` shape `Colision` returns for every position.
For a position outside `[0,LinesCount) x [0,LineLength)` the result is `true` whatever the
buffer is, even a buffer with no cell at all, so no cell is read; for a position inside,
the read of the cell succeeds.  Hence `Translate` and `Rotate` return for every figure,
every vector and every direction. -/
theorem Screen.Colision_reads_inside (s : Screen LinesCount LineLength) (hs : s.WF) :
    (∀ p, ∃ b, s.Colision p = some b) ∧
    (∀ p, ¬ p.inside LinesCount LineLength →
      ∀ s1 : Screen LinesCount LineLength, s1.Colision p = some true) ∧
    (∀ p, p.inside LinesCount LineLength →
      ∃ c, s.get p = some c ∧ s.Colision p = some (decide (c ≠ Colour.background))) ∧
    (∀ (fig : Figure) (vect : Position), ∃ r fig1, fig.Translate s vect = some (r, fig1, s)) ∧
    (∀ (fig : Figure) (dir : Direction), ∃ r fig1, fig.Rotate s dir = some (r, fig1, s)) := by
  refine ⟨?_, ?_, ?_, ?_, ?_⟩
  · intro p
    obtain ⟨b, hb, -⟩ := Screen.Colision_total s hs p
    exact ⟨b, hb⟩
  · intro p hp s1
    exact Screen.Colision_outside s1 p hp
  · intro p hp
    obtain ⟨c, hc⟩ := Screen.get_of_inside s hs p hp
    obtain ⟨hr0, hr1, hc0, hc1⟩ := hp
    refine ⟨c, hc, ?_⟩
    unfold Screen.Colision Screen.Width Screen.Depth
    rw [if_neg (by omega), if_neg (by omega), if_neg (by omega), if_neg (by omega), hc]
  · intro fig vect
    obtain ⟨r, fig1, h, -⟩ := Figure.Translate_virtual_total fig s hs vect
    exact ⟨r, fig1, h⟩
  · intro fig dir
    obtain ⟨r, fig1, h, -⟩ := Figure.Rotate_virtual_total fig s hs dir
    exact ⟨r, fig1, h⟩

theorem Screen.Colision_reads_inside_witness :
    (Screen.empty 2 2).WF ∧
    ((∀ p, ∃ b, (Screen.empty 2 2).Colision p = some b) ∧
     (∀ p, ¬ p.inside 2 2 → ∀ s1 : Screen 2 2, s1.Colision p = some true) ∧
     (∀ p, p.inside 2 2 →
       ∃ c, (Screen.empty 2 2).get p = some c ∧
         (Screen.empty 2 2).Colision p = some (decide (c ≠ Colour.background))) ∧
     (∀ (fig : Figure) (vect : Position),
       ∃ r fig1, fig.Translate (Screen.empty 2 2) vect = some (r, fig1, Screen.empty 2 2)) ∧
     (∀ (fig : Figure) (dir : Direction),
       ∃ r fig1, fig.Rotate (Screen.empty 2 2) dir = some (r, fig1, Screen.empty 2 2))) :=
  ⟨by decide, Screen.Colision_reads_inside (Screen.empty 2 2) (by decide)⟩

/-! ### The drawn figure, lock-in and the cells outside the figure -/

/-- C27: in every game state reachable from construction every cell covered by a block of
the current figure is `red` on the screen; on a screen of at least 3 rows and 3 columns
the constructor returns for every value of the random engine, and every `Tick` returns
a state in which this holds again. -/
theorem Game.figure_is_drawn (g : Game LinesCount LineLength) (hg : g.Reachable) :
    (∀ b ∈ g._figure.blocks, g._screen.get b.Pos = some Colour.red) ∧
    (3 ≤ LinesCount → 3 ≤ LineLength →
      (∀ figureID, ∃ g0, Game.new LinesCount LineLength figureID = some g0 ∧
        ∀ b ∈ g0._figure.blocks, g0._screen.get b.Pos = some Colour.red) ∧
      (∀ figureID, ∃ g1, g.Tick figureID = some g1 ∧
        ∀ b ∈ g1._figure.blocks, g1._screen.get b.Pos = some Colour.red)) := by
  have hd := Game.Reachable_drawn g hg
  refine ⟨hd.2, ?_⟩
  intro hH hW
  constructor
  · intro figureID
    obtain ⟨g0, h0, -⟩ := Game.new_total hH hW figureID
    exact ⟨g0, h0, (Game.Reachable_drawn g0 (Game.Reachable.new figureID g0 h0)).2⟩
  · intro figureID
    have hc : g.Contained := ⟨hd.1, g.Drawn_inside hd⟩
    obtain ⟨g1, h1, -⟩ := Game.Tick_total hH hW g hc figureID
    exact ⟨g1, h1, (Game.Tick_drawn g g1 hd figureID h1).2⟩

theorem Game.figure_is_drawn_witness :
    Game.Reachable
      (⟨Command.Idle, Figure.bar (Bar.ofPosition ⟨0, 0⟩),
        ⟨[[Colour.background, Colour.red, Colour.background],
          [Colour.background, Colour.red, Colour.background],
          [Colour.background, Colour.red, Colour.background]]⟩⟩ : Game 3 3) ∧
    ((∀ b ∈ (Figure.bar (Bar.ofPosition ⟨0, 0⟩)).blocks,
        (⟨[[Colour.background, Colour.red, Colour.background],
           [Colour.background, Colour.red, Colour.background],
           [Colour.background, Colour.red, Colour.background]]⟩ : Screen 3 3).get b.Pos
          = some Colour.red) ∧
     (3 ≤ 3 → 3 ≤ 3 →
      (∀ figureID, ∃ g0, Game.new 3 3 figureID = some g0 ∧
        ∀ b ∈ g0._figure.blocks, g0._screen.get b.Pos = some Colour.red) ∧
      (∀ figureID, ∃ g1,
        Game.Tick
          (⟨Command.Idle, Figure.bar (Bar.ofPosition ⟨0, 0⟩),
            ⟨[[Colour.background, Colour.red, Colour.background],
              [Colour.background, Colour.red, Colour.background],
              [Colour.background, Colour.red, Colour.background]]⟩⟩ : Game 3 3) figureID
          = some g1 ∧
        ∀ b ∈ g1._figure.blocks, g1._screen.get b.Pos = some Colour.red))) :=
  have hreach : Game.Reachable
      (⟨Command.Idle, Figure.bar (Bar.ofPosition ⟨0, 0⟩),
        ⟨[[Colour.background, Colour.red, Colour.background],
          [Colour.background, Colour.red, Colour.background],
          [Colour.background, Colour.red, Colour.background]]⟩⟩ : Game 3 3) :=
    Game.Reachable.new 1 _ (by decide)
  ⟨hreach, Game.figure_is_drawn _ hreach⟩

theorem Game.Tick_landing (g : Game LinesCount LineLength) (hg : g.Drawn)
    (hcmd : g._cmd = Command.TranslateDown)
    (hrej : g.translateResult ⟨1, 0⟩ = some false) (figureID : Int) :
    ∃ s4, g._screen.RemoveFullLines = some s4 ∧ s4.WF ∧
      g.Tick figureID
        = (Draw.loop Colour.red
            (Game.RandomFigureGenerator LinesCount LineLength figureID).blocks s4).map
          (fun s5 => ⟨Command.Idle,
            Game.RandomFigureGenerator LinesCount LineLength figureID, s5⟩) := by
  obtain ⟨s1, r, f2, s3, hd1, -, ht, hfalse, -, hd3, -, -, -, hsame⟩ :=
    g.Translate_steps hg ⟨1, 0⟩
  rw [Game.translateResult_eq g _ s1 s1 r f2 hd1 ht] at hrej
  simp only [Option.some.injEq] at hrej
  subst hrej
  have hf := hfalse rfl
  subst hf
  have hs := hsame rfl
  subst hs
  obtain ⟨s4, hr4, hs4⟩ := Screen.RemoveFullLines_total g._screen hg.1
  refine ⟨s4, hr4, hs4, ?_⟩
  simp only [Game.Tick, Game.dispatch, hcmd, Game.Translate, hd1, ht, hd3, hr4,
    and_self, if_true]
  rw [Figure.Draw_eq_loop]
  cases Draw.loop Colour.red
    (Game.RandomFigureGenerator LinesCount LineLength figureID).blocks s4 <;> rfl

/-- C21: in every reachable game state whose command is `TranslateDown`, whose downward
`Translate` is rejected and in which no row of index at least 1 is full (so the landing
completes no row), every cell covered by a block of the landed figure is `red` on the
screen of the state `Tick` returns; on a screen of at least 3 rows and 3 columns `Tick`
does return. -/
theorem Game.lock_in (g : Game LinesCount LineLength) (hg : g.Reachable)
    (hcmd : g._cmd = Command.TranslateDown)
    (hrej : g.translateResult ⟨1, 0⟩ = some false)
    (hno : ∀ l ∈ g._screen._lines.tail, IsLineFull l = false) (figureID : Int) :
    (∀ g1, g.Tick figureID = some g1 →
      ∀ b ∈ g._figure.blocks, g1._screen.get b.Pos = some Colour.red) ∧
    (3 ≤ LinesCount → 3 ≤ LineLength → ∃ g1, g.Tick figureID = some g1) := by
  have hd := Game.Reachable_drawn g hg
  constructor
  · intro g1 h1 b hb
    obtain ⟨s4, hr4, -, htick⟩ := Game.Tick_landing g hd hcmd hrej figureID
    have hsame : s4 = g._screen := by
      have h := RemoveFullLines_of_no_full_below g._screen._lines hno
      simp only [Screen.RemoveFullLines, h, Option.some.injEq] at hr4
      exact hr4.symm
    subst hsame
    rw [htick] at h1
    cases hl : Draw.loop Colour.red
        (Game.RandomFigureGenerator LinesCount LineLength figureID).blocks g._screen with
    | none => rw [hl] at h1; exact absurd h1 (by simp)
    | some s5 =>
      rw [hl] at h1
      simp only [Option.map_some', Option.some.injEq] at h1
      subst h1
      obtain ⟨-, -, hget⟩ := Draw.loop_some Colour.red _ g._screen s5 hd.1 hl
      show s5.get b.Pos = some Colour.red
      rw [hget]
      split_ifs
      · rfl
      · exact hd.2 b hb
  · intro hH hW
    have hc : g.Contained := ⟨hd.1, g.Drawn_inside hd⟩
    obtain ⟨g1, h1, -⟩ := Game.Tick_total hH hW g hc figureID
    exact ⟨g1, h1⟩

theorem Game.lock_in_witness :
    Game.Reachable
      (⟨Command.TranslateDown, Figure.bar (Bar.ofPosition ⟨0, 0⟩),
        ⟨[[Colour.background, Colour.red, Colour.background],
          [Colour.background, Colour.red, Colour.background],
          [Colour.background, Colour.red, Colour.background]]⟩⟩ : Game 3 3) ∧
    Game.translateResult
      (⟨Command.TranslateDown, Figure.bar (Bar.ofPosition ⟨0, 0⟩),
        ⟨[[Colour.background, Colour.red, Colour.background],
          [Colour.background, Colour.red, Colour.background],
          [Colour.background, Colour.red, Colour.background]]⟩⟩ : Game 3 3) ⟨1, 0⟩ = some false ∧
    (∀ l ∈ (⟨[[Colour.background, Colour.red, Colour.background],
          [Colour.background, Colour.red, Colour.background],
          [Colour.background, Colour.red, Colour.background]]⟩ : Screen 3 3)._lines.tail, IsLineFull l = false) ∧
    ((∀ g1, Game.Tick
          (⟨Command.TranslateDown, Figure.bar (Bar.ofPosition ⟨0, 0⟩),
        ⟨[[Colour.background, Colour.red, Colour.background],
          [Colour.background, Colour.red, Colour.background],
          [Colour.background, Colour.red, Colour.background]]⟩⟩ : Game 3 3) 3 = some g1 →
        ∀ b ∈ (Figure.bar (Bar.ofPosition ⟨0, 0⟩)).blocks,
          g1._screen.get b.Pos = some Colour.red) ∧
     (3 ≤ 3 → 3 ≤ 3 → ∃ g1, Game.Tick
          (⟨Command.TranslateDown, Figure.bar (Bar.ofPosition ⟨0, 0⟩),
        ⟨[[Colour.background, Colour.red, Colour.background],
          [Colour.background, Colour.red, Colour.background],
          [Colour.background, Colour.red, Colour.background]]⟩⟩ : Game 3 3) 3 = some g1)) :=
  have hreach : Game.Reachable
      (⟨Command.TranslateDown, Figure.bar (Bar.ofPosition ⟨0, 0⟩),
        ⟨[[Colour.background, Colour.red, Colour.background],
          [Colour.background, Colour.red, Colour.background],
          [Colour.background, Colour.red, Colour.background]]⟩⟩ : Game 3 3) :=
    Game.Reachable.input
      (⟨Command.Idle, Figure.bar (Bar.ofPosition ⟨0, 0⟩),
        ⟨[[Colour.background, Colour.red, Colour.background],
          [Colour.background, Colour.red, Colour.background],
          [Colour.background, Colour.red, Colour.background]]⟩⟩ : Game 3 3)
      Command.TranslateDown (Game.Reachable.new 1 _ (by decide))
  ⟨hreach, by decide, by decide, Game.lock_in _ hreach rfl (by decide) (by decide) 3⟩

theorem Game.other_cells_kept (g : Game LinesCount LineLength) (hg : g.Drawn)
    (s1 s3 : Screen LinesCount LineLength) (f2 : Figure)
    (hl1 : Draw.loop Colour.background g._figure.blocks g._screen = some s1)
    (hl3 : Draw.loop Colour.red f2.blocks s1 = some s3)
    (hf2 : f2 = g._figure ∨ ∀ b ∈ f2.blocks, s1.Colision b.Pos = some false)
    (q : Position) :
    (s3.get q = some Colour.red ∧ q ∉ f2.blocks.map Block.Pos) ↔
    (g._screen.get q = some Colour.red ∧ q ∉ g._figure.blocks.map Block.Pos) := by
  obtain ⟨hs1, -, hget1⟩ :=
    Draw.loop_some Colour.background g._figure.blocks g._screen s1 hg.1 hl1
  obtain ⟨-, -, hget3⟩ := Draw.loop_some Colour.red f2.blocks s1 s3 hs1 hl3
  constructor
  · rintro ⟨hred, hq⟩
    rw [hget3, if_neg hq, hget1] at hred
    by_cases hqF : q ∈ g._figure.blocks.map Block.Pos
    · rw [if_pos hqF] at hred
      exact absurd hred (by simp)
    · rw [if_neg hqF] at hred
      exact ⟨hred, hqF⟩
  · rintro ⟨hred, hqF⟩
    have hs1q : s1.get q = some Colour.red := by rw [hget1, if_neg hqF]; exact hred
    have hq : q ∉ f2.blocks.map Block.Pos := by
      rcases hf2 with rfl | hfree
      · exact hqF
      · intro hmem
        obtain ⟨b, hb, rfl⟩ := List.mem_map.1 hmem
        have := (Screen.Colision_false s1 b.Pos (hfree b hb)).2
        rw [hs1q] at this
        exact absurd this (by simp)
    exact ⟨by rw [hget3, if_neg hq]; exact hs1q, hq⟩

theorem Game.lockedAfterTick_not_landing (g : Game LinesCount LineLength) (hg : g.Drawn)
    (locked : Screen LinesCount LineLength)
    (hnl : ¬ (g._cmd = Command.TranslateDown ∧ g.translateResult ⟨1, 0⟩ = some false)) :
    g.lockedAfterTick locked = some locked := by
  obtain ⟨s1, r, f2, s3, hd1, -, ht, -, -, -, -, -, -, -⟩ := g.Translate_steps hg ⟨1, 0⟩
  have hres := Game.translateResult_eq g ⟨1, 0⟩ s1 s1 r f2 hd1 ht
  unfold Game.lockedAfterTick
  by_cases hcmd : g._cmd = Command.TranslateDown
  · rw [if_pos hcmd, hres]
    cases r with
    | true => rfl
    | false => exact absurd ⟨hcmd, hres⟩ hnl
  · rw [if_neg hcmd]

theorem Game.NoOverlap_locked_cells (g : Game LinesCount LineLength)
    (locked : Screen LinesCount LineLength) (h : g.NoOverlap locked) (q : Position) :
    locked.get q = some Colour.red ↔
      (g._screen.get q = some Colour.red ∧ q ∉ g._figure.blocks.map Block.Pos) := by
  obtain ⟨hw, hfree, hdraw⟩ := h
  obtain ⟨-, -, hget⟩ := Draw.loop_some Colour.red g._figure.blocks locked g._screen hw hdraw
  rw [hget]
  by_cases hq : q ∈ g._figure.blocks.map Block.Pos
  · obtain ⟨b, hb, rfl⟩ := List.mem_map.1 hq
    rw [hfree b hb]
    simp [hq]
  · simp [hq]

/-- C28 (amended): in every reachable game state, a `Tick` that does not land the figure
(the command is not `TranslateDown`, or the downward `Translate` is accepted) returns,
and the cells that are `red` and not covered by a block of the current figure are the
same before and after the tick.  When every figure generated so far found the cells of
its blocks empty, these cells are exactly the locked cells, before and after the tick,
and the tick leaves the locked cells as they are. -/
theorem Game.Tick_keeps_other_cells (g : Game LinesCount LineLength) (hg : g.Reachable)
    (figureID : Int)
    (hnl : ¬ (g._cmd = Command.TranslateDown ∧ g.translateResult ⟨1, 0⟩ = some false)) :
    ∃ g1, g.Tick figureID = some g1 ∧
      (∀ q, (g1._screen.get q = some Colour.red ∧ q ∉ g1._figure.blocks.map Block.Pos) ↔
        (g._screen.get q = some Colour.red ∧ q ∉ g._figure.blocks.map Block.Pos)) ∧
      (∀ locked, g.ReachableFree locked →
        g.lockedAfterTick locked = some locked ∧ g1.ReachableFree locked ∧
        ∀ q, (locked.get q = some Colour.red ↔
            (g._screen.get q = some Colour.red ∧ q ∉ g._figure.blocks.map Block.Pos)) ∧
          (locked.get q = some Colour.red ↔
            (g1._screen.get q = some Colour.red ∧
              q ∉ g1._figure.blocks.map Block.Pos))) := by
  have hd := Game.Reachable_drawn g hg
  have hrot : ∀ d, ∃ g1, g.Rotate d = some g1 ∧
      ∀ q, (g1._screen.get q = some Colour.red ∧ q ∉ g1._figure.blocks.map Block.Pos) ↔
        (g._screen.get q = some Colour.red ∧ q ∉ g._figure.blocks.map Block.Pos) := by
    intro d
    obtain ⟨s1, r, f2, s3, hd1, hl1, ht, -, hf2, hd3, hl3, -, -, -⟩ := g.Rotate_steps hd d
    refine ⟨{ g with _figure := f2, _screen := s3 }, ?_, ?_⟩
    · simp only [Game.Rotate, hd1, ht, hd3]
    · exact Game.other_cells_kept g hd s1 s3 f2 hl1 hl3 hf2
  have htr : ∀ p, ¬ (g._cmd = Command.TranslateDown ∧ g.translateResult p = some false) →
      ∃ g1, g.Translate p figureID = some g1 ∧
      ∀ q, (g1._screen.get q = some Colour.red ∧ q ∉ g1._figure.blocks.map Block.Pos) ↔
        (g._screen.get q = some Colour.red ∧ q ∉ g._figure.blocks.map Block.Pos) := by
    intro p hp
    obtain ⟨s1, r, f2, s3, hd1, hl1, ht, hfalse, htrue, hd3, hl3, -, -, -⟩ :=
      g.Translate_steps hd p
    have hres := Game.translateResult_eq g p s1 s1 r f2 hd1 ht
    have hf2 : f2 = g._figure ∨ ∀ b ∈ f2.blocks, s1.Colision b.Pos = some false := by
      cases r with
      | false => exact Or.inl (hfalse rfl)
      | true => exact Or.inr (htrue rfl)
    have hcond : ¬ (r = false ∧ g._cmd = Command.TranslateDown) := by
      rintro ⟨hr, hc⟩
      subst hr
      exact hp ⟨hc, hres⟩
    refine ⟨{ g with _figure := f2, _screen := s3 }, ?_, ?_⟩
    · simp only [Game.Translate, hd1, ht, hd3, if_neg hcond]
    · exact Game.other_cells_kept g hd s1 s3 f2 hl1 hl3 hf2
  have hdisp : ∃ g1, g.dispatch figureID = some g1 ∧
      ∀ q, (g1._screen.get q = some Colour.red ∧ q ∉ g1._figure.blocks.map Block.Pos) ↔
        (g._screen.get q = some Colour.red ∧ q ∉ g._figure.blocks.map Block.Pos) := by
    unfold Game.dispatch
    cases hcmd : g._cmd with
    | Idle => exact ⟨g, rfl, fun _ => Iff.rfl⟩
    | RotateLeft => exact hrot _
    | RotateRight => exact hrot _
    | TranslateDown => exact htr _ hnl
    | TranslateLeft => exact htr _ (fun h => by rw [hcmd] at h; exact absurd h.1 (by decide))
    | TranslateRigth => exact htr _ (fun h => by rw [hcmd] at h; exact absurd h.1 (by decide))
  obtain ⟨g1, h1, hq⟩ := hdisp
  have htick : g.Tick figureID = some { g1 with _cmd := Command.Idle } := by
    simp only [Game.Tick, h1]
  refine ⟨{ g1 with _cmd := Command.Idle }, htick, hq, ?_⟩
  intro locked hfree
  have hl := Game.lockedAfterTick_not_landing g hd locked hnl
  have hfree1 : Game.ReachableFree ({ g1 with _cmd := Command.Idle } : Game _ _) locked :=
    Game.ReachableFree.tick g _ locked locked figureID hfree htick hl
      (fun h => absurd h hnl)
  refine ⟨hl, hfree1, ?_⟩
  intro q
  exact ⟨Game.NoOverlap_locked_cells g locked (Game.ReachableFree_noOverlap g locked hfree) q,
    Game.NoOverlap_locked_cells _ locked (Game.ReachableFree_noOverlap _ locked hfree1) q⟩

theorem Game.Tick_keeps_other_cells_witness :
    Game.Reachable
      (⟨Command.TranslateDown, Figure.square (Square.ofPosition ⟨0, 0⟩),
        ⟨[[Colour.red, Colour.red, Colour.background],
          [Colour.background, Colour.red, Colour.background],
          [Colour.background, Colour.red, Colour.background]]⟩⟩ : Game 3 3) ∧
    ¬ ((⟨Command.TranslateDown, Figure.square (Square.ofPosition ⟨0, 0⟩),
        ⟨[[Colour.red, Colour.red, Colour.background],
          [Colour.background, Colour.red, Colour.background],
          [Colour.background, Colour.red, Colour.background]]⟩⟩ : Game 3 3)._cmd = Command.TranslateDown ∧
      Game.translateResult
        (⟨Command.TranslateDown, Figure.square (Square.ofPosition ⟨0, 0⟩),
        ⟨[[Colour.red, Colour.red, Colour.background],
          [Colour.background, Colour.red, Colour.background],
          [Colour.background, Colour.red, Colour.background]]⟩⟩ : Game 3 3) ⟨1, 0⟩ = some false) ∧
    Game.ReachableFree
      (⟨Command.TranslateDown, Figure.square (Square.ofPosition ⟨0, 0⟩),
        ⟨[[Colour.red, Colour.red, Colour.background],
          [Colour.background, Colour.red, Colour.background],
          [Colour.background, Colour.red, Colour.background]]⟩⟩ : Game 3 3)
      (⟨[[Colour.background, Colour.red, Colour.background],
          [Colour.background, Colour.red, Colour.background],
          [Colour.background, Colour.red, Colour.background]]⟩ : Screen 3 3) ∧
    (Screen.get (⟨[[Colour.background, Colour.red, Colour.background],
          [Colour.background, Colour.red, Colour.background],
          [Colour.background, Colour.red, Colour.background]]⟩ : Screen 3 3) ⟨0, 1⟩ = some Colour.red ∧
      (⟨0, 1⟩ : Position) ∉ (Figure.square (Square.ofPosition ⟨0, 0⟩)).blocks.map Block.Pos) ∧
    ∃ g1, Game.Tick
        (⟨Command.TranslateDown, Figure.square (Square.ofPosition ⟨0, 0⟩),
        ⟨[[Colour.red, Colour.red, Colour.background],
          [Colour.background, Colour.red, Colour.background],
          [Colour.background, Colour.red, Colour.background]]⟩⟩ : Game 3 3) 0 = some g1 ∧
      (∀ q, (g1._screen.get q = some Colour.red ∧ q ∉ g1._figure.blocks.map Block.Pos) ↔
        (Screen.get (⟨Command.TranslateDown, Figure.square (Square.ofPosition ⟨0, 0⟩),
        ⟨[[Colour.red, Colour.red, Colour.background],
          [Colour.background, Colour.red, Colour.background],
          [Colour.background, Colour.red, Colour.background]]⟩⟩ : Game 3 3)._screen q = some Colour.red ∧
          q ∉ (⟨Command.TranslateDown, Figure.square (Square.ofPosition ⟨0, 0⟩),
        ⟨[[Colour.red, Colour.red, Colour.background],
          [Colour.background, Colour.red, Colour.background],
          [Colour.background, Colour.red, Colour.background]]⟩⟩ : Game 3 3)._figure.blocks.map Block.Pos)) ∧
      (∀ locked, Game.ReachableFree
          (⟨Command.TranslateDown, Figure.square (Square.ofPosition ⟨0, 0⟩),
        ⟨[[Colour.red, Colour.red, Colour.background],
          [Colour.background, Colour.red, Colour.background],
          [Colour.background, Colour.red, Colour.background]]⟩⟩ : Game 3 3) locked →
        Game.lockedAfterTick
          (⟨Command.TranslateDown, Figure.square (Square.ofPosition ⟨0, 0⟩),
        ⟨[[Colour.red, Colour.red, Colour.background],
          [Colour.background, Colour.red, Colour.background],
          [Colour.background, Colour.red, Colour.background]]⟩⟩ : Game 3 3) locked = some locked ∧
        g1.ReachableFree locked ∧
        ∀ q, (locked.get q = some Colour.red ↔
            (Screen.get (⟨Command.TranslateDown, Figure.square (Square.ofPosition ⟨0, 0⟩),
        ⟨[[Colour.red, Colour.red, Colour.background],
          [Colour.background, Colour.red, Colour.background],
          [Colour.background, Colour.red, Colour.background]]⟩⟩ : Game 3 3)._screen q = some Colour.red ∧
              q ∉ (⟨Command.TranslateDown, Figure.square (Square.ofPosition ⟨0, 0⟩),
        ⟨[[Colour.red, Colour.red, Colour.background],
          [Colour.background, Colour.red, Colour.background],
          [Colour.background, Colour.red, Colour.background]]⟩⟩ : Game 3 3)._figure.blocks.map Block.Pos)) ∧
          (locked.get q = some Colour.red ↔
            (g1._screen.get q = some Colour.red ∧
              q ∉ g1._figure.blocks.map Block.Pos))) :=
  have hreach : Game.Reachable
      (⟨Command.TranslateDown, Figure.square (Square.ofPosition ⟨0, 0⟩),
        ⟨[[Colour.red, Colour.red, Colour.background],
          [Colour.background, Colour.red, Colour.background],
          [Colour.background, Colour.red, Colour.background]]⟩⟩ : Game 3 3) :=
    Game.Reachable.input
      (⟨Command.Idle, Figure.square (Square.ofPosition ⟨0, 0⟩),
        ⟨[[Colour.red, Colour.red, Colour.background],
          [Colour.background, Colour.red, Colour.background],
          [Colour.background, Colour.red, Colour.background]]⟩⟩ : Game 3 3)
      Command.TranslateDown
      (Game.Reachable.tick
        (Game.Input
          (⟨Command.Idle, Figure.bar (Bar.ofPosition ⟨0, 0⟩),
        ⟨[[Colour.background, Colour.red, Colour.background],
          [Colour.background, Colour.red, Colour.background],
          [Colour.background, Colour.red, Colour.background]]⟩⟩ : Game 3 3) Command.TranslateDown)
        _ 3
        (Game.Reachable.input _ Command.TranslateDown (Game.Reachable.new 1 _ (by decide)))
        (by decide))
  have hfree : Game.ReachableFree
      (⟨Command.TranslateDown, Figure.square (Square.ofPosition ⟨0, 0⟩),
        ⟨[[Colour.red, Colour.red, Colour.background],
          [Colour.background, Colour.red, Colour.background],
          [Colour.background, Colour.red, Colour.background]]⟩⟩ : Game 3 3)
      (⟨[[Colour.background, Colour.red, Colour.background],
          [Colour.background, Colour.red, Colour.background],
          [Colour.background, Colour.red, Colour.background]]⟩ : Screen 3 3) :=
    Game.ReachableFree.input
      (⟨Command.Idle, Figure.square (Square.ofPosition ⟨0, 0⟩),
        ⟨[[Colour.red, Colour.red, Colour.background],
          [Colour.background, Colour.red, Colour.background],
          [Colour.background, Colour.red, Colour.background]]⟩⟩ : Game 3 3)
      _ Command.TranslateDown
      (Game.ReachableFree.tick
        (Game.Input
          (⟨Command.Idle, Figure.bar (Bar.ofPosition ⟨0, 0⟩),
        ⟨[[Colour.background, Colour.red, Colour.background],
          [Colour.background, Colour.red, Colour.background],
          [Colour.background, Colour.red, Colour.background]]⟩⟩ : Game 3 3) Command.TranslateDown)
        _ (Screen.empty 3 3) _ 3
        (Game.ReachableFree.input _ _ Command.TranslateDown
          (Game.ReachableFree.new 1 _ (by decide)))
        (by decide) (by decide) (fun _ => by decide))
  ⟨hreach, by decide, hfree, by decide,
    Game.Tick_keeps_other_cells _ hreach 0 (by decide)⟩

/-- C28, as stated, fails after a figure has been generated on locked cells: on a screen
of 3 rows and 3 columns a Bar lands at once on (0,1), (1,1), (2,1) and the next Bar is
drawn on the same cells; the tick with `TranslateLeft` does not land, yet it clears the
three locked cells: (0,1) is `red` before the tick and `background` after it. -/
theorem Game.Tick_erases_locked_cells_counterexample :
    Game.ReachableLocked
      (⟨Command.TranslateLeft, Figure.bar (Bar.ofPosition ⟨0, 0⟩),
        ⟨[[Colour.background, Colour.red, Colour.background],
          [Colour.background, Colour.red, Colour.background],
          [Colour.background, Colour.red, Colour.background]]⟩⟩ : Game 3 3)
      (⟨[[Colour.background, Colour.red, Colour.background],
          [Colour.background, Colour.red, Colour.background],
          [Colour.background, Colour.red, Colour.background]]⟩ : Screen 3 3) ∧
    (⟨Command.TranslateLeft, Figure.bar (Bar.ofPosition ⟨0, 0⟩),
        ⟨[[Colour.background, Colour.red, Colour.background],
          [Colour.background, Colour.red, Colour.background],
          [Colour.background, Colour.red, Colour.background]]⟩⟩ : Game 3 3)._cmd ≠ Command.TranslateDown ∧
    Game.lockedAfterTick
      (⟨Command.TranslateLeft, Figure.bar (Bar.ofPosition ⟨0, 0⟩),
        ⟨[[Colour.background, Colour.red, Colour.background],
          [Colour.background, Colour.red, Colour.background],
          [Colour.background, Colour.red, Colour.background]]⟩⟩ : Game 3 3)
      (⟨[[Colour.background, Colour.red, Colour.background],
          [Colour.background, Colour.red, Colour.background],
          [Colour.background, Colour.red, Colour.background]]⟩ : Screen 3 3)
      = some (⟨[[Colour.background, Colour.red, Colour.background],
          [Colour.background, Colour.red, Colour.background],
          [Colour.background, Colour.red, Colour.background]]⟩ : Screen 3 3) ∧
    Game.Tick
      (⟨Command.TranslateLeft, Figure.bar (Bar.ofPosition ⟨0, 0⟩),
        ⟨[[Colour.background, Colour.red, Colour.background],
          [Colour.background, Colour.red, Colour.background],
          [Colour.background, Colour.red, Colour.background]]⟩⟩ : Game 3 3) 0
      = some ⟨Command.Idle, Figure.bar (Bar.ofPosition ⟨0, -1⟩),
          ⟨[[Colour.red, Colour.background, Colour.background],
          [Colour.red, Colour.background, Colour.background],
          [Colour.red, Colour.background, Colour.background]]⟩⟩ ∧
    Screen.get (⟨[[Colour.background, Colour.red, Colour.background],
          [Colour.background, Colour.red, Colour.background],
          [Colour.background, Colour.red, Colour.background]]⟩ : Screen 3 3) ⟨0, 1⟩ = some Colour.red ∧
    Screen.get (⟨Command.TranslateLeft, Figure.bar (Bar.ofPosition ⟨0, 0⟩),
        ⟨[[Colour.background, Colour.red, Colour.background],
          [Colour.background, Colour.red, Colour.background],
          [Colour.background, Colour.red, Colour.background]]⟩⟩ : Game 3 3)._screen ⟨0, 1⟩ = some Colour.red ∧
    Screen.get (⟨[[Colour.red, Colour.background, Colour.background],
          [Colour.red, Colour.background, Colour.background],
          [Colour.red, Colour.background, Colour.background]]⟩ : Screen 3 3) ⟨0, 1⟩ = some Colour.background :=
  ⟨Game.ReachableLocked.input
      (⟨Command.Idle, Figure.bar (Bar.ofPosition ⟨0, 0⟩),
        ⟨[[Colour.background, Colour.red, Colour.background],
          [Colour.background, Colour.red, Colour.background],
          [Colour.background, Colour.red, Colour.background]]⟩⟩ : Game 3 3)
      _ Command.TranslateLeft
      (Game.ReachableLocked.tick
        (Game.Input
          (⟨Command.Idle, Figure.bar (Bar.ofPosition ⟨0, 0⟩),
        ⟨[[Colour.background, Colour.red, Colour.background],
          [Colour.background, Colour.red, Colour.background],
          [Colour.background, Colour.red, Colour.background]]⟩⟩ : Game 3 3) Command.TranslateDown)
        _ (Screen.empty 3 3) _ 1
        (Game.ReachableLocked.input _ _ Command.TranslateDown
          (Game.ReachableLocked.new 1 _ (by decide)))
        (by decide) (by decide)),
    by decide, by decide, by decide, by decide, by decide, by decide⟩

/-- C23, the code at the failing input: on a screen of 3 rows and 3 columns, after a
Square has landed on (2,1) and a BarT has been generated at (0,0) and rotated left, the
BarT is in rotation 3.  For the direction right the rotation state to select is
(3 + 1) mod 4 = 0, and none of the offsets of state 0 added to (0,0) collides on the screen
cleared of the figure; `Rotate` nevertheless returns `false`, because it tests the
offsets of state 1, of which (2,1) is occupied, and the tick leaves the figure as it
was. -/
theorem Rotate_right_tests_state_1_of_BarT :
    (Game.new 3 3 3).bind (fun g => g.run
        [(Command.TranslateRigth, 0), (Command.TranslateDown, 0), (Command.TranslateDown, 0),
         (Command.TranslateDown, 2), (Command.RotateLeft, 0)])
      = some (⟨Command.Idle,
          Figure.barT ⟨⟨0, 0⟩, 3,
            [Block.ofPosition ⟨0, 0⟩, Block.ofPosition ⟨1, 0⟩, Block.ofPosition ⟨1, 1⟩,
              Block.ofPosition ⟨2, 0⟩]⟩,
          ⟨[[Colour.red, Colour.background, Colour.background],
            [Colour.red, Colour.red, Colour.background],
            [Colour.red, Colour.red, Colour.background]]⟩⟩ : Game 3 3) ∧
    Figure.Draw (Figure.barT ⟨⟨0, 0⟩, 3,
        [Block.ofPosition ⟨0, 0⟩, Block.ofPosition ⟨1, 0⟩, Block.ofPosition ⟨1, 1⟩,
          Block.ofPosition ⟨2, 0⟩]⟩)
        (⟨Command.Idle,
          Figure.barT ⟨⟨0, 0⟩, 3,
            [Block.ofPosition ⟨0, 0⟩, Block.ofPosition ⟨1, 0⟩, Block.ofPosition ⟨1, 1⟩,
              Block.ofPosition ⟨2, 0⟩]⟩,
          ⟨[[Colour.red, Colour.background, Colour.background],
            [Colour.red, Colour.red, Colour.background],
            [Colour.red, Colour.red, Colour.background]]⟩⟩ : Game 3 3)._screen DrawMode.clear
      = some ((Figure.barT ⟨⟨0, 0⟩, 3,
        [Block.ofPosition ⟨0, 0⟩, Block.ofPosition ⟨1, 0⟩, Block.ofPosition ⟨1, 1⟩,
          Block.ofPosition ⟨2, 0⟩]⟩),
          (⟨[[Colour.background, Colour.background, Colour.background],
         [Colour.background, Colour.background, Colour.background],
         [Colour.background, Colour.red, Colour.background]]⟩ : Screen 3 3)) ∧
    (∀ o ∈ BarT._figure.getD 0 [],
      Screen.Colision (⟨[[Colour.background, Colour.background, Colour.background],
         [Colour.background, Colour.background, Colour.background],
         [Colour.background, Colour.red, Colour.background]]⟩ : Screen 3 3) (o.Pos + ⟨0, 0⟩) = some false) ∧
    Figure.Rotate (Figure.barT ⟨⟨0, 0⟩, 3,
        [Block.ofPosition ⟨0, 0⟩, Block.ofPosition ⟨1, 0⟩, Block.ofPosition ⟨1, 1⟩,
          Block.ofPosition ⟨2, 0⟩]⟩)
        (⟨[[Colour.background, Colour.background, Colour.background],
         [Colour.background, Colour.background, Colour.background],
         [Colour.background, Colour.red, Colour.background]]⟩ : Screen 3 3) Direction.right
      = some (false, (Figure.barT ⟨⟨0, 0⟩, 3,
        [Block.ofPosition ⟨0, 0⟩, Block.ofPosition ⟨1, 0⟩, Block.ofPosition ⟨1, 1⟩,
          Block.ofPosition ⟨2, 0⟩]⟩),
          (⟨[[Colour.background, Colour.background, Colour.background],
         [Colour.background, Colour.background, Colour.background],
         [Colour.background, Colour.red, Colour.background]]⟩ : Screen 3 3)) ∧
    Screen.Colision (⟨[[Colour.background, Colour.background, Colour.background],
         [Colour.background, Colour.background, Colour.background],
         [Colour.background, Colour.red, Colour.background]]⟩ : Screen 3 3)
        ((Block.ofPosition ⟨2, 1⟩).Pos + ⟨0, 0⟩) = some true ∧
    Block.ofPosition ⟨2, 1⟩ ∈ BarT._figure.getD 1 [] ∧
    Game.Tick (Game.Input (⟨Command.Idle,
          Figure.barT ⟨⟨0, 0⟩, 3,
            [Block.ofPosition ⟨0, 0⟩, Block.ofPosition ⟨1, 0⟩, Block.ofPosition ⟨1, 1⟩,
              Block.ofPosition ⟨2, 0⟩]⟩,
          ⟨[[Colour.red, Colour.background, Colour.background],
            [Colour.red, Colour.red, Colour.background],
            [Colour.red, Colour.red, Colour.background]]⟩⟩ : Game 3 3) Command.RotateRight) 0
      = some (⟨Command.Idle,
          Figure.barT ⟨⟨0, 0⟩, 3,
            [Block.ofPosition ⟨0, 0⟩, Block.ofPosition ⟨1, 0⟩, Block.ofPosition ⟨1, 1⟩,
              Block.ofPosition ⟨2, 0⟩]⟩,
          ⟨[[Colour.red, Colour.background, Colour.background],
            [Colour.red, Colour.red, Colour.background],
            [Colour.red, Colour.red, Colour.background]]⟩⟩ : Game 3 3) := by
  decide

end Tetris
